import Mathlib

/-! # Scribely: the recording and transcription-job orchestrator

A shallow embedding of `frontend/src/pages/Transcribe.js`.

* The `useState` cells of the component are the record `State`.
* The `useRef` cells, the browser's table of live intervals and the closure
  variable `interval` of the poll effect are the remaining fields of `Comp`.
* Every handler is a function on `Comp`.  The values a handler reads from the
  render that created it (`isRecording`, `isPaused`, `jobId`, `specialty`) are
  passed as the argument `cl`; the results of the awaited calls (microphone
  request, HTTP requests) are passed as outcome arguments.  A handler returns
  the new component together with the list of requests, navigations and
  toasts it issued, in program order.
* The two effects with dependency lists are run by `commit`, which compares
  the dependencies of the previous render with those of the new one.
* A handler function runs one call from its first line to its last with
  nothing in between.  The section "Calls in flight" splits the asynchronous
  handlers at each `await`, so that clicks, timer callbacks and the answers of
  other calls can run while a call is suspended.
* The function `formatTime` works on Numbers; its embedding is given on the
  natural numbers that are Numbers.
-/

namespace Scribely

/-! ## Values -/

/-- The JavaScript scalars that can arrive in a JSON response field. -/
inductive JsVal where
  | null
  | undefined
  | bool (b : Bool)
  | num (n : Int)
  | str (s : String)
  deriving DecidableEq, Repr

/-- The truthiness test of JavaScript, as used by `if (x)`, `x && y` and `!x`. -/
def JsVal.truthy : JsVal → Bool
  | .null => false
  | .undefined => false
  | .bool b => b
  | .num n => n != 0
  | .str s => s != ""

/-- The values `transcriptionStatus` is ever set to (line 20 of the source). -/
inductive TStatus where
  | idle
  | processing
  | completed
  | error
  deriving DecidableEq, Repr

/-- The `useState` cells of `Transcribe` (lines 16 to 23). -/
structure State where
  isRecording : Bool
  isPaused : Bool
  recordingTime : Nat
  transcriptionText : JsVal
  transcriptionStatus : TStatus
  uploadingFile : Bool
  specialty : String
  jobId : JsVal
  deriving DecidableEq, Repr

/-- The initial values given to `useState`. -/
def State.initial : State :=
  { isRecording := false
    isPaused := false
    recordingTime := 0
    transcriptionText := .str ""
    transcriptionStatus := .idle
    uploadingFile := false
    specialty := "PRIMARY_CARE"
    jobId := .null }

/-! ## Browser objects -/

/-- The `readyState` of a media stream track. -/
inductive TrackState where
  | live
  | ended
  deriving DecidableEq, Repr

/-- The `state` of a `MediaRecorder`. -/
inductive RecState where
  | inactive
  | recording
  | paused
  deriving DecidableEq, Repr

/-- A `MediaRecorder` together with the tracks of its `stream`. -/
structure MediaRecorder where
  state : RecState
  stream : List TrackState
  deriving DecidableEq, Repr

/-- Binary data (the `data` of a `dataavailable` event, a `Blob`): its bytes. -/
abbrev Blob := List Nat

/-- The file picked in the upload input: only `size` and `type` are read. -/
structure File where
  size : Nat
  type : String
  deriving DecidableEq, Repr

/-- Which callback an interval runs. -/
inductive TimerKind where
  | tick
  | poll (jId : JsVal)
  deriving DecidableEq, Repr

/-- A live interval: its id, its callback and the milliseconds elapsed since
it was armed or last fired. -/
structure Interval where
  id : Nat
  kind : TimerKind
  phase : Nat
  deriving DecidableEq, Repr

/-- The browser's interval table.  Ids are positive and never reused. -/
structure Timers where
  nextId : Nat
  live : List Interval
  deriving DecidableEq, Repr

/-- The interval table of a fresh page. -/
def Timers.initial : Timers := { nextId := 1, live := [] }

/-- The call `setInterval(callback, period)`: returns the id of the new interval. -/
def setInterval (k : TimerKind) (t : Timers) : Nat × Timers :=
  (t.nextId, { nextId := t.nextId + 1, live := { id := t.nextId, kind := k, phase := 0 } :: t.live })

/-- The call `clearInterval(id)`. -/
def clearInterval (id : Nat) (t : Timers) : Timers :=
  { t with live := t.live.filter (fun i => i.id != id) }

/-! ## Outcomes of awaited calls and issued requests -/

/-- The result of `navigator.mediaDevices.getUserMedia`. -/
inductive MicOutcome where
  | granted (stream : List TrackState)
  | denied
  deriving DecidableEq, Repr

/-- The result of a `POST` that creates a job: the `job_id` field of the
response, or a rejected promise. -/
inductive PostOutcome where
  | ok (job_id : JsVal)
  | failed
  deriving DecidableEq, Repr

/-- The result of the status query: the fields `status` and `transcript` of
the response, or a rejected promise (network error, timeout). -/
inductive QueryOutcome where
  | response (status : JsVal) (transcript : JsVal)
  | thrown
  deriving DecidableEq, Repr

/-- The result of the generate-note request: the `_id` field, or a rejection. -/
inductive GenOutcome where
  | ok (noteId : JsVal)
  | failed
  deriving DecidableEq, Repr

/-- What a handler does to the outside world. -/
inductive Event where
  | getUserMedia
  | postStart (specialty : String)
  | postUpload (file : File) (specialty : String)
  | getStatus (jId : JsVal)
  | postGenerate (transcriptionId : JsVal) (specialty : String)
  | navigate (noteId : JsVal)
  | toastError (msg : String)
  | toastSuccess (msg : String)
  | toastInfo (msg : String)
  deriving DecidableEq, Repr

/-! ## The component -/

/-- One mounted `Transcribe` component. -/
structure Comp where
  st : State
  mediaRecorderRef : Option MediaRecorder
  audioChunksRef : List Blob
  timerRef : Option Nat
  timers : Timers
  pollInterval : Option Nat
  deriving DecidableEq, Repr

/-- The test `haystack.includes(needle)` on the characters of two strings. -/
def includesChars : List Char → List Char → Bool
  | [], needle => needle.isEmpty
  | c :: cs, needle => needle.isPrefixOf (c :: cs) || includesChars cs needle

/-- The method `String.prototype.includes`. -/
def includes (haystack needle : String) : Bool :=
  includesChars haystack.data needle.data

/-! ## Handlers -/

/-- The handler `checkTranscriptionStatus` (lines 214 to 240). -/
def checkTranscriptionStatus (jId : JsVal) (q : QueryOutcome) (c : Comp) : Comp × List Event :=
  match q with
  | .response status transcript =>
    if status = .str "completed" then
      ({ c with st := { c.st with transcriptionStatus := .completed, transcriptionText := transcript } },
        [.getStatus jId, .toastSuccess "Transcription completed!"])
    else if status = .str "failed" then
      ({ c with st := { c.st with transcriptionStatus := .error } },
        [.getStatus jId, .toastError "Transcription failed. Please try again."])
    else (c, [.getStatus jId])
  | .thrown =>
    ({ c with st := { c.st with transcriptionStatus := .error } }, [.getStatus jId])

/-- The handler `startRecording` (lines 81 to 130), one call run to its end
with nothing between its two `await`s.  Its parts are `startRecordingBegin`,
`startRecordingGranted` and `startRecordingJobStarted`; in a `Page` other
callbacks run between them. -/
def startRecording (cl : State) (mic : MicOutcome) (post : PostOutcome) (c : Comp) :
    Comp × List Event :=
  let c1 : Comp :=
    { c with
      st := { c.st with recordingTime := 0, transcriptionText := .str "", transcriptionStatus := .idle }
      audioChunksRef := [] }
  match mic with
  | .denied =>
    (c1, [.getUserMedia, .toastError "Failed to access microphone. Please check permissions."])
  | .granted stream =>
    let c2 : Comp :=
      { c1 with
        mediaRecorderRef := some { state := .recording, stream := stream }
        st := { c1.st with isRecording := true, isPaused := false } }
    match post with
    | .ok job_id =>
      ({ c2 with st := { c2.st with jobId := job_id, transcriptionStatus := .processing } },
        [.getUserMedia, .postStart cl.specialty])
    | .failed =>
      (c2, [.getUserMedia, .postStart cl.specialty,
        .toastError "Failed to start transcription service"])

/-- The callback `mediaRecorder.ondataavailable` (lines 97 to 99). -/
def ondataavailable (chunk : Blob) (c : Comp) : Comp :=
  { c with audioChunksRef := c.audioChunksRef ++ [chunk] }

/-- The handler `pauseRecording` (lines 132 to 142). -/
def pauseRecording (cl : State) (c : Comp) : Comp :=
  match c.mediaRecorderRef with
  | none => c
  | some mr =>
    if cl.isRecording then
      if !cl.isPaused then
        { c with
          mediaRecorderRef := some { mr with state := .paused }
          st := { c.st with isPaused := true } }
      else
        { c with
          mediaRecorderRef := some { mr with state := .recording }
          st := { c.st with isPaused := false } }
    else c

/-- The handler `stopRecording` (lines 144 to 164) together with the answer of
the `checkTranscriptionStatus` it starts without awaiting, applied at once.
The part without the answer is `stopRecordingBegin`; in a `Page` the answer
arrives later, after other callbacks may have run. -/
def stopRecording (cl : State) (q : QueryOutcome) (c : Comp) : Comp × List Event :=
  match c.mediaRecorderRef with
  | none => (c, [])
  | some mr =>
    if cl.isRecording then
      let c1 : Comp :=
        { c with
          mediaRecorderRef := some { state := .inactive, stream := mr.stream.map (fun _ => .ended) }
          st := { c.st with isRecording := false, isPaused := false } }
      if cl.jobId.truthy then checkTranscriptionStatus cl.jobId q c1 else (c1, [])
    else (c, [])

/-- The handler `handleFileUpload` (lines 166 to 212); `file` is `e.target.files[0]`. -/
def handleFileUpload (cl : State) (file : Option File) (up : PostOutcome) (c : Comp) :
    Comp × List Event :=
  match file with
  | none => (c, [])
  | some f =>
    if f.size > 25 * 1024 * 1024 then (c, [.toastError "File size exceeds 25MB limit"])
    else if !includes f.type "audio" then (c, [.toastError "Please upload an audio file"])
    else
      match up with
      | .ok job_id =>
        ({ c with
            st := { c.st with
              jobId := job_id, transcriptionStatus := .processing, uploadingFile := false } },
          [.postUpload f cl.specialty, .toastInfo "Audio uploaded. Transcription in progress..."])
      | .failed =>
        ({ c with st := { c.st with uploadingFile := false } },
          [.postUpload f cl.specialty, .toastError "Failed to upload and transcribe audio file"])

/-- The handler `handleGenerateNote` (lines 242 to 271). -/
def handleGenerateNote (cl : State) (gen : GenOutcome) (c : Comp) : Comp × List Event :=
  if !cl.jobId.truthy then (c, [.toastError "No transcription available"])
  else
    match gen with
    | .ok noteId => (c, [.postGenerate cl.jobId cl.specialty, .navigate noteId])
    | .failed =>
      (c, [.postGenerate cl.jobId cl.specialty, .toastError "Failed to generate clinical note"])

/-- The button "Generate SOAP Note" (lines 466 to 471): it is disabled unless
`transcriptionStatus === 'completed'`, and a disabled button runs no handler. -/
def clickGenerateNote (gen : GenOutcome) (c : Comp) : Comp × List Event :=
  if c.st.transcriptionStatus ≠ .completed then (c, [])
  else handleGenerateNote c.st gen c

/-! ## Effects

The component registers three effects: the unmount cleanup (lines 31 to 39,
no dependencies), the tick effect (lines 41 to 56, dependencies `isRecording`
and `isPaused`) and the poll effect (lines 58 to 73, dependencies `jobId` and
`transcriptionStatus`). -/

/-- The cleanup returned by the tick effect (lines 51 to 55). -/
def tickCleanup (c : Comp) : Comp :=
  match c.timerRef with
  | some id => { c with timers := clearInterval id c.timers }
  | none => c

/-- The body of the tick effect (lines 43 to 49). -/
def tickEffect (c : Comp) : Comp :=
  if c.st.isRecording && !c.st.isPaused then
    { c with timerRef := some (setInterval .tick c.timers).1, timers := (setInterval .tick c.timers).2 }
  else
    match c.timerRef with
    | some id => { c with timers := clearInterval id c.timers }
    | none => c

/-- The cleanup returned by the poll effect (lines 68 to 72); `pollInterval`
is the variable `interval` of the run being cleaned up. -/
def pollCleanup (c : Comp) : Comp :=
  match c.pollInterval with
  | some id => { c with timers := clearInterval id c.timers }
  | none => c

/-- The body of the poll effect (lines 60 to 66). -/
def pollEffect (c : Comp) : Comp :=
  if c.st.jobId.truthy && c.st.transcriptionStatus = .processing then
    { c with
      pollInterval := some (setInterval (.poll c.st.jobId) c.timers).1
      timers := (setInterval (.poll c.st.jobId) c.timers).2 }
  else { c with pollInterval := none }

/-- The dependencies of the tick effect changed between two renders. -/
def tickDepsChanged (prev next : State) : Bool :=
  prev.isRecording != next.isRecording || prev.isPaused != next.isPaused

/-- The dependencies of the poll effect changed between two renders. -/
def pollDepsChanged (prev next : State) : Bool :=
  prev.jobId != next.jobId || prev.transcriptionStatus != next.transcriptionStatus

/-- What React does after a re-render: the cleanups of the effects whose
dependencies changed, then the bodies of those effects, in declaration order.
`prev` is the state of the previous render. -/
def commit (prev : State) (c : Comp) : Comp :=
  let c1 := if tickDepsChanged prev c.st then tickCleanup c else c
  let c2 := if pollDepsChanged prev c.st then pollCleanup c1 else c1
  let c3 := if tickDepsChanged prev c.st then tickEffect c2 else c2
  if pollDepsChanged prev c.st then pollEffect c3 else c3

/-- The component after its first render: every effect body has run once. -/
def Comp.mount : Comp :=
  pollEffect (tickEffect
    { st := State.initial
      mediaRecorderRef := none
      audioChunksRef := []
      timerRef := none
      timers := Timers.initial
      pollInterval := none })

/-- The cleanup of the first effect (lines 33 to 38).  The effect has an empty
dependency list, so the `stopRecording` it calls is the one created by the
first render, whose `isRecording` and `jobId` are those of `State.initial`. -/
def unmountCleanup (q : QueryOutcome) (c : Comp) : Comp × List Event :=
  stopRecording State.initial q (tickCleanup c)

/-- Unmounting: React runs the cleanup of every effect, in declaration order. -/
def unmount (q : QueryOutcome) (c : Comp) : Comp × List Event :=
  ((pollCleanup (tickCleanup (unmountCleanup q c).1)), (unmountCleanup q c).2)

/-- A handler call followed by the re-render it causes. -/
def act (h : Comp → Comp × List Event) (c : Comp) : Comp × List Event :=
  (commit c.st (h c).1, (h c).2)

/-- The live intervals that run the poll callback. -/
def pollTimers (c : Comp) : List Interval :=
  c.timers.live.filter (fun i => i.kind != .tick)

/-- The live intervals that run the tick callback. -/
def tickTimers (c : Comp) : List Interval :=
  c.timers.live.filter (fun i => i.kind == .tick)

/-- The period given to `setInterval` for each callback, in milliseconds. -/
def TimerKind.period : TimerKind → Nat
  | .tick => 1000
  | .poll _ => 3000

/-- How often the tick callback fires while `d` milliseconds pass. -/
def tickFirings (d : Nat) (t : Timers) : Nat :=
  ((t.live.filter (fun i => i.kind == .tick)).map (fun i => (i.phase + d) / 1000)).sum

/-- The passing of `d` milliseconds.  Every live interval fires each time its
phase reaches its period; a firing of the tick callback runs
`setRecordingTime((prevTime) => prevTime + 1)`.  A firing of the poll callback
issues a status query, whose answer is applied by `checkTranscriptionStatus`. -/
def elapse (d : Nat) (c : Comp) : Comp :=
  { c with
    st := { c.st with recordingTime := c.st.recordingTime + tickFirings d c.timers }
    timers := { c.timers with
      live := c.timers.live.map (fun i => { i with phase := (i.phase + d) % i.kind.period }) } }

/-- The button "Start Recording" (lines 352 to 361): rendered only while
`!isRecording`, disabled while uploading or processing. -/
def clickStart (mic : MicOutcome) (post : PostOutcome) (c : Comp) : Comp × List Event :=
  if c.st.isRecording || c.st.uploadingFile || c.st.transcriptionStatus = .processing then (c, [])
  else act (startRecording c.st mic post) c

/-- The button "Pause" / "Resume" (lines 364 to 380): rendered only while `isRecording`. -/
def clickPause (c : Comp) : Comp × List Event :=
  if !c.st.isRecording then (c, [])
  else act (fun x => (pauseRecording c.st x, [])) c

/-- The button "Stop" (lines 381 to 388): rendered only while `isRecording`. -/
def clickStop (q : QueryOutcome) (c : Comp) : Comp × List Event :=
  if !c.st.isRecording then (c, [])
  else act (stopRecording c.st q) c

/-- One pause of `p` milliseconds followed by `r` milliseconds of recording. -/
def pauseResume (pr : Nat × Nat) (c : Comp) : Comp :=
  elapse pr.2 (clickPause (elapse pr.1 (clickPause c).1)).1

/-- A whole session: start with the microphone granted, record for `r0`
milliseconds, then for each pair `(p, r)` pause for `p` milliseconds and
record again for `r` milliseconds, then stop. -/
def session (stream : List TrackState) (post : PostOutcome) (q : QueryOutcome)
    (r0 : Nat) (segs : List (Nat × Nat)) (c : Comp) : Comp :=
  (clickStop q
    (segs.foldl (fun x pr => pauseResume pr x)
      (elapse r0 (clickStart (.granted stream) post c).1))).1

/-- The top-level category of a MIME type, as the specification uses the
term: the text before the first `/`. -/
def mimeCategory (t : String) : String :=
  String.mk (t.data.takeWhile (fun ch => ch != '/'))

/-! ## Runs of the component -/

/-- The blob built by `new Blob(audioChunksRef.current, ...)` at line 154 of
`stopRecording`: the concatenation of the parts, in order. -/
def audioBlob (c : Comp) : Blob :=
  c.audioChunksRef.flatten

/-- The state update `(prevTime) => prevTime + 1` run by the tick callback (line 45). -/
def tickCallback (s : State) : State :=
  { s with recordingTime := s.recordingTime + 1 }

/-- What can happen to a mounted component: a call of one of the six handlers
by the render that is current, a `dataavailable` event of the recorder, or
the passing of time. -/
inductive Action where
  | start (mic : MicOutcome) (post : PostOutcome)
  | pause
  | stop (q : QueryOutcome)
  | upload (file : Option File) (up : PostOutcome)
  | check (jId : JsVal) (q : QueryOutcome)
  | generate (gen : GenOutcome)
  | data (chunk : Blob)
  | wait (d : Nat)
  deriving DecidableEq, Repr

/-- One action on the component.  A handler is called with the values of the
current render and is followed by the re-render it causes. -/
def step (a : Action) (c : Comp) : Comp × List Event :=
  match a with
  | .start mic post => act (startRecording c.st mic post) c
  | .pause => act (fun x => (pauseRecording c.st x, [])) c
  | .stop q => act (stopRecording c.st q) c
  | .upload file up => act (handleFileUpload c.st file up) c
  | .check jId q => act (checkTranscriptionStatus jId q) c
  | .generate gen => act (handleGenerateNote c.st gen) c
  | .data chunk => (ondataavailable chunk c, [])
  | .wait d => (elapse d c, [])

/-- The component after a list of actions, oldest first. -/
def run (acts : List Action) (c : Comp) : Comp :=
  acts.foldl (fun x a => (step a x).1) c

/-- The action is a call of `startRecording`. -/
def Action.isStart : Action → Bool
  | .start _ _ => true
  | _ => false

/-- The fragments delivered by the `dataavailable` events of a list of actions, in order. -/
def chunksOf (acts : List Action) : List Blob :=
  acts.filterMap (fun a => match a with | .data chunk => some chunk | _ => none)

/-- The job ids of the status queries in a list of events, in order. -/
def statusQueries (es : List Event) : List JsVal :=
  es.filterMap (fun e => match e with | .getStatus jId => some jId | _ => none)

/-! ## Predicates on components -/

/-- The condition under which the tick effect arms its interval (line 43). -/
def tickCond (s : State) : Bool :=
  s.isRecording && !s.isPaused

/-- The condition under which the poll effect arms its interval (line 62). -/
def pollCond (s : State) : Bool :=
  s.jobId.truthy && s.transcriptionStatus = .processing

/-- Some poll interval is live. -/
def pollLive (c : Comp) : Bool :=
  !(pollTimers c).isEmpty

/-- Some tick interval is live. -/
def tickLive (c : Comp) : Bool :=
  !(tickTimers c).isEmpty

/-- The capture device is held: the recorder's stream has a track that is live. -/
def deviceHeld (c : Comp) : Bool :=
  match c.mediaRecorderRef with
  | some mr => mr.stream.any (fun t => t == .live)
  | none => false

/-- A start-job request occurs in a list of events. -/
def sendsStart (es : List Event) : Bool :=
  es.any (fun e => match e with | .postStart _ => true | _ => false)

/-- An upload request occurs in a list of events. -/
def sendsUpload (es : List Event) : Bool :=
  es.any (fun e => match e with | .postUpload _ _ => true | _ => false)

/-- A generate-note request or a navigation occurs in a list of events. -/
def sendsGenerate (es : List Event) : Bool :=
  es.any (fun e => match e with | .postGenerate _ _ => true | .navigate _ => true | _ => false)

/-- Bookkeeping of interval ids: ids are fresh and distinct, every live tick
interval is the one `timerRef` points to, and every live poll interval is the
one created by the latest run of the poll effect. -/
structure TimersOK (c : Comp) : Prop where
  fresh : ∀ i ∈ c.timers.live, i.id < c.timers.nextId
  nodup : (c.timers.live.map (fun i => i.id)).Nodup
  refFresh : ∀ id, c.timerRef = some id → id < c.timers.nextId
  pollFresh : ∀ id, c.pollInterval = some id → id < c.timers.nextId
  apart : ∀ id, c.timerRef = some id → c.pollInterval ≠ some id
  tickRef : ∀ i ∈ c.timers.live, i.kind = .tick → c.timerRef = some i.id
  pollRef : ∀ i ∈ c.timers.live, i.kind ≠ .tick → c.pollInterval = some i.id

/-- The invariant of a component whose effects have run: the bookkeeping holds
and each interval is live exactly under the condition of its effect. -/
structure Inv (c : Comp) : Prop where
  ok : TimersOK c
  tick : tickLive c = tickCond c.st
  poll : pollLive c = pollCond c.st

/-- The components that can arise after the effects have run: the mounted
component, any change of the state cells and of the recorder and chunk refs
followed by the re-render it causes, and the passing of time. -/
inductive Reachable : Comp → Prop where
  | mount : Reachable Comp.mount
  | step (c : Comp) (st : State) (mr : Option MediaRecorder) (chunks : List Blob) :
      Reachable c →
      Reachable (commit c.st { c with st := st, mediaRecorderRef := mr, audioChunksRef := chunks })
  | elapse (c : Comp) (d : Nat) : Reachable c → Reachable (elapse d c)

/-- A component that is recording, with `n` seconds counted so far. -/
structure Recording (c : Comp) (n : Nat) : Prop where
  inv : Inv c
  isRec : c.st.isRecording = true
  notPaused : c.st.isPaused = false
  recorder : c.mediaRecorderRef ≠ none
  time : c.st.recordingTime = n

/-- A component that is recording and whose tick interval has just been armed. -/
structure Armed (c : Comp) (n : Nat) : Prop where
  recording : Recording c n
  fresh : ∃ id, tickTimers c = [{ id := id, kind := .tick, phase := 0 }]

/-- A component whose recording is paused, with `n` seconds counted so far. -/
structure Paused (c : Comp) (n : Nat) : Prop where
  inv : Inv c
  isRec : c.st.isRecording = true
  paused : c.st.isPaused = true
  recorder : c.mediaRecorderRef ≠ none
  time : c.st.recordingTime = n

/-! ## The specialty select, request summaries and outcome classes -/

/-- The call `setSpecialty(e.target.value)` of the select's `onChange` (line 298). -/
def setSpecialty (value : String) (c : Comp) : Comp :=
  { c with st := { c.st with specialty := value } }

/-- The specialty select (lines 293 to 307): it is disabled while recording,
while the status is processing and while a file is uploading, and a disabled
select fires no change event; otherwise the change is followed by a re-render. -/
def selectSpecialty (value : String) (c : Comp) : Comp :=
  if c.st.isRecording || c.st.transcriptionStatus = .processing || c.st.uploadingFile then c
  else commit c.st (setSpecialty value c)

/-- The job id that an action stores with `setJobId`, if it stores one: the
`job_id` of a successful start-job response after a granted microphone
request, or of a successful upload response for a file that passes both checks. -/
def createdJob : Action → Option JsVal
  | .start (.granted _) (.ok job_id) => some job_id
  | .upload (some f) (.ok job_id) =>
    if f.size > 25 * 1024 * 1024 then none
    else if !includes f.type "audio" then none
    else some job_id
  | _ => none

/-- The generate-note requests in a list of events: `transcription_id` and `specialty`. -/
def generateRequests (es : List Event) : List (JsVal × String) :=
  es.filterMap (fun e => match e with | .postGenerate tid sp => some (tid, sp) | _ => none)

/-- The start-job and upload requests in a list of events: the `specialty` sent. -/
def creationSpecialties (es : List Event) : List String :=
  es.filterMap (fun e =>
    match e with
    | .postStart sp => some sp
    | .postUpload _ sp => some sp
    | _ => none)

/-- The outcome takes the branch of `checkTranscriptionStatus` that sets nothing:
a response whose status is neither `completed` nor `failed`. -/
def QueryOutcome.isNoop : QueryOutcome → Bool
  | .response status _ => status != .str "completed" && status != .str "failed"
  | .thrown => false

/-- The outcome takes a branch of `checkTranscriptionStatus` that sets the status
to error: a `failed` response or a rejected query. -/
def QueryOutcome.isFailure : QueryOutcome → Bool
  | .response status _ => status == .str "failed"
  | .thrown => true

/-! ## The clock display -/

/-- The constant `Number.MAX_SAFE_INTEGER`: up to it every natural number is a
value of the Number type. -/
def maxSafeInteger : Nat := 2 ^ 53 - 1

/-- The number `x` with the factor `b` divided out as long as it divides, at
most `fuel` times. -/
def stripFactor (b : Nat) : Nat → Nat → Nat
  | 0, x => x
  | fuel + 1, x => if x ≠ 0 ∧ x % b = 0 then stripFactor b fuel (x / b) else x

/-- The natural number is a value of the Number type, an IEEE 754 double: it is
`m * 2 ^ e` with `m < 2 ^ 53` and `e ≤ 971`. -/
def isNumber (x : Nat) : Bool :=
  decide (stripFactor 2 971 x < 2 ^ 53)

/-- The decimal numeral of a natural number. -/
def decimal (n : Nat) : String :=
  Nat.repr n

/-- The exponent notation of `Number.prototype.toString` for the digits `s` of
the significand and the decimal exponent `e`: the first digit, a point and the
other digits if there are any, then `e+` and the exponent. -/
def exponential (s : String) (e : Nat) : String :=
  String.mk (s.data.take 1) ++ (if s.length ≤ 1 then "" else "." ++ String.mk (s.data.drop 1))
    ++ "e+" ++ decimal e

/-- The method `Number.prototype.toString` on a Number whose value is the
natural number `x`.  Up to `Number.MAX_SAFE_INTEGER` the result is the decimal
numeral.  Above it the shortest digits that denote the Number are determined
here only when `x` is a Number with at most 15 digits before its trailing
zeros: they are printed with the zeros below `10 ^ 21` and in exponent
notation from `10 ^ 21` on.  The result is `none` where `x` is no Number and
where its shortest digits are not determined here. -/
def numberToString (x : Nat) : Option String :=
  if x ≤ maxSafeInteger then some (decimal x)
  else if isNumber x && decide (stripFactor 10 400 x < 10 ^ 15) then
    if x < 10 ^ 21 then some (decimal x)
    else some (exponential (decimal (stripFactor 10 400 x)) ((decimal x).length - 1))
  else none

/-- The method `String.prototype.padStart`: when the string is shorter than
`targetLength`, the missing characters are taken from the repeated `padString`
and put in front. -/
def padStart (s : String) (targetLength : Nat) (padString : String) : String :=
  String.mk
    (((List.replicate (targetLength - s.length) padString.data).flatten.take
        (targetLength - s.length)) ++ s.data)

/-- The expression `Math.floor(seconds / 60)` of line 76 on a Number whose
value is the natural number `seconds`.  Up to `Number.MAX_SAFE_INTEGER` the
exact quotient is below `2 ^ 48`, where neighbouring Numbers are at most
`1 / 32` apart, so rounding moves it by at most `1 / 64`; it is an integer or
at least `1 / 60` below the next integer, so the floor of the rounded quotient
is the integer quotient.  Above it the result is determined here only when the
exact quotient is an integer and a Number, which the division then returns.
The result is `none` elsewhere. -/
def floorDiv60 (seconds : Nat) : Option Nat :=
  if seconds ≤ maxSafeInteger then some (seconds / 60)
  else if isNumber seconds && decide (seconds % 60 = 0) && isNumber (seconds / 60) then
    some (seconds / 60)
  else none

/-- The function `formatTime` (lines 75 to 79) on a Number whose value is the
natural number `seconds`; the remainder `seconds % 60` of Numbers is exact.
The result is `none` where `seconds` is no Number and where `floorDiv60` or
`numberToString` is. -/
def formatTime (seconds : Nat) : Option String :=
  if isNumber seconds then
    (floorDiv60 seconds).bind fun minutes =>
      (numberToString minutes).bind fun m =>
        (numberToString (seconds % 60)).bind fun s =>
          some (padStart m 2 "0" ++ ":" ++ padStart s 2 "0")
  else none

/-- Following the claim, the MM:SS rendering of a natural number: the decimal
numeral of the quotient by 60 padded on the left with `0` to two characters,
a colon, and the remainder modulo 60 padded likewise. -/
def clockText (n : Nat) : String :=
  padStart (decimal (n / 60)) 2 "0" ++ ":" ++ padStart (decimal (n % 60)) 2 "0"

/-- The number written by a list of decimal digit characters. -/
def readDecimal (cs : List Char) : Nat :=
  cs.foldl (fun acc ch => 10 * acc + (ch.toNat - 48)) 0

/-- Reading a clock display back: sixty times the field before the colon plus
the field after it. -/
def readTime (s : String) : Nat :=
  60 * readDecimal (s.data.takeWhile (fun ch => ch != ':')) +
    readDecimal ((s.data.dropWhile (fun ch => ch != ':')).drop 1)

/-! ## The route guard of `App.js` -/

/-- The content of `localStorage`: keys with their values. -/
abbrev Storage := List (String × String)

/-- The call `localStorage.getItem(key)`: `none` stands for `null`. -/
def getItem (storage : Storage) (key : String) : Option String :=
  storage.lookup key

/-- What a route component renders: its children, or a `Navigate` element. -/
inductive Rendered (α : Type) where
  | children (x : α)
  | navigate (target : String) (replace : Bool)
  deriving DecidableEq, Repr

/-- The component `ProtectedRoute` (`App.js`, lines 23 to 31). -/
def ProtectedRoute {α : Type} (storage : Storage) (children : α) : Rendered α :=
  if !(getItem storage "token" != none) then .navigate "/login" true
  else .children children

/-! ## Calls in flight

The handlers `startRecording`, `handleFileUpload`, `checkTranscriptionStatus`
and `handleGenerateNote` are suspended at each `await`, and `stopRecording`
does not await the `checkTranscriptionStatus` it calls.  While a call is
suspended, other handlers, the select and the answers of other calls can run.
A `Page` is the component together with the suspended calls; a `Move` is a
user action, a timer callback, or the answer that resumes one suspended call. -/

/-- The part of `startRecording` before its first `await` (lines 84 to 90):
the reset, then the microphone request. -/
def startRecordingBegin (c : Comp) : Comp :=
  { c with
    st := { c.st with recordingTime := 0, transcriptionText := .str "", transcriptionStatus := .idle }
    audioChunksRef := [] }

/-- The part of `startRecording` that runs when the microphone request is
granted (lines 93 to 104), up to the start-job request of line 108. -/
def startRecordingGranted (stream : List TrackState) (c : Comp) : Comp :=
  { c with
    mediaRecorderRef := some { state := .recording, stream := stream }
    st := { c.st with isRecording := true, isPaused := false } }

/-- The part of `startRecording` that runs when the start-job request succeeds
(lines 119 to 120). -/
def startRecordingJobStarted (job_id : JsVal) (c : Comp) : Comp :=
  { c with st := { c.st with jobId := job_id, transcriptionStatus := .processing } }

/-- The body of `stopRecording` (lines 145 to 162) without the answer of the
status query it starts: the new component and the job ids queried. -/
def stopRecordingBegin (cl : State) (c : Comp) : Comp × List JsVal :=
  match c.mediaRecorderRef with
  | none => (c, [])
  | some mr =>
    if cl.isRecording then
      ({ c with
          mediaRecorderRef := some { state := .inactive, stream := mr.stream.map (fun _ => .ended) }
          st := { c.st with isRecording := false, isPaused := false } },
        if cl.jobId.truthy then [cl.jobId] else [])
    else (c, [])

/-- A handler call that is suspended at an `await`, with the values of the
render that created the handler where the rest of the call reads them. -/
inductive Pending where
  | mic (cl : State)
  | startJob (cl : State)
  | upload (cl : State) (file : File)
  | status (jId : JsVal)
  | note (cl : State)
  deriving DecidableEq, Repr

/-- The answer that resumes a suspended call. -/
inductive Answer where
  | mic (o : MicOutcome)
  | post (o : PostOutcome)
  | query (o : QueryOutcome)
  | gen (o : GenOutcome)
  deriving DecidableEq, Repr

/-- The component together with its suspended calls, oldest first. -/
structure Page where
  comp : Comp
  pending : List Pending
  deriving DecidableEq, Repr

/-- The page after the first render. -/
def Page.mount : Page :=
  { comp := Comp.mount, pending := [] }

/-- What can happen to a page: a click on a button, a change of the file
input or of the select, a firing of the poll interval, the answer to the
suspended call at a position of the list, a fragment of the recorder, or the
passing of time. -/
inductive Move where
  | clickStart
  | clickPause
  | clickStop
  | pickFile (file : Option File)
  | clickGenerate
  | select (value : String)
  | pollTick
  | resolve (i : Nat) (a : Answer)
  | data (chunk : Blob)
  | wait (d : Nat)
  deriving DecidableEq, Repr

/-- The resumption of one suspended call by its answer: the new component, the
calls it suspends anew, and what it does to the outside. An answer of the
wrong kind resumes nothing. -/
def resume (pd : Pending) (a : Answer) (c : Comp) : Option (Comp × List Pending × List Event) :=
  match pd, a with
  | .mic cl, .mic (.granted stream) =>
    some (startRecordingGranted stream c, [.startJob cl], [.postStart cl.specialty])
  | .mic _, .mic .denied =>
    some (c, [], [.toastError "Failed to access microphone. Please check permissions."])
  | .startJob _, .post (.ok job_id) => some (startRecordingJobStarted job_id c, [], [])
  | .startJob _, .post .failed =>
    some (c, [], [.toastError "Failed to start transcription service"])
  | .upload _ _, .post (.ok job_id) =>
    some ({ c with
        st := { c.st with
          jobId := job_id, transcriptionStatus := .processing, uploadingFile := false } },
      [], [.toastInfo "Audio uploaded. Transcription in progress..."])
  | .upload _ _, .post .failed =>
    some ({ c with st := { c.st with uploadingFile := false } }, [],
      [.toastError "Failed to upload and transcribe audio file"])
  | .status jId, .query q =>
    some ((checkTranscriptionStatus jId q c).1, [], (checkTranscriptionStatus jId q c).2.tail)
  | .note _, .gen (.ok noteId) => some (c, [], [.navigate noteId])
  | .note _, .gen .failed => some (c, [], [.toastError "Failed to generate clinical note"])
  | _, _ => none

/-- One move on a page.  Every change of the state cells is followed by the
re-render it causes. -/
def move (m : Move) (p : Page) : Page × List Event :=
  match m with
  | .clickStart =>
    if p.comp.st.isRecording || p.comp.st.uploadingFile
        || p.comp.st.transcriptionStatus = .processing then (p, [])
    else
      ({ comp := commit p.comp.st (startRecordingBegin p.comp)
         pending := p.pending ++ [.mic p.comp.st] }, [.getUserMedia])
  | .clickPause =>
    if !p.comp.st.isRecording then (p, [])
    else ({ p with comp := commit p.comp.st (pauseRecording p.comp.st p.comp) }, [])
  | .clickStop =>
    if !p.comp.st.isRecording then (p, [])
    else
      ({ comp := commit p.comp.st (stopRecordingBegin p.comp.st p.comp).1
         pending := p.pending ++ (stopRecordingBegin p.comp.st p.comp).2.map Pending.status },
        (stopRecordingBegin p.comp.st p.comp).2.map Event.getStatus)
  | .pickFile file =>
    if p.comp.st.isRecording || p.comp.st.uploadingFile
        || p.comp.st.transcriptionStatus = .processing then (p, [])
    else
      match file with
      | none => (p, [])
      | some f =>
        if f.size > 25 * 1024 * 1024 then (p, [.toastError "File size exceeds 25MB limit"])
        else if !includes f.type "audio" then (p, [.toastError "Please upload an audio file"])
        else
          ({ comp := commit p.comp.st { p.comp with st := { p.comp.st with uploadingFile := true } }
             pending := p.pending ++ [.upload p.comp.st f] },
            [.postUpload f p.comp.st.specialty])
  | .clickGenerate =>
    if p.comp.st.transcriptionStatus ≠ .completed then (p, [])
    else if !p.comp.st.jobId.truthy then (p, [.toastError "No transcription available"])
    else
      ({ p with pending := p.pending ++ [.note p.comp.st] },
        [.postGenerate p.comp.st.jobId p.comp.st.specialty])
  | .select value => ({ p with comp := selectSpecialty value p.comp }, [])
  | .pollTick =>
    match pollTimers p.comp with
    | [] => (p, [])
    | i :: _ =>
      match i.kind with
      | .poll jId => ({ p with pending := p.pending ++ [.status jId] }, [.getStatus jId])
      | .tick => (p, [])
  | .resolve i a =>
    match p.pending.get? i with
    | none => (p, [])
    | some pd =>
      match resume pd a p.comp with
      | none => (p, [])
      | some r =>
        ({ comp := commit p.comp.st r.1, pending := p.pending.eraseIdx i ++ r.2.1 }, r.2.2)
  | .data chunk => ({ p with comp := ondataavailable chunk p.comp }, [])
  | .wait d => ({ p with comp := elapse d p.comp }, [])

/-- The page after a list of moves, oldest first, and everything done to the outside. -/
def play (moves : List Move) (p : Page) : Page × List Event :=
  moves.foldl (fun x m => ((move m x.1).1, x.2 ++ (move m x.1).2)) (p, [])

/-- The values of the render that a suspended call closed over, if it reads any. -/
def Pending.closure : Pending → Option State
  | .mic cl => some cl
  | .startJob cl => some cl
  | .upload cl _ => some cl
  | .status _ => none
  | .note cl => some cl

/-- The specialty carried by a start-job, upload or generate-note request. -/
def Event.specialty : Event → Option String
  | .postStart sp => some sp
  | .postUpload _ sp => some sp
  | .postGenerate _ sp => some sp
  | _ => none

/-- The move is a change of the specialty select. -/
def Move.isSelect : Move → Bool
  | .select _ => true
  | _ => false

/-- The state cell and every suspended call hold the specialty `s`. -/
def Aligned (s : String) (p : Page) : Prop :=
  p.comp.st.specialty = s ∧ ∀ pd ∈ p.pending, ∀ cl, pd.closure = some cl → cl.specialty = s

/-! ## Concrete components and files used in examples -/

/-- A component whose job "J1" has completed with a transcript. -/
def exCompleted : Comp :=
  { Comp.mount with
    st := { State.initial with
      jobId := .str "J1", transcriptionStatus := .completed,
      transcriptionText := .str "chest pain", specialty := "CARDIOLOGY" } }

/-- A component whose job "J1" is still being transcribed. -/
def exProcessing : Comp :=
  { Comp.mount with
    st := { State.initial with
      jobId := .str "J1", transcriptionStatus := .processing, specialty := "CARDIOLOGY" } }

/-- The component after a successful start whose job id is "J1". -/
def exRecording : Comp :=
  (clickStart (.granted [.live]) (.ok (.str "J1")) Comp.mount).1

/-- The component after a successful start whose job id is the empty string. -/
def exEmptyJobId : Comp :=
  (clickStart (.granted [.live]) (.ok (.str "")) Comp.mount).1

/-- The component `exRecording` after a poll answered that job "J1" completed. -/
def exDone : Comp :=
  (act (checkTranscriptionStatus (.str "J1")
    (.response (.str "completed") (.str "chest pain"))) exRecording).1

/-- A component whose earlier job "J0" completed and whose recording was stopped. -/
def exEarlierJob : Comp :=
  run [.start (.granted [.live]) (.ok (.str "J0")),
    .check (.str "J0") (.response (.str "completed") (.str "old transcript")),
    .stop (.response (.str "completed") (.str "old transcript"))] Comp.mount

/-- An audio file of `n` bytes. -/
def exAudio (n : Nat) : File := { size := n, type := "audio/mpeg" }

/-- A small file of type `application/x-audio`. -/
def exXAudio : File := { size := 1024, type := "application/x-audio" }

/-- A small file of type `text/plain`. -/
def exText : File := { size := 1024, type := "text/plain" }


/-! ## Lemmas on intervals and effects -/

theorem mem_clearInterval (id : Nat) (t : Timers) (i : Interval) :
    i ∈ (clearInterval id t).live ↔ i ∈ t.live ∧ i.id ≠ id := by
  simp [clearInterval, List.mem_filter]

theorem timersOK_clear {c : Comp} (h : TimersOK c) (id : Nat) :
    TimersOK { c with timers := clearInterval id c.timers } where
  fresh i hi := h.fresh i ((mem_clearInterval id _ i).1 hi).1
  nodup := by
    have hsub : ((clearInterval id c.timers).live.map (fun i => i.id)).Sublist
        (c.timers.live.map (fun i => i.id)) := by
      simp only [clearInterval]
      exact List.Sublist.map _ (List.filter_sublist _)
    exact h.nodup.sublist hsub
  refFresh := h.refFresh
  pollFresh := h.pollFresh
  apart := h.apart
  tickRef i hi := h.tickRef i ((mem_clearInterval id _ i).1 hi).1
  pollRef i hi := h.pollRef i ((mem_clearInterval id _ i).1 hi).1

theorem timersOK_armTick {c : Comp} (h : TimersOK c) (hno : tickTimers c = []) :
    TimersOK { c with
      timerRef := some (setInterval .tick c.timers).1
      timers := (setInterval .tick c.timers).2 } where
  fresh i hi := by
    simp only [setInterval, List.mem_cons] at hi
    rcases hi with rfl | hi
    · simp [setInterval]
    · have := h.fresh i hi
      simp only [setInterval]
      omega
  nodup := by
    simp only [setInterval, List.map_cons, List.nodup_cons]
    refine ⟨?_, h.nodup⟩
    intro hmem
    rcases List.mem_map.1 hmem with ⟨i, hi, hid⟩
    have := h.fresh i hi
    omega
  refFresh id hid := by
    simp only [setInterval, Option.some.injEq] at hid ⊢
    omega
  pollFresh id hid := by
    have := h.pollFresh id hid
    simp only [setInterval]
    omega
  apart id hid hp := by
    simp only [setInterval, Option.some.injEq] at hid
    have := h.pollFresh id hp
    omega
  tickRef i hi hk := by
    simp only [setInterval, List.mem_cons] at hi
    rcases hi with rfl | hi
    · simp [setInterval]
    · exfalso
      have hmem : i ∈ tickTimers c := by
        simp [tickTimers, List.mem_filter, hi, hk]
      rw [hno] at hmem
      exact List.not_mem_nil _ hmem
  pollRef i hi hk := by
    simp only [setInterval, List.mem_cons] at hi
    rcases hi with rfl | hi
    · exact absurd rfl hk
    · exact h.pollRef i hi hk

theorem timersOK_armPoll {c : Comp} (h : TimersOK c) (hno : pollTimers c = []) (j : JsVal) :
    TimersOK { c with
      pollInterval := some (setInterval (.poll j) c.timers).1
      timers := (setInterval (.poll j) c.timers).2 } where
  fresh i hi := by
    simp only [setInterval, List.mem_cons] at hi
    rcases hi with rfl | hi
    · simp [setInterval]
    · have := h.fresh i hi
      simp only [setInterval]
      omega
  nodup := by
    simp only [setInterval, List.map_cons, List.nodup_cons]
    refine ⟨?_, h.nodup⟩
    intro hmem
    rcases List.mem_map.1 hmem with ⟨i, hi, hid⟩
    have := h.fresh i hi
    omega
  refFresh id hid := by
    have := h.refFresh id hid
    simp only [setInterval]
    omega
  pollFresh id hid := by
    simp only [setInterval, Option.some.injEq] at hid ⊢
    omega
  apart id hid hp := by
    simp only [setInterval, Option.some.injEq] at hp
    have := h.refFresh id hid
    omega
  tickRef i hi hk := by
    simp only [setInterval, List.mem_cons] at hi
    rcases hi with rfl | hi
    · simp at hk
    · exact h.tickRef i hi hk
  pollRef i hi hk := by
    simp only [setInterval, List.mem_cons] at hi
    rcases hi with rfl | hi
    · simp [setInterval]
    · exfalso
      have hmem : i ∈ pollTimers c := by
        simp [pollTimers, List.mem_filter, hi, hk]
      rw [hno] at hmem
      exact List.not_mem_nil _ hmem

theorem timersOK_unsetPoll {c : Comp} (h : TimersOK c) (hno : pollTimers c = []) :
    TimersOK { c with pollInterval := none } where
  fresh := h.fresh
  nodup := h.nodup
  refFresh := h.refFresh
  pollFresh id hid := by simp at hid
  apart id _ hp := by simp at hp
  tickRef := h.tickRef
  pollRef i hi hk := by
    exfalso
    have hmem : i ∈ pollTimers c := by
      simp [pollTimers, List.mem_filter, hi, hk]
    rw [hno] at hmem
    exact List.not_mem_nil _ hmem


theorem filter_clearInterval (id : Nat) (t : Timers) (p : Interval → Bool)
    (h : ∀ i ∈ t.live, p i = true → i.id ≠ id) :
    (clearInterval id t).live.filter p = t.live.filter p := by
  simp only [clearInterval, List.filter_filter]
  apply List.filter_congr
  intro i hi
  cases hp : p i
  · simp
  · simp [h i hi hp]

theorem filter_clearInterval_nil (id : Nat) (t : Timers) (p : Interval → Bool)
    (h : ∀ i ∈ t.live, p i = true → i.id = id) :
    (clearInterval id t).live.filter p = [] := by
  rw [List.filter_eq_nil_iff]
  intro i hi hp
  rcases (mem_clearInterval id t i).1 hi with ⟨hmem, hne⟩
  exact hne (h i hmem hp)

/-! ### The tick cleanup -/

@[simp] theorem tickCleanup_st (c : Comp) : (tickCleanup c).st = c.st := by
  unfold tickCleanup; split <;> rfl

@[simp] theorem tickCleanup_timerRef (c : Comp) : (tickCleanup c).timerRef = c.timerRef := by
  unfold tickCleanup; split <;> rfl

@[simp] theorem tickCleanup_pollInterval (c : Comp) :
    (tickCleanup c).pollInterval = c.pollInterval := by
  unfold tickCleanup; split <;> rfl

@[simp] theorem tickCleanup_mediaRecorderRef (c : Comp) :
    (tickCleanup c).mediaRecorderRef = c.mediaRecorderRef := by
  unfold tickCleanup; split <;> rfl

@[simp] theorem tickCleanup_audioChunksRef (c : Comp) :
    (tickCleanup c).audioChunksRef = c.audioChunksRef := by
  unfold tickCleanup; split <;> rfl

theorem tickCleanup_ok {c : Comp} (h : TimersOK c) : TimersOK (tickCleanup c) := by
  unfold tickCleanup
  split
  · exact timersOK_clear h _
  · exact h

theorem tickCleanup_tick {c : Comp} (h : TimersOK c) : tickTimers (tickCleanup c) = [] := by
  unfold tickCleanup
  split
  next id hid =>
    apply filter_clearInterval_nil
    intro i hi hk
    have := h.tickRef i hi (by simpa using hk)
    rw [hid] at this
    exact (Option.some.inj this).symm
  next hnone =>
    simp only [tickTimers]
    rw [List.filter_eq_nil_iff]
    intro i hi hk
    have := h.tickRef i hi (by simpa using hk)
    rw [hnone] at this
    exact Option.noConfusion this

theorem tickCleanup_poll {c : Comp} (h : TimersOK c) :
    pollTimers (tickCleanup c) = pollTimers c := by
  unfold tickCleanup
  split
  next id hid =>
    apply filter_clearInterval
    intro i hi hk heq
    have hp := h.pollRef i hi (by simpa using hk)
    exact h.apart id hid (heq ▸ hp)
  next => rfl

/-! ### The poll cleanup -/

@[simp] theorem pollCleanup_st (c : Comp) : (pollCleanup c).st = c.st := by
  unfold pollCleanup; split <;> rfl

@[simp] theorem pollCleanup_timerRef (c : Comp) : (pollCleanup c).timerRef = c.timerRef := by
  unfold pollCleanup; split <;> rfl

@[simp] theorem pollCleanup_pollInterval (c : Comp) :
    (pollCleanup c).pollInterval = c.pollInterval := by
  unfold pollCleanup; split <;> rfl

@[simp] theorem pollCleanup_mediaRecorderRef (c : Comp) :
    (pollCleanup c).mediaRecorderRef = c.mediaRecorderRef := by
  unfold pollCleanup; split <;> rfl

@[simp] theorem pollCleanup_audioChunksRef (c : Comp) :
    (pollCleanup c).audioChunksRef = c.audioChunksRef := by
  unfold pollCleanup; split <;> rfl

theorem pollCleanup_ok {c : Comp} (h : TimersOK c) : TimersOK (pollCleanup c) := by
  unfold pollCleanup
  split
  · exact timersOK_clear h _
  · exact h

theorem pollCleanup_poll {c : Comp} (h : TimersOK c) : pollTimers (pollCleanup c) = [] := by
  unfold pollCleanup
  split
  next id hid =>
    apply filter_clearInterval_nil
    intro i hi hk
    have := h.pollRef i hi (by simpa using hk)
    rw [hid] at this
    exact (Option.some.inj this).symm
  next hnone =>
    simp only [pollTimers]
    rw [List.filter_eq_nil_iff]
    intro i hi hk
    have := h.pollRef i hi (by simpa using hk)
    rw [hnone] at this
    exact Option.noConfusion this

theorem pollCleanup_tick {c : Comp} (h : TimersOK c) :
    tickTimers (pollCleanup c) = tickTimers c := by
  unfold pollCleanup
  split
  next id hid =>
    apply filter_clearInterval
    intro i hi hk heq
    have ht := h.tickRef i hi (by simpa using hk)
    exact h.apart id (heq ▸ ht) hid
  next => rfl


/-! ### The tick effect -/

theorem tickEffect_eq (c : Comp) :
    tickEffect c =
      if tickCond c.st then
        { c with
          timerRef := some (setInterval .tick c.timers).1
          timers := (setInterval .tick c.timers).2 }
      else tickCleanup c := rfl

@[simp] theorem tickEffect_st (c : Comp) : (tickEffect c).st = c.st := by
  rw [tickEffect_eq]; split <;> simp

@[simp] theorem tickEffect_pollInterval (c : Comp) :
    (tickEffect c).pollInterval = c.pollInterval := by
  rw [tickEffect_eq]; split <;> simp

@[simp] theorem tickEffect_mediaRecorderRef (c : Comp) :
    (tickEffect c).mediaRecorderRef = c.mediaRecorderRef := by
  rw [tickEffect_eq]; split <;> simp

@[simp] theorem tickEffect_audioChunksRef (c : Comp) :
    (tickEffect c).audioChunksRef = c.audioChunksRef := by
  rw [tickEffect_eq]; split <;> simp

theorem tickEffect_ok {c : Comp} (h : TimersOK c) (hno : tickTimers c = []) :
    TimersOK (tickEffect c) := by
  rw [tickEffect_eq]
  split
  · exact timersOK_armTick h hno
  · exact tickCleanup_ok h

theorem tickEffect_tick {c : Comp} (h : TimersOK c) (hno : tickTimers c = []) :
    tickTimers (tickEffect c) =
      if tickCond c.st then [{ id := c.timers.nextId, kind := .tick, phase := 0 }] else [] := by
  rw [tickEffect_eq]
  split
  · simp only [tickTimers] at hno
    simp [tickTimers, setInterval, List.filter_cons, hno]
  · exact tickCleanup_tick h

theorem tickEffect_poll {c : Comp} (h : TimersOK c) :
    pollTimers (tickEffect c) = pollTimers c := by
  rw [tickEffect_eq]
  split
  · simp [pollTimers, setInterval, List.filter_cons]
  · exact tickCleanup_poll h

/-! ### The poll effect -/

theorem pollEffect_eq (c : Comp) :
    pollEffect c =
      if pollCond c.st then
        { c with
          pollInterval := some (setInterval (.poll c.st.jobId) c.timers).1
          timers := (setInterval (.poll c.st.jobId) c.timers).2 }
      else { c with pollInterval := none } := rfl

@[simp] theorem pollEffect_st (c : Comp) : (pollEffect c).st = c.st := by
  rw [pollEffect_eq]; split <;> rfl

@[simp] theorem pollEffect_timerRef (c : Comp) : (pollEffect c).timerRef = c.timerRef := by
  rw [pollEffect_eq]; split <;> rfl

@[simp] theorem pollEffect_mediaRecorderRef (c : Comp) :
    (pollEffect c).mediaRecorderRef = c.mediaRecorderRef := by
  rw [pollEffect_eq]; split <;> rfl

@[simp] theorem pollEffect_audioChunksRef (c : Comp) :
    (pollEffect c).audioChunksRef = c.audioChunksRef := by
  rw [pollEffect_eq]; split <;> rfl

theorem pollEffect_ok {c : Comp} (h : TimersOK c) (hno : pollTimers c = []) :
    TimersOK (pollEffect c) := by
  rw [pollEffect_eq]
  split
  · exact timersOK_armPoll h hno _
  · exact timersOK_unsetPoll h hno

theorem pollEffect_poll {c : Comp} (hno : pollTimers c = []) :
    pollTimers (pollEffect c) =
      if pollCond c.st then
        [{ id := c.timers.nextId, kind := .poll c.st.jobId, phase := 0 }]
      else [] := by
  rw [pollEffect_eq]
  split
  · simp only [pollTimers] at hno
    simp [pollTimers, setInterval, List.filter_cons, hno]
  · exact hno

theorem pollEffect_tick (c : Comp) : tickTimers (pollEffect c) = tickTimers c := by
  rw [pollEffect_eq]
  split
  · simp [tickTimers, setInterval, List.filter_cons]
  · rfl


/-! ### The commit -/

theorem tickEffect_nextId (c : Comp) :
    (tickEffect c).timers.nextId =
      if tickCond c.st then c.timers.nextId + 1 else c.timers.nextId := by
  rw [tickEffect_eq]
  split
  · rfl
  · unfold tickCleanup
    split <;> rfl

@[simp] theorem tickCleanup_nextId (c : Comp) :
    (tickCleanup c).timers.nextId = c.timers.nextId := by
  unfold tickCleanup; split <;> rfl

@[simp] theorem pollCleanup_nextId (c : Comp) :
    (pollCleanup c).timers.nextId = c.timers.nextId := by
  unfold pollCleanup; split <;> rfl

@[simp] theorem commit_st (prev : State) (c : Comp) : (commit prev c).st = c.st := by
  unfold commit
  split_ifs <;> simp

@[simp] theorem commit_mediaRecorderRef (prev : State) (c : Comp) :
    (commit prev c).mediaRecorderRef = c.mediaRecorderRef := by
  unfold commit
  split_ifs <;> simp

@[simp] theorem commit_audioChunksRef (prev : State) (c : Comp) :
    (commit prev c).audioChunksRef = c.audioChunksRef := by
  unfold commit
  split_ifs <;> simp

theorem commit_eq (prev : State) (c : Comp) :
    commit prev c =
      match tickDepsChanged prev c.st, pollDepsChanged prev c.st with
      | true, true => pollEffect (tickEffect (pollCleanup (tickCleanup c)))
      | true, false => tickEffect (tickCleanup c)
      | false, true => pollEffect (pollCleanup c)
      | false, false => c := by
  unfold commit
  cases tickDepsChanged prev c.st <;> cases pollDepsChanged prev c.st <;> rfl

theorem commit_ok (prev : State) {c : Comp} (h : TimersOK c) : TimersOK (commit prev c) := by
  rw [commit_eq]
  cases tickDepsChanged prev c.st <;> cases pollDepsChanged prev c.st
  · exact h
  · exact pollEffect_ok (pollCleanup_ok h) (pollCleanup_poll h)
  · exact tickEffect_ok (tickCleanup_ok h) (tickCleanup_tick h)
  · have h1 := tickCleanup_ok h
    have h2 := pollCleanup_ok h1
    have t2 : tickTimers (pollCleanup (tickCleanup c)) = [] := by
      rw [pollCleanup_tick h1, tickCleanup_tick h]
    have h3 := tickEffect_ok h2 t2
    have p3 : pollTimers (tickEffect (pollCleanup (tickCleanup c))) = [] := by
      rw [tickEffect_poll h2, pollCleanup_poll h1]
    exact pollEffect_ok h3 p3

theorem commit_tick (prev : State) {c : Comp} (h : TimersOK c) :
    tickTimers (commit prev c) =
      if tickDepsChanged prev c.st then
        if tickCond c.st then [{ id := c.timers.nextId, kind := .tick, phase := 0 }] else []
      else tickTimers c := by
  rw [commit_eq]
  cases tickDepsChanged prev c.st <;> cases pollDepsChanged prev c.st
  · simp
  · show tickTimers (pollEffect (pollCleanup c)) = _
    rw [pollEffect_tick, pollCleanup_tick h]
    simp
  · show tickTimers (tickEffect (tickCleanup c)) = _
    rw [tickEffect_tick (tickCleanup_ok h) (tickCleanup_tick h)]
    simp
  · show tickTimers (pollEffect (tickEffect (pollCleanup (tickCleanup c)))) = _
    have h1 := tickCleanup_ok h
    have h2 := pollCleanup_ok h1
    have t2 : tickTimers (pollCleanup (tickCleanup c)) = [] := by
      rw [pollCleanup_tick h1, tickCleanup_tick h]
    rw [pollEffect_tick, tickEffect_tick h2 t2]
    simp

theorem commit_poll (prev : State) {c : Comp} (h : TimersOK c) :
    pollTimers (commit prev c) =
      if pollDepsChanged prev c.st then
        if pollCond c.st then
          [{ id := if tickDepsChanged prev c.st && tickCond c.st then c.timers.nextId + 1
                   else c.timers.nextId,
             kind := .poll c.st.jobId, phase := 0 }]
        else []
      else pollTimers c := by
  rw [commit_eq]
  cases tickDepsChanged prev c.st <;> cases pollDepsChanged prev c.st
  · simp
  · show pollTimers (pollEffect (pollCleanup c)) = _
    rw [pollEffect_poll (pollCleanup_poll h)]
    simp
  · show pollTimers (tickEffect (tickCleanup c)) = _
    rw [tickEffect_poll (tickCleanup_ok h), tickCleanup_poll h]
    simp
  · show pollTimers (pollEffect (tickEffect (pollCleanup (tickCleanup c)))) = _
    have h1 := tickCleanup_ok h
    have h2 := pollCleanup_ok h1
    have p3 : pollTimers (tickEffect (pollCleanup (tickCleanup c))) = [] := by
      rw [tickEffect_poll h2, pollCleanup_poll h1]
    rw [pollEffect_poll p3, tickEffect_nextId]
    simp

theorem tickCond_of_deps {prev next : State} (h : tickDepsChanged prev next = false) :
    tickCond next = tickCond prev := by
  simp only [tickDepsChanged, Bool.or_eq_false_iff, bne_eq_false_iff_eq] at h
  simp [tickCond, h.1, h.2]

theorem pollCond_of_deps {prev next : State} (h : pollDepsChanged prev next = false) :
    pollCond next = pollCond prev := by
  simp only [pollDepsChanged, Bool.or_eq_false_iff, bne_eq_false_iff_eq] at h
  simp [pollCond, h.1, h.2]


/-! ### The invariant -/

theorem timersOK_frame {c : Comp} (h : TimersOK c) (st : State) (mr : Option MediaRecorder)
    (chunks : List Blob) :
    TimersOK { c with st := st, mediaRecorderRef := mr, audioChunksRef := chunks } :=
  ⟨h.fresh, h.nodup, h.refFresh, h.pollFresh, h.apart, h.tickRef, h.pollRef⟩

theorem inv_commit {c : Comp} (h : Inv c) (st : State) (mr : Option MediaRecorder)
    (chunks : List Blob) :
    Inv (commit c.st { c with st := st, mediaRecorderRef := mr, audioChunksRef := chunks }) := by
  have hok := timersOK_frame h.ok st mr chunks
  refine ⟨commit_ok _ hok, ?_, ?_⟩
  · simp only [tickLive, commit_tick _ hok, commit_st]
    cases ht : tickDepsChanged c.st st
    · have := h.tick
      simp only [tickLive] at this
      simp only [Bool.false_eq_true, if_false]
      rw [tickCond_of_deps ht, ← this]
      rfl
    · cases tickCond st <;> simp
  · simp only [pollLive, commit_poll _ hok, commit_st]
    cases hp : pollDepsChanged c.st st
    · have := h.poll
      simp only [pollLive] at this
      simp only [Bool.false_eq_true, if_false]
      rw [pollCond_of_deps hp, ← this]
      rfl
    · cases pollCond st <;> simp

theorem elapse_tickTimers (d : Nat) (c : Comp) :
    tickTimers (elapse d c) =
      (tickTimers c).map (fun i => { i with phase := (i.phase + d) % i.kind.period }) := by
  simp only [tickTimers, elapse, List.filter_map]
  congr 1

theorem elapse_pollTimers (d : Nat) (c : Comp) :
    pollTimers (elapse d c) =
      (pollTimers c).map (fun i => { i with phase := (i.phase + d) % i.kind.period }) := by
  simp only [pollTimers, elapse, List.filter_map]
  congr 1

theorem timersOK_elapse {c : Comp} (h : TimersOK c) (d : Nat) : TimersOK (elapse d c) where
  fresh i hi := by
    simp only [elapse, List.mem_map] at hi
    rcases hi with ⟨j, hj, rfl⟩
    exact h.fresh j hj
  nodup := by
    have : (elapse d c).timers.live.map (fun i => i.id)
        = c.timers.live.map (fun i => i.id) := by
      simp [elapse, List.map_map, Function.comp_def]
    rw [this]
    exact h.nodup
  refFresh := h.refFresh
  pollFresh := h.pollFresh
  apart := h.apart
  tickRef i hi hk := by
    simp only [elapse, List.mem_map] at hi
    rcases hi with ⟨j, hj, rfl⟩
    exact h.tickRef j hj hk
  pollRef i hi hk := by
    simp only [elapse, List.mem_map] at hi
    rcases hi with ⟨j, hj, rfl⟩
    exact h.pollRef j hj hk

theorem inv_elapse {c : Comp} (h : Inv c) (d : Nat) : Inv (elapse d c) := by
  refine ⟨timersOK_elapse h.ok d, ?_, ?_⟩
  · have := h.tick
    simp only [tickLive] at this
    have hst : tickCond (elapse d c).st = tickCond c.st := rfl
    rw [hst, ← this]
    simp only [tickLive, elapse_tickTimers]
    cases tickTimers c <;> rfl
  · have := h.poll
    simp only [pollLive] at this
    have hst : pollCond (elapse d c).st = pollCond c.st := rfl
    rw [hst, ← this]
    simp only [pollLive, elapse_pollTimers]
    cases pollTimers c <;> rfl

theorem inv_mount : Inv Comp.mount := by
  have hl : Comp.mount.timers.live = [] := rfl
  have hr : Comp.mount.timerRef = none := rfl
  have hp : Comp.mount.pollInterval = none := rfl
  refine ⟨⟨?_, ?_, ?_, ?_, ?_, ?_, ?_⟩, rfl, rfl⟩
  · intro i hi; rw [hl] at hi; exact absurd hi (List.not_mem_nil _)
  · rw [hl]; exact List.nodup_nil
  · intro id hid; rw [hr] at hid; exact Option.noConfusion hid
  · intro id hid; rw [hp] at hid; exact Option.noConfusion hid
  · intro id hid; rw [hr] at hid; exact Option.noConfusion hid
  · intro i hi; rw [hl] at hi; exact absurd hi (List.not_mem_nil _)
  · intro i hi; rw [hl] at hi; exact absurd hi (List.not_mem_nil _)

theorem reachable_inv {c : Comp} (h : Reachable c) : Inv c := by
  induction h with
  | mount => exact inv_mount
  | step c st mr chunks _ ih => exact inv_commit ih st mr chunks
  | elapse c d _ ih => exact inv_elapse ih d

/-- With distinct ids, the intervals that all carry one id are at most one. -/
theorem length_le_one_of_same_id (l : List Interval) (hn : (l.map (fun i => i.id)).Nodup)
    (o : Option Nat) (hsame : ∀ i ∈ l, o = some i.id) : l.length ≤ 1 := by
  match l, hn, hsame with
  | [], _, _ => simp
  | [_], _, _ => simp
  | a :: b :: _, hn, hsame =>
    exfalso
    have ha := hsame a (by simp)
    have hb := hsame b (by simp)
    have hab : a.id = b.id := Option.some.inj (ha.symm.trans hb)
    simp [hab] at hn

theorem timersOK_pollTimers_length {c : Comp} (h : TimersOK c) : (pollTimers c).length ≤ 1 := by
  apply length_le_one_of_same_id _ _ c.pollInterval
  · intro i hi
    simp only [pollTimers, List.mem_filter] at hi
    exact h.pollRef i hi.1 (by simpa using hi.2)
  · exact h.nodup.sublist (List.Sublist.map _ (List.filter_sublist _))

theorem timersOK_tickTimers_length {c : Comp} (h : TimersOK c) : (tickTimers c).length ≤ 1 := by
  apply length_le_one_of_same_id _ _ c.timerRef
  · intro i hi
    simp only [tickTimers, List.mem_filter] at hi
    exact h.tickRef i hi.1 (by simpa using hi.2)
  · exact h.nodup.sublist (List.Sublist.map _ (List.filter_sublist _))


/-! ### Handlers and reachability -/

theorem act_fst (h : Comp → Comp × List Event) (c : Comp) :
    (act h c).1 = commit c.st (h c).1 := rfl

theorem inv_act {c : Comp} (hi : Inv c) (h : Comp → Comp × List Event)
    (ht : (h c).1.timers = c.timers) (hr : (h c).1.timerRef = c.timerRef)
    (hp : (h c).1.pollInterval = c.pollInterval) : Inv (act h c).1 := by
  have := inv_commit hi (h c).1.st (h c).1.mediaRecorderRef (h c).1.audioChunksRef
  have heq : (h c).1 = { c with
      st := (h c).1.st, mediaRecorderRef := (h c).1.mediaRecorderRef,
      audioChunksRef := (h c).1.audioChunksRef } := by
    generalize (h c).1 = x at ht hr hp
    cases x
    simp only at ht hr hp
    subst ht hr hp
    rfl
  rw [act_fst, heq]
  exact this

theorem reachable_act {c : Comp} (hc : Reachable c) (h : Comp → Comp × List Event)
    (ht : (h c).1.timers = c.timers) (hr : (h c).1.timerRef = c.timerRef)
    (hp : (h c).1.pollInterval = c.pollInterval) : Reachable (act h c).1 := by
  have := Reachable.step c (h c).1.st (h c).1.mediaRecorderRef (h c).1.audioChunksRef hc
  have heq : (h c).1 = { c with
      st := (h c).1.st, mediaRecorderRef := (h c).1.mediaRecorderRef,
      audioChunksRef := (h c).1.audioChunksRef } := by
    generalize (h c).1 = x at ht hr hp
    cases x
    simp only at ht hr hp
    subst ht hr hp
    rfl
  rw [act_fst, heq]
  exact this

theorem checkTranscriptionStatus_frame (jId : JsVal) (q : QueryOutcome) (c : Comp) :
    (checkTranscriptionStatus jId q c).1.timers = c.timers ∧
    (checkTranscriptionStatus jId q c).1.timerRef = c.timerRef ∧
    (checkTranscriptionStatus jId q c).1.pollInterval = c.pollInterval ∧
    (checkTranscriptionStatus jId q c).1.mediaRecorderRef = c.mediaRecorderRef ∧
    (checkTranscriptionStatus jId q c).1.audioChunksRef = c.audioChunksRef ∧
    (checkTranscriptionStatus jId q c).1.st.recordingTime = c.st.recordingTime ∧
    (checkTranscriptionStatus jId q c).1.st.isRecording = c.st.isRecording ∧
    (checkTranscriptionStatus jId q c).1.st.isPaused = c.st.isPaused := by
  cases q with
  | thrown => simp [checkTranscriptionStatus]
  | response status transcript =>
    simp only [checkTranscriptionStatus]
    split_ifs <;> simp

theorem startRecording_frame (cl : State) (mic : MicOutcome) (post : PostOutcome) (c : Comp) :
    (startRecording cl mic post c).1.timers = c.timers ∧
    (startRecording cl mic post c).1.timerRef = c.timerRef ∧
    (startRecording cl mic post c).1.pollInterval = c.pollInterval := by
  cases mic <;> cases post <;> simp [startRecording]

theorem pauseRecording_frame (cl : State) (c : Comp) :
    (pauseRecording cl c).timers = c.timers ∧
    (pauseRecording cl c).timerRef = c.timerRef ∧
    (pauseRecording cl c).pollInterval = c.pollInterval := by
  unfold pauseRecording
  split
  · simp
  · split_ifs <;> simp

theorem stopRecording_frame (cl : State) (q : QueryOutcome) (c : Comp) :
    (stopRecording cl q c).1.timers = c.timers ∧
    (stopRecording cl q c).1.timerRef = c.timerRef ∧
    (stopRecording cl q c).1.pollInterval = c.pollInterval ∧
    (stopRecording cl q c).1.st.recordingTime = c.st.recordingTime := by
  unfold stopRecording
  split
  · simp
  · split_ifs
    · have := checkTranscriptionStatus_frame cl.jobId q
      simp only [this]
      simp
    · simp
    · simp

theorem reachable_clickStart {c : Comp} (hc : Reachable c) (mic : MicOutcome)
    (post : PostOutcome) : Reachable (clickStart mic post c).1 := by
  unfold clickStart
  split
  · exact hc
  · have := startRecording_frame c.st mic post c
    exact reachable_act hc _ this.1 this.2.1 this.2.2


/-! ### Sessions -/

theorem reachable_exDone : Reachable exDone :=
  reachable_act (reachable_clickStart Reachable.mount _ _) _
    (checkTranscriptionStatus_frame _ _ _).1 (checkTranscriptionStatus_frame _ _ _).2.1
    (checkTranscriptionStatus_frame _ _ _).2.2.1

theorem tickFirings_eq (d : Nat) (c : Comp) :
    tickFirings d c.timers = ((tickTimers c).map (fun i => (i.phase + d) / 1000)).sum := rfl

theorem inv_tickTimers_nil {c : Comp} (h : Inv c) (hc : tickCond c.st = false) :
    tickTimers c = [] := by
  have := h.tick
  rw [hc] at this
  simp only [tickLive] at this
  exact List.isEmpty_iff.1 (by simpa using this)

theorem armed_elapse {c : Comp} {n : Nat} (h : Armed c n) (r : Nat) :
    Recording (elapse r c) (n + r / 1000) where
  inv := inv_elapse h.recording.inv r
  isRec := h.recording.isRec
  notPaused := h.recording.notPaused
  recorder := h.recording.recorder
  time := by
    rcases h.fresh with ⟨id, hid⟩
    show c.st.recordingTime + tickFirings r c.timers = n + r / 1000
    rw [tickFirings_eq, hid, h.recording.time]
    simp

theorem paused_elapse {c : Comp} {n : Nat} (h : Paused c n) (p : Nat) :
    Paused (elapse p c) n where
  inv := inv_elapse h.inv p
  isRec := h.isRec
  paused := h.paused
  recorder := h.recorder
  time := by
    have hnil : tickTimers c = [] := inv_tickTimers_nil h.inv (by simp [tickCond, h.paused])
    show c.st.recordingTime + tickFirings p c.timers = n
    rw [tickFirings_eq, hnil, h.time]
    simp

theorem recording_clickPause {c : Comp} {n : Nat} (h : Recording c n) :
    Paused (clickPause c).1 n := by
  obtain ⟨mr, hmr⟩ := Option.ne_none_iff_exists'.1 h.recorder
  have hp : pauseRecording c.st c =
      { c with
        mediaRecorderRef := some { mr with state := .paused }
        st := { c.st with isPaused := true } } := by
    simp [pauseRecording, hmr, h.isRec, h.notPaused]
  have hfr := pauseRecording_frame c.st c
  have hact : (clickPause c).1 = (act (fun x => (pauseRecording c.st x, [])) c).1 := by
    simp [clickPause, h.isRec]
  have hinv : Inv (clickPause c).1 := by
    rw [hact]
    exact inv_act h.inv _ hfr.1 hfr.2.1 hfr.2.2
  have hst : (clickPause c).1.st = { c.st with isPaused := true } := by
    rw [hact, act_fst, commit_st]
    simp only [hp]
  refine ⟨hinv, ?_, ?_, ?_, ?_⟩
  · rw [hst]; exact h.isRec
  · rw [hst]
  · rw [hact, act_fst, commit_mediaRecorderRef]
    simp only [hp]
    simp
  · rw [hst]; exact h.time

theorem paused_clickPause {c : Comp} {n : Nat} (h : Paused c n) :
    Armed (clickPause c).1 n := by
  obtain ⟨mr, hmr⟩ := Option.ne_none_iff_exists'.1 h.recorder
  have hp : pauseRecording c.st c =
      { c with
        mediaRecorderRef := some { mr with state := .recording }
        st := { c.st with isPaused := false } } := by
    simp [pauseRecording, hmr, h.isRec, h.paused]
  have hfr := pauseRecording_frame c.st c
  have hact : (clickPause c).1 = (act (fun x => (pauseRecording c.st x, [])) c).1 := by
    simp [clickPause, h.isRec]
  have hinv : Inv (clickPause c).1 := by
    rw [hact]
    exact inv_act h.inv _ hfr.1 hfr.2.1 hfr.2.2
  have hst : (clickPause c).1.st = { c.st with isPaused := false } := by
    rw [hact, act_fst, commit_st]
    simp only [hp]
  refine ⟨⟨hinv, ?_, ?_, ?_, ?_⟩, ?_⟩
  · rw [hst]; exact h.isRec
  · rw [hst]
  · rw [hact, act_fst, commit_mediaRecorderRef]
    simp only [hp]
    simp
  · rw [hst]; exact h.time
  · refine ⟨c.timers.nextId, ?_⟩
    rw [hact, act_fst]
    simp only [hp]
    rw [commit_tick _ (timersOK_frame h.inv.ok _ _ _)]
    simp [tickDepsChanged, tickCond, h.isRec, h.paused]

theorem recording_pauseResume {c : Comp} {n : Nat} (h : Recording c n) (pr : Nat × Nat) :
    Recording (pauseResume pr c) (n + pr.2 / 1000) :=
  armed_elapse (paused_clickPause (paused_elapse (recording_clickPause h) pr.1)) pr.2

theorem recording_foldl {c : Comp} {n : Nat} (h : Recording c n) (segs : List (Nat × Nat)) :
    Recording (segs.foldl (fun x pr => pauseResume pr x) c)
      (n + (segs.map (fun pr => pr.2 / 1000)).sum) := by
  induction segs generalizing c n with
  | nil => simpa using h
  | cons pr rest ih =>
    have := ih (recording_pauseResume h pr)
    simpa [List.foldl_cons, List.map_cons, List.sum_cons, Nat.add_assoc] using this

theorem inv_clickStart {c : Comp} (h : Inv c) (stream : List TrackState) (post : PostOutcome)
    (hidle : c.st.isRecording = false) (hup : c.st.uploadingFile = false)
    (hst : c.st.transcriptionStatus ≠ .processing) :
    Armed (clickStart (.granted stream) post c).1 0 := by
  have hfr := startRecording_frame c.st (.granted stream) post c
  have hact : (clickStart (.granted stream) post c).1
      = (act (startRecording c.st (.granted stream) post) c).1 := by
    simp [clickStart, hidle, hup, hst]
  have hinv : Inv (clickStart (.granted stream) post c).1 := by
    rw [hact]
    exact inv_act h _ hfr.1 hfr.2.1 hfr.2.2
  rw [hact] at hinv ⊢
  cases post with
  | ok job_id =>
    refine ⟨⟨hinv, ?_, ?_, ?_, ?_⟩, c.timers.nextId, ?_⟩
    · simp [act_fst, startRecording]
    · simp [act_fst, startRecording]
    · simp [act_fst, startRecording]
    · simp [act_fst, startRecording]
    · rw [act_fst]
      simp only [startRecording]
      rw [commit_tick _ (timersOK_frame h.ok _ _ _)]
      simp [tickDepsChanged, tickCond, hidle]
  | failed =>
    refine ⟨⟨hinv, ?_, ?_, ?_, ?_⟩, c.timers.nextId, ?_⟩
    · simp [act_fst, startRecording]
    · simp [act_fst, startRecording]
    · simp [act_fst, startRecording]
    · simp [act_fst, startRecording]
    · rw [act_fst]
      simp only [startRecording]
      rw [commit_tick _ (timersOK_frame h.ok _ _ _)]
      simp [tickDepsChanged, tickCond, hidle]

theorem recording_clickStop {c : Comp} {n : Nat} (h : Recording c n) (q : QueryOutcome) :
    (clickStop q c).1.st.recordingTime = n := by
  have hact : (clickStop q c).1 = (act (stopRecording c.st q) c).1 := by
    simp [clickStop, h.isRec]
  rw [hact, act_fst, commit_st, (stopRecording_frame c.st q c).2.2.2, h.time]


/-! ## The claims -/

/-- C1: `checkTranscriptionStatus` implements the poll transition table.  A
`completed` response with transcript `t` sets the status to completed and the
text to `t`; a `failed` response sets the status to error; a `processing`
response leaves the whole component unchanged; a failed query sets the status
to error; and `jobId` is unchanged whatever the outcome. -/
theorem checkTranscriptionStatus_table (jId t : JsVal) (c : Comp) :
    ((checkTranscriptionStatus jId (.response (.str "completed") t) c).1.st.transcriptionStatus
        = .completed ∧
      (checkTranscriptionStatus jId (.response (.str "completed") t) c).1.st.transcriptionText = t) ∧
    (checkTranscriptionStatus jId (.response (.str "failed") t) c).1.st.transcriptionStatus
        = .error ∧
    (checkTranscriptionStatus jId (.response (.str "processing") t) c).1 = c ∧
    (checkTranscriptionStatus jId .thrown c).1.st.transcriptionStatus = .error ∧
    ∀ q : QueryOutcome, (checkTranscriptionStatus jId q c).1.st.jobId = c.st.jobId := by
  refine ⟨⟨rfl, rfl⟩, ?_, ?_, rfl, ?_⟩
  · simp [checkTranscriptionStatus]
  · simp [checkTranscriptionStatus]
  · intro q
    cases q with
    | thrown => rfl
    | response status transcript =>
      simp only [checkTranscriptionStatus]
      split_ifs <;> rfl

/-- C2, counterexample: a completed job is moved to error by a query that
throws, and a failed job is moved to completed by a `completed` response. -/
theorem checkTranscriptionStatus_not_terminal_safe :
    exCompleted.st.transcriptionStatus = .completed ∧
    (checkTranscriptionStatus (.str "J1") .thrown exCompleted).1.st.transcriptionStatus = .error ∧
    (checkTranscriptionStatus (.str "J1") (.response (.str "completed") (.str "other"))
      exCompleted).1.st.transcriptionText ≠ exCompleted.st.transcriptionText ∧
    (checkTranscriptionStatus (.str "J1") (.response (.str "completed") (.str "late"))
      (checkTranscriptionStatus (.str "J1") .thrown exProcessing).1).1.st.transcriptionStatus
        = .completed := by
  refine ⟨rfl, rfl, ?_, rfl⟩
  simp [checkTranscriptionStatus, exCompleted]

/-- C2, amended: in a state whose status is completed or error, a response
whose status is neither `completed` nor `failed` (such as `processing`) leaves
the whole component unchanged; a `completed` response sets status completed and
the text to its transcript, and a `failed` response or a thrown error sets the
status to error, whatever the status was before. -/
theorem checkTranscriptionStatus_terminal (jId status transcript : JsVal) (c : Comp)
    (hterm : c.st.transcriptionStatus = .completed ∨ c.st.transcriptionStatus = .error)
    (h1 : status ≠ .str "completed") (h2 : status ≠ .str "failed") :
    (checkTranscriptionStatus jId (.response status transcript) c).1 = c ∧
    (checkTranscriptionStatus jId (.response (.str "completed") transcript) c).1.st
      = { c.st with transcriptionStatus := .completed, transcriptionText := transcript } ∧
    (checkTranscriptionStatus jId (.response (.str "failed") transcript) c).1.st
      = { c.st with transcriptionStatus := .error } ∧
    (checkTranscriptionStatus jId .thrown c).1.st = { c.st with transcriptionStatus := .error } := by
  have _ := hterm
  refine ⟨?_, rfl, ?_, rfl⟩
  · simp [checkTranscriptionStatus, h1, h2]
  · simp [checkTranscriptionStatus]

/-- Witness of C2, amended, at the completed job "J1" and a `processing` response. -/
theorem checkTranscriptionStatus_terminal_witness :
    (checkTranscriptionStatus (.str "J1") (.response (.str "processing") .undefined)
      exCompleted).1 = exCompleted ∧
    (checkTranscriptionStatus (.str "J1") (.response (.str "completed") .undefined)
      exCompleted).1.st
      = { exCompleted.st with transcriptionStatus := .completed, transcriptionText := .undefined } ∧
    (checkTranscriptionStatus (.str "J1") (.response (.str "failed") .undefined) exCompleted).1.st
      = { exCompleted.st with transcriptionStatus := .error } ∧
    (checkTranscriptionStatus (.str "J1") .thrown exCompleted).1.st
      = { exCompleted.st with transcriptionStatus := .error } :=
  checkTranscriptionStatus_terminal (.str "J1") (.str "processing") .undefined exCompleted
    (Or.inl rfl) (by decide) (by decide)


/-- C3: `handleFileUpload` enforces the 25 MiB limit.  The size check passes
exactly when `file.size ≤ 26214400`; when it fails no upload request is sent
and the component is unchanged; a file with an audio type that passes it is
uploaded. -/
theorem handleFileUpload_size_limit (cl : State) (f : File) (up : PostOutcome) (c : Comp) :
    ((handleFileUpload cl (some f) up c).2 ≠ [.toastError "File size exceeds 25MB limit"]
      ↔ f.size ≤ 26214400) ∧
    (26214400 < f.size →
      sendsUpload (handleFileUpload cl (some f) up c).2 = false ∧
      (handleFileUpload cl (some f) up c).1 = c) ∧
    (f.size ≤ 26214400 → includes f.type "audio" = true →
      sendsUpload (handleFileUpload cl (some f) up c).2 = true) := by
  refine ⟨?_, ?_, ?_⟩
  · by_cases hs : f.size > 25 * 1024 * 1024
    · have : ¬ f.size ≤ 26214400 := by omega
      simp [handleFileUpload, hs, this]
    · have hle : f.size ≤ 26214400 := by omega
      by_cases ht : includes f.type "audio" = true
      · cases up <;> simp [handleFileUpload, hs, ht, hle]
      · simp [handleFileUpload, hs, ht, hle]
  · intro h
    have hs : f.size > 25 * 1024 * 1024 := by omega
    simp [handleFileUpload, hs, sendsUpload]
  · intro h ht
    have hs : ¬ f.size > 25 * 1024 * 1024 := by omega
    cases up <;> simp [handleFileUpload, hs, ht, sendsUpload]

/-- Witness of C3, at audio files of 26214401 and of 26214400 bytes. -/
theorem handleFileUpload_size_limit_witness :
    (26214400 < (exAudio 26214401).size ∧
      sendsUpload
        (handleFileUpload State.initial (some (exAudio 26214401)) (.ok (.str "J2")) Comp.mount).2
          = false ∧
      (handleFileUpload State.initial (some (exAudio 26214401)) (.ok (.str "J2")) Comp.mount).1
        = Comp.mount) ∧
    ((exAudio 26214400).size ≤ 26214400 ∧
      sendsUpload
        (handleFileUpload State.initial (some (exAudio 26214400)) (.ok (.str "J2")) Comp.mount).2
          = true) :=
  ⟨⟨by decide,
      (handleFileUpload_size_limit State.initial (exAudio 26214401) (.ok (.str "J2"))
        Comp.mount).2.1 (by decide)⟩,
    ⟨by decide,
      (handleFileUpload_size_limit State.initial (exAudio 26214400) (.ok (.str "J2"))
        Comp.mount).2.2 (by decide) (by decide)⟩⟩

/-- C4, counterexample: `application/x-audio` has the category `application`,
not `audio`, yet a file of that type is uploaded and a job is created. -/
theorem handleFileUpload_accepts_other_category :
    mimeCategory exXAudio.type = "application" ∧
    mimeCategory exXAudio.type ≠ "audio" ∧
    exXAudio.size ≤ 25 * 1024 * 1024 ∧
    sendsUpload (handleFileUpload State.initial (some exXAudio) (.ok (.str "J2")) Comp.mount).2
      = true ∧
    (handleFileUpload State.initial (some exXAudio) (.ok (.str "J2")) Comp.mount).1.st.jobId
      = .str "J2" ∧
    (handleFileUpload State.initial (some exXAudio) (.ok (.str "J2"))
      Comp.mount).1.st.transcriptionStatus = .processing := by
  decide

/-- C4, amended: `handleFileUpload` rejects every file of at most 25 MiB whose
MIME type does not contain the text `audio`: only the toast is issued, no
upload request is sent and the component is unchanged.  A type that contains
`audio` anywhere passes the type check and the file is uploaded. -/
theorem handleFileUpload_type_check (cl : State) (f : File) (up : PostOutcome) (c : Comp)
    (hs : f.size ≤ 25 * 1024 * 1024) :
    (includes f.type "audio" = false →
      handleFileUpload cl (some f) up c = (c, [.toastError "Please upload an audio file"])) ∧
    sendsUpload (handleFileUpload cl (some f) up c).2 = includes f.type "audio" := by
  have hs' : ¬ f.size > 25 * 1024 * 1024 := by omega
  refine ⟨?_, ?_⟩
  · intro ht
    simp [handleFileUpload, hs', ht]
  · cases ht : includes f.type "audio"
    · simp [handleFileUpload, hs', ht, sendsUpload]
    · cases up <;> simp [handleFileUpload, hs', ht, sendsUpload]

/-- Witness of C4, amended, at a small `text/plain` file. -/
theorem handleFileUpload_type_check_witness :
    exText.size ≤ 25 * 1024 * 1024 ∧
    includes exText.type "audio" = false ∧
    handleFileUpload State.initial (some exText) (.ok (.str "J2")) Comp.mount
      = (Comp.mount, [.toastError "Please upload an audio file"]) :=
  ⟨by decide, by decide,
    (handleFileUpload_type_check State.initial exText (.ok (.str "J2")) Comp.mount
      (by decide)).1 (by decide)⟩


/-- C6, counterexample: after a start whose response carries the empty string
as job id, the status is processing and no poll interval is live. -/
theorem poll_not_armed_for_falsy_jobId :
    exEmptyJobId.st.transcriptionStatus = .processing ∧
    exEmptyJobId.st.jobId = .str "" ∧
    pollLive exEmptyJobId = false := by
  decide

/-- C6, amended: in every state of the component after its effects have run, a
poll interval is live exactly when `jobId` is truthy and the status is
processing, and no poll interval is live once the status has become completed
or error. -/
theorem poll_armed_iff (c : Comp) (h : Reachable c) :
    (pollLive c = true ↔ c.st.jobId.truthy = true ∧ c.st.transcriptionStatus = .processing) ∧
    ∀ (st : State) (mr : Option MediaRecorder) (chunks : List Blob),
      st.transcriptionStatus = .completed ∨ st.transcriptionStatus = .error →
      pollLive (commit c.st { c with st := st, mediaRecorderRef := mr, audioChunksRef := chunks })
        = false := by
  refine ⟨?_, ?_⟩
  · rw [(reachable_inv h).poll]
    simp [pollCond]
  · intro st mr chunks hst
    rw [(inv_commit (reachable_inv h) st mr chunks).poll]
    rcases hst with hst | hst <;> simp [pollCond, hst]

/-- Witness of C6, amended, at the component that records with job "J1". -/
theorem poll_armed_iff_witness :
    (pollLive exRecording = true ↔
      exRecording.st.jobId.truthy = true ∧ exRecording.st.transcriptionStatus = .processing) ∧
    pollLive (commit exRecording.st
      { exRecording with
        st := exCompleted.st, mediaRecorderRef := none, audioChunksRef := [] }) = false :=
  ⟨(poll_armed_iff exRecording (reachable_clickStart Reachable.mount _ _)).1,
    (poll_armed_iff exRecording (reachable_clickStart Reachable.mount _ _)).2
      exCompleted.st none [] (Or.inl rfl)⟩

/-- C7: in every reachable state at most one poll interval is live, none is
live when the status is not processing, and the cleanup that precedes every
re-run of the poll effect leaves no poll interval live. -/
theorem poll_timer_cardinality (c : Comp) (h : Reachable c) :
    (pollTimers c).length ≤ 1 ∧
    (c.st.transcriptionStatus ≠ .processing → pollTimers c = []) ∧
    pollTimers (pollCleanup c) = [] := by
  refine ⟨timersOK_pollTimers_length (reachable_inv h).ok, ?_,
    pollCleanup_poll (reachable_inv h).ok⟩
  intro hst
  have := (reachable_inv h).poll
  simp only [pollLive, pollCond, hst, decide_False, Bool.and_false] at this
  exact List.isEmpty_iff.1 (by simpa using this)

/-- Witness of C7, at the component whose job "J1" completed while recording. -/
theorem poll_timer_cardinality_witness :
    pollTimers exRecording ≠ [] ∧
    exDone.st.transcriptionStatus ≠ .processing ∧
    (pollTimers exDone).length ≤ 1 ∧
    pollTimers exDone = [] ∧
    pollTimers (pollCleanup exDone) = [] :=
  ⟨by decide, by decide,
    (poll_timer_cardinality exDone reachable_exDone).1,
    (poll_timer_cardinality exDone reachable_exDone).2.1 (by decide),
    (poll_timer_cardinality exDone reachable_exDone).2.2⟩

/-- C8, the code at the failing input: the component is recording and holds
the device; after unmounting, whatever a status query would answer, the
recorder is still recording, its track is still live and no request was made. -/
theorem unmount_leaves_device_held :
    exRecording.st.isRecording = true ∧
    deviceHeld exRecording = true ∧
    ∀ q : QueryOutcome,
      (unmount q exRecording).1.mediaRecorderRef
        = some { state := .recording, stream := [.live] } ∧
      deviceHeld (unmount q exRecording).1 = true ∧
      (unmount q exRecording).2 = [] := by
  refine ⟨by decide, by decide, ?_⟩
  intro q
  have h : (unmountCleanup q exRecording) = (tickCleanup exRecording, []) := by
    simp [unmountCleanup, stopRecording, State.initial]
    split <;> rfl
  have hm : (unmount q exRecording).1.mediaRecorderRef
      = some { state := .recording, stream := [.live] } := by
    simp only [unmount, h, pollCleanup_mediaRecorderRef, tickCleanup_mediaRecorderRef]
    decide
  refine ⟨hm, ?_, ?_⟩
  · simp only [deviceHeld, hm]
    decide
  · simp only [unmount, h]

/-- C9: when the microphone request is denied in an idle session, the session
stays idle, the chunk list is empty, no recorder is created, no start-job
request is sent and `jobId` is unchanged. -/
theorem startRecording_denied (cl : State) (post : PostOutcome) (c : Comp)
    (hr : c.st.isRecording = false) (hp : c.st.isPaused = false) :
    (startRecording cl .denied post c).1.st.isRecording = false ∧
    (startRecording cl .denied post c).1.st.isPaused = false ∧
    (startRecording cl .denied post c).1.audioChunksRef = [] ∧
    (startRecording cl .denied post c).1.mediaRecorderRef = c.mediaRecorderRef ∧
    sendsStart (startRecording cl .denied post c).2 = false ∧
    (startRecording cl .denied post c).1.st.jobId = c.st.jobId ∧
    (act (startRecording cl .denied post) c).1.st = (startRecording cl .denied post c).1.st := by
  simp [startRecording, hr, hp, sendsStart, act]

/-- Witness of C9, at the freshly mounted component. -/
theorem startRecording_denied_witness :
    (startRecording State.initial .denied .failed Comp.mount).1.st.isRecording = false ∧
    (startRecording State.initial .denied .failed Comp.mount).1.st.isPaused = false ∧
    (startRecording State.initial .denied .failed Comp.mount).1.audioChunksRef = [] ∧
    (startRecording State.initial .denied .failed Comp.mount).1.mediaRecorderRef
      = Comp.mount.mediaRecorderRef ∧
    sendsStart (startRecording State.initial .denied .failed Comp.mount).2 = false ∧
    (startRecording State.initial .denied .failed Comp.mount).1.st.jobId = Comp.mount.st.jobId ∧
    (act (startRecording State.initial .denied .failed) Comp.mount).1.st
      = (startRecording State.initial .denied .failed Comp.mount).1.st :=
  startRecording_denied State.initial .failed Comp.mount rfl rfl


/-- C10, counterexample: recording for 1.5 s, pausing for 0.5 s and recording
for another 1.5 s leaves `recordingTime` at 2, while the time spent recording
is 3 whole seconds. -/
theorem session_loses_fractions :
    (session [.live] (.ok (.str "J1")) (.response (.str "processing") .undefined)
      1500 [(500, 1500)] Comp.mount).st.recordingTime = 2 ∧
    (1500 + ([(500, 1500)].map (fun pr : Nat × Nat => pr.2)).sum) / 1000 = 3 := by
  decide

/-- C10, amended: for every session start, (pause, resume)*, stop, with the
tick callback firing every 1000 ms while its interval is armed,
`recordingTime` at stop is the sum over the recording intervals of the whole
seconds of each interval: every pause clears the tick interval and every
resume arms a new one, so the fraction of a second recorded before a pause is
not carried over. -/
theorem session_recordingTime (stream : List TrackState) (post : PostOutcome)
    (q : QueryOutcome) (r0 : Nat) (segs : List (Nat × Nat)) (c : Comp)
    (hinv : Inv c) (hidle : c.st.isRecording = false) (hup : c.st.uploadingFile = false)
    (hst : c.st.transcriptionStatus ≠ .processing) :
    (session stream post q r0 segs c).st.recordingTime
      = r0 / 1000 + (segs.map (fun pr => pr.2 / 1000)).sum := by
  have h1 := armed_elapse (inv_clickStart hinv stream post hidle hup hst) r0
  have h2 := recording_foldl h1 segs
  have h3 := recording_clickStop h2 q
  simpa [session] using h3

/-- Witness of C10, amended, at a session of 2.5 s, 1.5 s and 0.7 s of recording. -/
theorem session_recordingTime_witness :
    (session [.live] (.ok (.str "J1")) .thrown 2500 [(500, 1500), (0, 700)]
      Comp.mount).st.recordingTime
      = 2500 / 1000 + ([(500, 1500), (0, 700)].map (fun pr => pr.2 / 1000)).sum :=
  session_recordingTime [.live] (.ok (.str "J1")) .thrown 2500 [(500, 1500), (0, 700)]
    Comp.mount inv_mount rfl rfl (by decide)


/-! ## Lemmas on runs -/

theorem pauseRecording_keeps (cl : State) (c : Comp) :
    (pauseRecording cl c).audioChunksRef = c.audioChunksRef ∧
    (pauseRecording cl c).st.recordingTime = c.st.recordingTime ∧
    (pauseRecording cl c).st.jobId = c.st.jobId ∧
    (pauseRecording cl c).st.transcriptionStatus = c.st.transcriptionStatus ∧
    (pauseRecording cl c).st.transcriptionText = c.st.transcriptionText ∧
    (pauseRecording cl c).st.isRecording = c.st.isRecording := by
  unfold pauseRecording
  split
  · simp
  · split_ifs <;> simp

theorem stopRecording_chunks (cl : State) (q : QueryOutcome) (c : Comp) :
    (stopRecording cl q c).1.audioChunksRef = c.audioChunksRef := by
  unfold stopRecording
  split
  · rfl
  · split_ifs
    · rw [(checkTranscriptionStatus_frame cl.jobId q _).2.2.2.2.1]
    · rfl
    · rfl

theorem handleFileUpload_frame (cl : State) (file : Option File) (up : PostOutcome) (c : Comp) :
    (handleFileUpload cl file up c).1.timers = c.timers ∧
    (handleFileUpload cl file up c).1.timerRef = c.timerRef ∧
    (handleFileUpload cl file up c).1.pollInterval = c.pollInterval ∧
    (handleFileUpload cl file up c).1.mediaRecorderRef = c.mediaRecorderRef ∧
    (handleFileUpload cl file up c).1.audioChunksRef = c.audioChunksRef ∧
    (handleFileUpload cl file up c).1.st.recordingTime = c.st.recordingTime ∧
    (handleFileUpload cl file up c).1.st.isRecording = c.st.isRecording ∧
    (handleFileUpload cl file up c).1.st.isPaused = c.st.isPaused ∧
    (handleFileUpload cl file up c).1.st.transcriptionText = c.st.transcriptionText := by
  unfold handleFileUpload
  split
  · simp
  · split_ifs
    · simp
    · simp
    · split <;> simp

theorem handleGenerateNote_fst (cl : State) (gen : GenOutcome) (c : Comp) :
    (handleGenerateNote cl gen c).1 = c := by
  unfold handleGenerateNote
  split_ifs
  · rfl
  · split <;> rfl

theorem step_chunks (a : Action) (c : Comp) (h : a.isStart = false) :
    (step a c).1.audioChunksRef = c.audioChunksRef ++ chunksOf [a] := by
  cases a with
  | start mic post => simp [Action.isStart] at h
  | pause => simp [step, act_fst, chunksOf, (pauseRecording_keeps c.st c).1]
  | stop q => simp [step, act_fst, chunksOf, stopRecording_chunks]
  | upload file up => simp [step, act_fst, chunksOf, (handleFileUpload_frame c.st file up c).2.2.2.2.1]
  | check jId q => simp [step, act_fst, chunksOf, (checkTranscriptionStatus_frame jId q c).2.2.2.2.1]
  | generate gen => simp [step, act_fst, chunksOf, handleGenerateNote_fst]
  | data chunk => simp [step, chunksOf, ondataavailable]
  | wait d => simp [step, chunksOf, elapse]

theorem run_cons (a : Action) (acts : List Action) (c : Comp) :
    run (a :: acts) c = run acts (step a c).1 := rfl

theorem run_append (xs ys : List Action) (c : Comp) :
    run (xs ++ ys) c = run ys (run xs c) := by
  simp [run, List.foldl_append]

theorem chunksOf_cons (a : Action) (acts : List Action) :
    chunksOf (a :: acts) = chunksOf [a] ++ chunksOf acts := by
  simp only [chunksOf, List.filterMap_cons, List.filterMap_nil]
  split <;> simp

theorem run_chunks (acts : List Action) (c : Comp) (h : ∀ a ∈ acts, a.isStart = false) :
    (run acts c).audioChunksRef = c.audioChunksRef ++ chunksOf acts := by
  induction acts generalizing c with
  | nil => simp [run, chunksOf]
  | cons a rest ih =>
    rw [run_cons, ih _ (fun x hx => h x (List.mem_cons_of_mem _ hx)),
      step_chunks a c (h a (List.mem_cons_self _ _)), chunksOf_cons a rest, List.append_assoc]

theorem startRecording_granted (cl : State) (stream : List TrackState) (post : PostOutcome)
    (c : Comp) :
    (startRecording cl (.granted stream) post c).1.st.recordingTime = 0 ∧
    (startRecording cl (.granted stream) post c).1.audioChunksRef = [] ∧
    (startRecording cl (.granted stream) post c).1.st.isRecording = true ∧
    (startRecording cl (.granted stream) post c).1.st.isPaused = false ∧
    (startRecording cl (.granted stream) post c).1.mediaRecorderRef
      = some { state := .recording, stream := stream } := by
  cases post <;> simp [startRecording]

/-! ## The claims, continued -/

/-- C11: chunk order is preserved.  After a start with the microphone
granted, whatever actions follow other than another start (fragments
delivered by the recorder, pause and resume toggles, poll answers, time), the
chunk list at stop is exactly the delivered fragments in arrival order, and
the blob built on stop is their concatenation in that order. -/
theorem chunks_in_arrival_order (stream : List TrackState) (post : PostOutcome)
    (q : QueryOutcome) (acts : List Action) (c : Comp)
    (h : ∀ a ∈ acts, a.isStart = false) :
    (run (.start (.granted stream) post :: acts) c).audioChunksRef = chunksOf acts ∧
    (run (.start (.granted stream) post :: acts ++ [.stop q]) c).audioChunksRef
      = chunksOf acts ∧
    audioBlob (run (.start (.granted stream) post :: acts) c) = (chunksOf acts).flatten ∧
    audioBlob (run (.start (.granted stream) post :: acts ++ [.stop q]) c)
      = (chunksOf acts).flatten := by
  have h0 : (step (.start (.granted stream) post) c).1.audioChunksRef = [] := by
    simp [step, act_fst, (startRecording_granted c.st stream post c).2.1]
  have h1 : (run (.start (.granted stream) post :: acts) c).audioChunksRef = chunksOf acts := by
    rw [run_cons, run_chunks acts _ h, h0, List.nil_append]
  have h2 : (run (.start (.granted stream) post :: acts ++ [.stop q]) c).audioChunksRef
      = chunksOf acts := by
    rw [run_append]
    show (step (.stop q) _).1.audioChunksRef = _
    rw [step_chunks (.stop q) _ rfl, h1]
    simp [chunksOf]
  exact ⟨h1, h2, by rw [audioBlob, h1], by rw [audioBlob, h2]⟩

/-- Witness of C11, at three fragments delivered around a pause, a resume and a poll answer. -/
theorem chunks_in_arrival_order_witness :
    (run (.start (.granted [.live]) (.ok (.str "J1")) ::
        [.data [1, 2], .pause, .wait 700, .pause, .data [3],
          .check (.str "J1") (.response (.str "processing") .undefined), .data [4, 5]] ++
        [.stop .thrown]) Comp.mount).audioChunksRef = [[1, 2], [3], [4, 5]] ∧
    audioBlob (run (.start (.granted [.live]) (.ok (.str "J1")) ::
        [.data [1, 2], .pause, .wait 700, .pause, .data [3],
          .check (.str "J1") (.response (.str "processing") .undefined), .data [4, 5]] ++
        [.stop .thrown]) Comp.mount) = [1, 2, 3, 4, 5] :=
  ⟨(chunks_in_arrival_order [.live] (.ok (.str "J1")) .thrown
      [.data [1, 2], .pause, .wait 700, .pause, .data [3],
        .check (.str "J1") (.response (.str "processing") .undefined), .data [4, 5]]
      Comp.mount (by decide)).2.1,
    (chunks_in_arrival_order [.live] (.ok (.str "J1")) .thrown
      [.data [1, 2], .pause, .wait 700, .pause, .data [3],
        .check (.str "J1") (.response (.str "processing") .undefined), .data [4, 5]]
      Comp.mount (by decide)).2.2.2⟩

/-- C12: job creation success.  When the start-job request inside
`startRecording` succeeds with job id `j`, and when the upload request inside
`handleFileUpload` succeeds with job id `j` for a file that passes both checks,
the resulting state has `jobId = j` and status processing, also after the
re-render; after the upload `uploadingFile` is false. -/
theorem job_creation_success (cl : State) (stream : List TrackState) (j : JsVal) (f : File)
    (c : Comp) (hs : f.size ≤ 25 * 1024 * 1024) (ht : includes f.type "audio" = true) :
    ((startRecording cl (.granted stream) (.ok j) c).1.st.jobId = j ∧
      (startRecording cl (.granted stream) (.ok j) c).1.st.transcriptionStatus = .processing ∧
      (act (startRecording cl (.granted stream) (.ok j)) c).1.st.jobId = j ∧
      (act (startRecording cl (.granted stream) (.ok j)) c).1.st.transcriptionStatus
        = .processing) ∧
    ((handleFileUpload cl (some f) (.ok j) c).1.st.jobId = j ∧
      (handleFileUpload cl (some f) (.ok j) c).1.st.transcriptionStatus = .processing ∧
      (handleFileUpload cl (some f) (.ok j) c).1.st.uploadingFile = false ∧
      (act (handleFileUpload cl (some f) (.ok j)) c).1.st.jobId = j ∧
      (act (handleFileUpload cl (some f) (.ok j)) c).1.st.transcriptionStatus = .processing ∧
      (act (handleFileUpload cl (some f) (.ok j)) c).1.st.uploadingFile = false) := by
  have hs' : ¬ f.size > 25 * 1024 * 1024 := by omega
  refine ⟨?_, ?_⟩
  · simp [startRecording, act_fst]
  · simp [handleFileUpload, act_fst, hs', ht]

/-- Witness of C12, at the scenario of job "J1" for a start and for an upload. -/
theorem job_creation_success_witness :
    (exAudio 1024).size ≤ 25 * 1024 * 1024 ∧
    includes (exAudio 1024).type "audio" = true ∧
    (startRecording State.initial (.granted [.live]) (.ok (.str "J1")) Comp.mount).1.st.jobId
      = .str "J1" ∧
    (handleFileUpload State.initial (some (exAudio 1024)) (.ok (.str "J1")) Comp.mount).1.st.jobId
      = .str "J1" :=
  ⟨by decide, by decide,
    (job_creation_success State.initial [.live] (.str "J1") (exAudio 1024) Comp.mount
      (by decide) (by decide)).1.1,
    (job_creation_success State.initial [.live] (.str "J1") (exAudio 1024) Comp.mount
      (by decide) (by decide)).2.1⟩

/-- C13: a successful start resets the session.  Whatever the component held
before, after `startRecording` with the microphone granted `recordingTime` is
0, the chunk list is empty, `isRecording` is true and `isPaused` is false, also
after the re-render and whatever the start-job request answers. -/
theorem startRecording_resets (cl : State) (stream : List TrackState) (post : PostOutcome)
    (c : Comp) :
    (startRecording cl (.granted stream) post c).1.st.recordingTime = 0 ∧
    (startRecording cl (.granted stream) post c).1.audioChunksRef = [] ∧
    (startRecording cl (.granted stream) post c).1.st.isRecording = true ∧
    (startRecording cl (.granted stream) post c).1.st.isPaused = false ∧
    (act (startRecording cl (.granted stream) post) c).1.st.recordingTime = 0 ∧
    (act (startRecording cl (.granted stream) post) c).1.audioChunksRef = [] ∧
    (act (startRecording cl (.granted stream) post) c).1.st.isRecording = true ∧
    (act (startRecording cl (.granted stream) post) c).1.st.isPaused = false := by
  have h := startRecording_granted cl stream post c
  simp only [act_fst, commit_st, commit_audioChunksRef]
  exact ⟨h.1, h.2.1, h.2.2.1, h.2.2.2.1, h.1, h.2.1, h.2.2.1, h.2.2.2.1⟩

/-- C14, the code at the failing input: an earlier job "J0" completed and its
recording was stopped; a new start with the microphone granted whose start-job
request fails leaves the component recording with status idle but still
holding `jobId = "J0"`, and the following stop queries the status of "J0" and
shows its transcript as completed. -/
theorem failed_start_keeps_old_jobId :
    exEarlierJob.st.jobId = .str "J0" ∧
    exEarlierJob.st.isRecording = false ∧
    (clickStart (.granted [.live]) .failed exEarlierJob).1.st.isRecording = true ∧
    (clickStart (.granted [.live]) .failed exEarlierJob).1.st.transcriptionStatus = .idle ∧
    (clickStart (.granted [.live]) .failed exEarlierJob).1.st.jobId = .str "J0" ∧
    statusQueries
      (clickStop (.response (.str "completed") (.str "old transcript"))
        (clickStart (.granted [.live]) .failed exEarlierJob).1).2 = [.str "J0"] ∧
    (clickStop (.response (.str "completed") (.str "old transcript"))
      (clickStart (.granted [.live]) .failed exEarlierJob).1).1.st.transcriptionStatus
        = .completed ∧
    (clickStop (.response (.str "completed") (.str "old transcript"))
      (clickStart (.granted [.live]) .failed exEarlierJob).1).1.st.transcriptionText
        = .str "old transcript" := by
  decide


theorem not_any_live_after_stop (stream : List TrackState) :
    (stream.map (fun _ => TrackState.ended)).any (fun t => t == .live) = false := by
  induction stream with
  | nil => rfl
  | cons _ rest ih => simp [List.any_cons]

theorem stopRecording_of_recording (q : QueryOutcome) (c : Comp) (mr : MediaRecorder)
    (hmr : c.mediaRecorderRef = some mr) (hrec : c.st.isRecording = true) :
    (stopRecording c.st q c).1.mediaRecorderRef
      = some { state := .inactive, stream := mr.stream.map (fun _ => .ended) } ∧
    (stopRecording c.st q c).1.st.isRecording = false ∧
    (stopRecording c.st q c).1.st.isPaused = false ∧
    statusQueries (stopRecording c.st q c).2
      = if c.st.jobId.truthy then [c.st.jobId] else [] := by
  unfold stopRecording
  simp only [hmr, hrec, if_true]
  split_ifs with hj
  · have hf := checkTranscriptionStatus_frame c.st.jobId q
      { c with
        mediaRecorderRef := some { state := .inactive, stream := mr.stream.map (fun _ => .ended) }
        st := { c.st with isRecording := false, isPaused := false } }
    refine ⟨hf.2.2.2.1, hf.2.2.2.2.2.2.1, hf.2.2.2.2.2.2.2, ?_⟩
    cases q with
    | thrown => simp [checkTranscriptionStatus, statusQueries]
    | response status transcript =>
      simp only [checkTranscriptionStatus]
      split_ifs <;> simp [statusQueries]
  · simp [statusQueries]

/-- C15: in every state with a recorder present and `isRecording = true`,
`stopRecording` stops the recorder and every track of its stream, so the
device is released, and sets `isRecording` and `isPaused` to false, after which
the tick interval is not armed; in every state with `isRecording = false` it
changes nothing and sends no request. -/
theorem stopRecording_stops (q : QueryOutcome) (c : Comp) (mr : MediaRecorder)
    (hmr : c.mediaRecorderRef = some mr) (hrec : c.st.isRecording = true) (hinv : Inv c) :
    (stopRecording c.st q c).1.mediaRecorderRef
      = some { state := .inactive, stream := mr.stream.map (fun _ => .ended) } ∧
    deviceHeld (stopRecording c.st q c).1 = false ∧
    (stopRecording c.st q c).1.st.isRecording = false ∧
    (stopRecording c.st q c).1.st.isPaused = false ∧
    tickLive (act (stopRecording c.st q) c).1 = false ∧
    ∀ (x : Comp) (r : QueryOutcome), x.st.isRecording = false →
      stopRecording x.st r x = (x, []) := by
  have h := stopRecording_of_recording q c mr hmr hrec
  have hfr := stopRecording_frame c.st q c
  have hi := inv_act hinv (stopRecording c.st q) hfr.1 hfr.2.1 hfr.2.2.1
  refine ⟨h.1, ?_, h.2.1, h.2.2.1, ?_, ?_⟩
  · simp only [deviceHeld, h.1]
    exact not_any_live_after_stop mr.stream
  · rw [hi.tick, act_fst, commit_st]
    simp [tickCond, h.2.1]
  · intro x r hx
    unfold stopRecording
    split
    · rfl
    · simp [hx]

/-- Witness of C15, at the component that records with job "J1". -/
theorem stopRecording_stops_witness :
    exRecording.st.isRecording = true ∧
    deviceHeld exRecording = true ∧
    tickLive exRecording = true ∧
    deviceHeld (stopRecording exRecording.st .thrown exRecording).1 = false ∧
    (stopRecording exRecording.st .thrown exRecording).1.st.isRecording = false ∧
    tickLive (act (stopRecording exRecording.st .thrown) exRecording).1 = false :=
  ⟨by decide, by decide, by decide,
    (stopRecording_stops .thrown exRecording { state := .recording, stream := [.live] }
      (by decide) (by decide) (reachable_inv (reachable_clickStart Reachable.mount _ _))).2.1,
    (stopRecording_stops .thrown exRecording { state := .recording, stream := [.live] }
      (by decide) (by decide) (reachable_inv (reachable_clickStart Reachable.mount _ _))).2.2.1,
    (stopRecording_stops .thrown exRecording { state := .recording, stream := [.live] }
      (by decide) (by decide)
      (reachable_inv (reachable_clickStart Reachable.mount _ _))).2.2.2.2.1⟩

theorem step_keeps_recorder (a : Action) (c : Comp)
    (h : c.st.isRecording = true → c.mediaRecorderRef ≠ none) :
    (step a c).1.st.isRecording = true → (step a c).1.mediaRecorderRef ≠ none := by
  cases a with
  | start mic post =>
    cases mic with
    | granted stream =>
      intro _
      simp [step, act_fst, (startRecording_granted c.st stream post c).2.2.2.2]
    | denied => simpa [step, act_fst, startRecording] using h
  | pause =>
    simp only [step, act_fst, commit_st, commit_mediaRecorderRef]
    rw [(pauseRecording_keeps c.st c).2.2.2.2.2]
    intro hr
    have := h hr
    unfold pauseRecording
    split
    · assumption
    · split_ifs <;> simp
  | stop q =>
    simp only [step, act_fst, commit_st, commit_mediaRecorderRef]
    cases hr : c.st.isRecording
    · have hx : stopRecording c.st q c = (c, []) := by
        unfold stopRecording
        split
        · rfl
        · simp [hr]
      simp [hx, hr]
    · obtain ⟨mr, hmr⟩ := Option.ne_none_iff_exists'.1 (h hr)
      simp [(stopRecording_of_recording q c mr hmr hr).2.1]
  | upload file up =>
    simp only [step, act_fst, commit_st, commit_mediaRecorderRef]
    rw [(handleFileUpload_frame c.st file up c).2.2.2.1,
      (handleFileUpload_frame c.st file up c).2.2.2.2.2.2.1]
    exact h
  | check jId q =>
    simp only [step, act_fst, commit_st, commit_mediaRecorderRef]
    rw [(checkTranscriptionStatus_frame jId q c).2.2.2.1,
      (checkTranscriptionStatus_frame jId q c).2.2.2.2.2.2.1]
    exact h
  | generate gen =>
    simp only [step, act_fst, commit_st, commit_mediaRecorderRef, handleGenerateNote_fst]
    exact h
  | data chunk => exact h
  | wait d => exact h

theorem run_keeps_recorder (acts : List Action) (c : Comp)
    (h : c.st.isRecording = true → c.mediaRecorderRef ≠ none) :
    (run acts c).st.isRecording = true → (run acts c).mediaRecorderRef ≠ none := by
  induction acts generalizing c with
  | nil => exact h
  | cons a rest ih =>
    rw [run_cons]
    exact ih _ (step_keeps_recorder a c h)

/-- C16: in every state with `isRecording = true` that a run of the component
can reach, a recorder is present, and `stopRecording` there issues exactly
one status query, for the current `jobId`, when `jobId` exists (is truthy) and
no status query otherwise, in particular when `jobId` is null. -/
theorem stopRecording_final_check (acts : List Action) (q : QueryOutcome)
    (hrec : (run acts Comp.mount).st.isRecording = true) :
    (run acts Comp.mount).mediaRecorderRef ≠ none ∧
    statusQueries (stopRecording (run acts Comp.mount).st q (run acts Comp.mount)).2
      = (if (run acts Comp.mount).st.jobId.truthy then [(run acts Comp.mount).st.jobId] else []) ∧
    ((run acts Comp.mount).st.jobId = .null →
      statusQueries (stopRecording (run acts Comp.mount).st q (run acts Comp.mount)).2 = []) := by
  have hmr := run_keeps_recorder acts Comp.mount (by decide) hrec
  obtain ⟨mr, hmr'⟩ := Option.ne_none_iff_exists'.1 hmr
  have h := (stopRecording_of_recording q _ mr hmr' hrec).2.2.2
  refine ⟨hmr, h, ?_⟩
  intro hnull
  rw [h, hnull]
  rfl

/-- Witness of C16, at a recording with job "J1" and at one whose start-job request failed. -/
theorem stopRecording_final_check_witness :
    statusQueries
      (stopRecording (run [.start (.granted [.live]) (.ok (.str "J1"))] Comp.mount).st .thrown
        (run [.start (.granted [.live]) (.ok (.str "J1"))] Comp.mount)).2 = [.str "J1"] ∧
    statusQueries
      (stopRecording (run [.start (.granted [.live]) .failed] Comp.mount).st .thrown
        (run [.start (.granted [.live]) .failed] Comp.mount)).2 = [] :=
  ⟨(stopRecording_final_check [.start (.granted [.live]) (.ok (.str "J1"))] .thrown
      (by decide)).2.1,
    (stopRecording_final_check [.start (.granted [.live]) .failed] .thrown (by decide)).2.2
      (by decide)⟩

theorem pauseRecording_twice_st (c : Comp) (mr : MediaRecorder)
    (hmr : c.mediaRecorderRef = some mr) (hrec : c.st.isRecording = true) :
    (pauseRecording (pauseRecording c.st c).st (pauseRecording c.st c)).st = c.st := by
  rcases c with ⟨⟨ir, ip, rt, tt, ts, uf, sp, j⟩, mrr, ch, tr, tm, pi⟩
  simp only at hmr hrec
  subst hmr hrec
  cases ip <;> simp [pauseRecording]

/-- The state cells after `pauseRecording` depend only on the closure, the
state cells and the presence of a recorder. -/
theorem pauseRecording_st_congr (cl : State) (x y : Comp) (hst : x.st = y.st)
    (hmr : x.mediaRecorderRef = y.mediaRecorderRef) :
    (pauseRecording cl x).st = (pauseRecording cl y).st := by
  unfold pauseRecording
  rw [hmr]
  split
  · exact hst
  · split_ifs <;> simp [hst]

theorem clickPause_of_recording (x : Comp) (h : x.st.isRecording = true) :
    (clickPause x).1.st = (pauseRecording x.st x).st ∧
    (clickPause x).1.mediaRecorderRef = (pauseRecording x.st x).mediaRecorderRef := by
  simp [clickPause, act_fst, h]

/-- C17: in every state with a recorder present and `isRecording = true`,
`pauseRecording` flips `isPaused` and leaves the chunk list, `recordingTime`,
`jobId`, the status and the text unchanged, so two consecutive calls restore
the state cells, also through the button; in every state with
`isRecording = false` it changes nothing. -/
theorem pauseRecording_toggle (c : Comp) (mr : MediaRecorder)
    (hmr : c.mediaRecorderRef = some mr) (hrec : c.st.isRecording = true) :
    (pauseRecording c.st c).st.isPaused = !c.st.isPaused ∧
    (pauseRecording c.st c).audioChunksRef = c.audioChunksRef ∧
    (pauseRecording c.st c).st.recordingTime = c.st.recordingTime ∧
    (pauseRecording c.st c).st.jobId = c.st.jobId ∧
    (pauseRecording c.st c).st.transcriptionStatus = c.st.transcriptionStatus ∧
    (pauseRecording c.st c).st.transcriptionText = c.st.transcriptionText ∧
    (pauseRecording (pauseRecording c.st c).st (pauseRecording c.st c)).st = c.st ∧
    (pauseRecording (pauseRecording c.st c).st (pauseRecording c.st c)).audioChunksRef
      = c.audioChunksRef ∧
    (clickPause (clickPause c).1).1.st = c.st ∧
    ∀ x : Comp, x.st.isRecording = false → pauseRecording x.st x = x := by
  have hk := pauseRecording_keeps c.st c
  refine ⟨?_, hk.1, hk.2.1, hk.2.2.1, hk.2.2.2.1, hk.2.2.2.2.1, ?_, ?_, ?_, ?_⟩
  · cases hp : c.st.isPaused <;> simp [pauseRecording, hmr, hrec, hp]
  · exact pauseRecording_twice_st c mr hmr hrec
  · cases hp : c.st.isPaused <;> simp [pauseRecording, hmr, hrec, hp]
  · have h1 := clickPause_of_recording c hrec
    have h3 : (clickPause c).1.st.isRecording = true := by
      rw [h1.1, hk.2.2.2.2.2, hrec]
    rw [(clickPause_of_recording _ h3).1, ← pauseRecording_twice_st c mr hmr hrec, h1.1]
    exact pauseRecording_st_congr _ _ _ h1.1 h1.2
  · intro x hx
    unfold pauseRecording
    split
    · rfl
    · simp [hx]

/-- Witness of C17, at the component that records with job "J1". -/
theorem pauseRecording_toggle_witness :
    exRecording.st.isRecording = true ∧
    (pauseRecording exRecording.st exRecording).st.isPaused = true ∧
    (pauseRecording (pauseRecording exRecording.st exRecording).st
      (pauseRecording exRecording.st exRecording)).st = exRecording.st :=
  ⟨by decide,
    (pauseRecording_toggle exRecording { state := .recording, stream := [.live] }
      (by decide) (by decide)).1,
    (pauseRecording_toggle exRecording { state := .recording, stream := [.live] }
      (by decide) (by decide)).2.2.2.2.2.2.1⟩


/-! ## Lemmas on steps -/

theorem commit_same (c : Comp) (x : Comp) (h : x.st = c.st) : commit c.st x = x := by
  rw [commit_eq, h]
  simp [tickDepsChanged, pollDepsChanged]

theorem handleFileUpload_frame3 (cl : State) (file : Option File) (up : PostOutcome) (c : Comp) :
    (handleFileUpload cl file up c).1.timers = c.timers ∧
    (handleFileUpload cl file up c).1.timerRef = c.timerRef ∧
    (handleFileUpload cl file up c).1.pollInterval = c.pollInterval :=
  ⟨(handleFileUpload_frame cl file up c).1, (handleFileUpload_frame cl file up c).2.1,
    (handleFileUpload_frame cl file up c).2.2.1⟩

theorem inv_step {c : Comp} (h : Inv c) (a : Action) : Inv (step a c).1 := by
  cases a with
  | start mic post =>
    have hf := startRecording_frame c.st mic post c
    exact inv_act h _ hf.1 hf.2.1 hf.2.2
  | pause =>
    have hf := pauseRecording_frame c.st c
    exact inv_act h _ hf.1 hf.2.1 hf.2.2
  | stop q =>
    have hf := stopRecording_frame c.st q c
    exact inv_act h _ hf.1 hf.2.1 hf.2.2.1
  | upload file up =>
    have hf := handleFileUpload_frame3 c.st file up c
    exact inv_act h _ hf.1 hf.2.1 hf.2.2
  | check jId q =>
    have hf := checkTranscriptionStatus_frame jId q c
    exact inv_act h _ hf.1 hf.2.1 hf.2.2.1
  | generate gen =>
    exact inv_act h _ (by rw [handleGenerateNote_fst]) (by rw [handleGenerateNote_fst])
      (by rw [handleGenerateNote_fst])
  | data chunk =>
    exact ⟨timersOK_frame h.ok c.st c.mediaRecorderRef (c.audioChunksRef ++ [chunk]), h.tick, h.poll⟩
  | wait d => exact inv_elapse h d

theorem reachable_step {c : Comp} (h : Reachable c) (a : Action) : Reachable (step a c).1 := by
  cases a with
  | start mic post =>
    have hf := startRecording_frame c.st mic post c
    exact reachable_act h _ hf.1 hf.2.1 hf.2.2
  | pause =>
    have hf := pauseRecording_frame c.st c
    exact reachable_act h _ hf.1 hf.2.1 hf.2.2
  | stop q =>
    have hf := stopRecording_frame c.st q c
    exact reachable_act h _ hf.1 hf.2.1 hf.2.2.1
  | upload file up =>
    have hf := handleFileUpload_frame3 c.st file up c
    exact reachable_act h _ hf.1 hf.2.1 hf.2.2
  | check jId q =>
    have hf := checkTranscriptionStatus_frame jId q c
    exact reachable_act h _ hf.1 hf.2.1 hf.2.2.1
  | generate gen =>
    exact reachable_act h _ (by rw [handleGenerateNote_fst]) (by rw [handleGenerateNote_fst])
      (by rw [handleGenerateNote_fst])
  | data chunk =>
    have := Reachable.step c c.st c.mediaRecorderRef (c.audioChunksRef ++ [chunk]) h
    rw [commit_same c
      { c with
        st := c.st, mediaRecorderRef := c.mediaRecorderRef,
        audioChunksRef := c.audioChunksRef ++ [chunk] } rfl] at this
    exact this
  | wait d => exact Reachable.elapse c d h

theorem reachable_run {c : Comp} (h : Reachable c) (acts : List Action) :
    Reachable (run acts c) := by
  induction acts generalizing c with
  | nil => exact h
  | cons a rest ih => exact ih (reachable_step h a)

theorem step_recordingTime (a : Action) (c : Comp) (h : a.isStart = false) :
    (step a c).1.st.recordingTime
      = c.st.recordingTime + (match a with | .wait d => tickFirings d c.timers | _ => 0) := by
  cases a with
  | start mic post => simp [Action.isStart] at h
  | pause => simp [step, act_fst, (pauseRecording_keeps c.st c).2.1]
  | stop q => simp [step, act_fst, (stopRecording_frame c.st q c).2.2.2]
  | upload file up => simp [step, act_fst, (handleFileUpload_frame c.st file up c).2.2.2.2.2.1]
  | check jId q => simp [step, act_fst, (checkTranscriptionStatus_frame jId q c).2.2.2.2.2.1]
  | generate gen => simp [step, act_fst, handleGenerateNote_fst]
  | data chunk => simp [step, ondataavailable]
  | wait d => simp [step, elapse]

theorem step_isRecording (a : Action) (c : Comp) (h : a.isStart = false)
    (hr : c.st.isRecording = false) : (step a c).1.st.isRecording = false := by
  cases a with
  | start mic post => simp [Action.isStart] at h
  | pause => simp [step, act_fst, (pauseRecording_keeps c.st c).2.2.2.2.2, hr]
  | stop q =>
    have hx : stopRecording c.st q c = (c, []) := by
      unfold stopRecording
      split
      · rfl
      · simp [hr]
    simp [step, act_fst, hx, hr]
  | upload file up =>
    simp [step, act_fst, (handleFileUpload_frame c.st file up c).2.2.2.2.2.2.1, hr]
  | check jId q =>
    simp [step, act_fst, (checkTranscriptionStatus_frame jId q c).2.2.2.2.2.2.1, hr]
  | generate gen => simp [step, act_fst, handleGenerateNote_fst, hr]
  | data chunk => simpa [step, ondataavailable] using hr
  | wait d => simpa [step, elapse] using hr

theorem elapse_iterate (d : Nat) (c : Comp) :
    (elapse d c).st = tickCallback^[tickFirings d c.timers] c.st := by
  have h : ∀ (n : Nat) (s : State),
      tickCallback^[n] s = { s with recordingTime := s.recordingTime + n } := by
    intro n
    induction n with
    | zero => intro s; rfl
    | succ k ih =>
      intro s
      rw [Function.iterate_succ_apply, ih]
      simp [tickCallback, Nat.add_assoc, Nat.add_comm 1 k]
  rw [h]
  rfl

theorem run_stopped_recordingTime (acts : List Action) (c : Comp) (hi : Inv c)
    (hr : c.st.isRecording = false) (h : ∀ a ∈ acts, a.isStart = false) :
    (run acts c).st.recordingTime = c.st.recordingTime := by
  induction acts generalizing c with
  | nil => rfl
  | cons a rest ih =>
    have ha := h a (List.mem_cons_self _ _)
    rw [run_cons, ih _ (inv_step hi a) (step_isRecording a c ha hr)
      (fun x hx => h x (List.mem_cons_of_mem _ hx)), step_recordingTime a c ha]
    cases a with
    | wait d =>
      have hnil := inv_tickTimers_nil hi (by simp [tickCond, hr])
      simp [tickFirings_eq, hnil]
    | _ => rfl


/-- C18: the elapsed-time tick runs only while recording.  In every state
after the effects have run the tick interval is armed exactly when
`isRecording` and not `isPaused`; the passing of time applies the tick
callback once per firing and each application adds exactly 1; in a state that
is paused, stopped or idle no action other than `startRecording` changes
`recordingTime`, and after a stop no sequence of such actions does; and no
action other than `startRecording` ever decreases it. -/
theorem tick_only_while_recording (c : Comp) (h : Reachable c) :
    (tickLive c = true ↔ c.st.isRecording = true ∧ c.st.isPaused = false) ∧
    (∀ d : Nat, (elapse d c).st = tickCallback^[tickFirings d c.timers] c.st) ∧
    (∀ s : State, (tickCallback s).recordingTime = s.recordingTime + 1) ∧
    (¬ (c.st.isRecording = true ∧ c.st.isPaused = false) →
      ∀ a : Action, a.isStart = false →
        (step a c).1.st.recordingTime = c.st.recordingTime) ∧
    (c.st.isRecording = false →
      ∀ acts : List Action, (∀ a ∈ acts, a.isStart = false) →
        (run acts c).st.recordingTime = c.st.recordingTime) ∧
    (∀ a : Action, a.isStart = false →
      c.st.recordingTime ≤ (step a c).1.st.recordingTime) := by
  have hi := reachable_inv h
  refine ⟨?_, fun d => elapse_iterate d c, fun _ => rfl, ?_, ?_, ?_⟩
  · rw [hi.tick]
    simp [tickCond]
  · intro hc a ha
    rw [step_recordingTime a c ha]
    cases a with
    | wait d =>
      have hnil := inv_tickTimers_nil hi (by
        simp only [tickCond]
        cases hr : c.st.isRecording <;> cases hp : c.st.isPaused <;> simp_all)
      simp [tickFirings_eq, hnil]
    | _ => rfl
  · intro hr acts hacts
    exact run_stopped_recordingTime acts c hi hr hacts
  · intro a ha
    rw [step_recordingTime a c ha]
    exact Nat.le_add_right _ _

/-- Witness of C18, at the component that records with job "J1", once paused. -/
theorem tick_only_while_recording_witness :
    tickLive exRecording = true ∧
    tickLive (clickPause exRecording).1 = false ∧
    (step (.wait 5000) (clickPause exRecording).1).1.st.recordingTime
      = (clickPause exRecording).1.st.recordingTime ∧
    (run [.wait 2000, .check (.str "J1") .thrown, .wait 3000]
      (clickStop .thrown exRecording).1).st.recordingTime
      = (clickStop .thrown exRecording).1.st.recordingTime :=
  ⟨by decide, by decide,
    (tick_only_while_recording (step .pause exRecording).1
      (reachable_step (reachable_clickStart Reachable.mount _ _) .pause)).2.2.2.1
      (by decide) (.wait 5000) rfl,
    (tick_only_while_recording (step (.stop .thrown) exRecording).1
      (reachable_step (reachable_clickStart Reachable.mount _ _) (.stop .thrown))).2.2.2.2.1
      (by decide) [.wait 2000, .check (.str "J1") .thrown, .wait 3000] (by decide)⟩

theorem unmountCleanup_eq (q : QueryOutcome) (c : Comp) :
    unmountCleanup q c = (tickCleanup c, []) := by
  unfold unmountCleanup stopRecording
  split
  · rfl
  · simp [State.initial]

/-- C19: teardown cancels both timers.  After the cleanups of an unmount have
run, no tick interval and no poll interval is live, so the passing of time
fires no callback: `recordingTime` stays and no interval exists that could
issue a status query. -/
theorem unmount_cancels_timers (q : QueryOutcome) (c : Comp) (h : Reachable c) :
    tickTimers (unmount q c).1 = [] ∧
    pollTimers (unmount q c).1 = [] ∧
    tickLive (unmount q c).1 = false ∧
    pollLive (unmount q c).1 = false ∧
    ∀ d : Nat,
      (elapse d (unmount q c).1).st.recordingTime = (unmount q c).1.st.recordingTime ∧
      pollTimers (elapse d (unmount q c).1) = [] ∧
      tickTimers (elapse d (unmount q c).1) = [] := by
  have hok := (reachable_inv h).ok
  have h1 := tickCleanup_ok hok
  have h2 := tickCleanup_ok h1
  have hu : (unmount q c).1 = pollCleanup (tickCleanup (tickCleanup c)) := by
    simp [unmount, unmountCleanup_eq]
  have ht : tickTimers (unmount q c).1 = [] := by
    rw [hu, pollCleanup_tick h2, tickCleanup_tick h1]
  have hp : pollTimers (unmount q c).1 = [] := by
    rw [hu, pollCleanup_poll h2]
  refine ⟨ht, hp, by simp [tickLive, ht], by simp [pollLive, hp], ?_⟩
  intro d
  refine ⟨?_, by rw [elapse_pollTimers, hp]; rfl, by rw [elapse_tickTimers, ht]; rfl⟩
  show (unmount q c).1.st.recordingTime + tickFirings d (unmount q c).1.timers = _
  rw [tickFirings_eq, ht]
  simp

/-- Witness of C19, at the component that records with job "J1". -/
theorem unmount_cancels_timers_witness :
    tickLive exRecording = true ∧
    pollLive exRecording = true ∧
    tickLive (unmount .thrown exRecording).1 = false ∧
    pollLive (unmount .thrown exRecording).1 = false :=
  ⟨by decide, by decide,
    (unmount_cancels_timers .thrown exRecording
      (reachable_clickStart Reachable.mount _ _)).2.2.1,
    (unmount_cancels_timers .thrown exRecording
      (reachable_clickStart Reachable.mount _ _)).2.2.2.1⟩


/-! ## The claims, third part -/

/-- C21, counterexample: a completed transcript is present; a start whose
microphone request is denied leaves the status idle and the text empty. -/
theorem denied_start_discards_transcript :
    exEarlierJob.st.transcriptionStatus = .completed ∧
    exEarlierJob.st.transcriptionText = .str "old transcript" ∧
    (clickStart .denied .failed exEarlierJob).1.st.transcriptionStatus = .idle ∧
    (clickStart .denied .failed exEarlierJob).1.st.transcriptionText = .str "" := by
  decide

/-- C21, amended: when the microphone request is denied, `startRecording`
leaves `isRecording`, `isPaused`, `jobId`, `specialty`, `uploadingFile` and the
recorder as they were and sends no start-job request, so the action can be
retried; but the reset that precedes the request has already set the status
to idle, the text to the empty string, `recordingTime` to 0 and the chunk list
to empty, so a transcript completed earlier is discarded. -/
theorem startRecording_denied_state (cl : State) (post : PostOutcome) (c : Comp) :
    (startRecording cl .denied post c).1.st
      = { c.st with recordingTime := 0, transcriptionText := .str "",
                    transcriptionStatus := .idle } ∧
    (startRecording cl .denied post c).1.mediaRecorderRef = c.mediaRecorderRef ∧
    (startRecording cl .denied post c).1.audioChunksRef = [] ∧
    (startRecording cl .denied post c).2
      = [.getUserMedia, .toastError "Failed to access microphone. Please check permissions."] ∧
    (startRecording cl .denied post (startRecording cl .denied post c).1).1
      = (startRecording cl .denied post c).1 := by
  simp [startRecording]

/-- C22: a failed upload is atomic.  For a file that passes both checks, when
the upload request fails, `jobId`, the status and the text are unchanged and
`uploadingFile` is false; the re-render runs no effect, so the intervals are
the same as before and no poll timer is armed by the attempt. -/
theorem handleFileUpload_failed (cl : State) (f : File) (c : Comp)
    (hs : f.size ≤ 25 * 1024 * 1024) (ht : includes f.type "audio" = true) :
    (handleFileUpload cl (some f) .failed c).1.st = { c.st with uploadingFile := false } ∧
    (handleFileUpload cl (some f) .failed c).1.st.jobId = c.st.jobId ∧
    (handleFileUpload cl (some f) .failed c).1.st.transcriptionStatus
      = c.st.transcriptionStatus ∧
    (handleFileUpload cl (some f) .failed c).1.st.transcriptionText = c.st.transcriptionText ∧
    (handleFileUpload cl (some f) .failed c).1.st.uploadingFile = false ∧
    (act (handleFileUpload cl (some f) .failed) c).1.timers = c.timers ∧
    pollTimers (act (handleFileUpload cl (some f) .failed) c).1 = pollTimers c := by
  have hs' : ¬ f.size > 25 * 1024 * 1024 := by omega
  have h : (handleFileUpload cl (some f) .failed c).1
      = { c with st := { c.st with uploadingFile := false } } := by
    simp [handleFileUpload, hs', ht]
  have ha : (act (handleFileUpload cl (some f) .failed) c).1
      = { c with st := { c.st with uploadingFile := false } } := by
    rw [act_fst, h, commit_eq]
    simp [tickDepsChanged, pollDepsChanged]
  refine ⟨by rw [h], by rw [h], by rw [h], by rw [h], by rw [h], by rw [ha], by rw [ha]; rfl⟩

/-- Witness of C22, at a failed upload while job "J1" is completed. -/
theorem handleFileUpload_failed_witness :
    (exAudio 1024).size ≤ 25 * 1024 * 1024 ∧
    includes (exAudio 1024).type "audio" = true ∧
    (handleFileUpload exCompleted.st (some (exAudio 1024)) .failed exCompleted).1.st
      = { exCompleted.st with uploadingFile := false } ∧
    pollTimers (act (handleFileUpload exCompleted.st (some (exAudio 1024)) .failed)
      exCompleted).1 = pollTimers exCompleted :=
  ⟨by decide, by decide,
    (handleFileUpload_failed exCompleted.st (exAudio 1024) exCompleted
      (by decide) (by decide)).1,
    (handleFileUpload_failed exCompleted.st (exAudio 1024) exCompleted
      (by decide) (by decide)).2.2.2.2.2.2⟩

/-- C23: note generation never alters the job.  Whatever the outcome of the
request, `handleGenerateNote` leaves the whole component unchanged, so `jobId`,
the status, the text and the specialty stay; a second call, by the button or
directly, sends the same request as the first, which for a truthy `jobId` is
the one request with the current `jobId` and specialty. -/
theorem handleGenerateNote_keeps_job (cl : State) (gen gen2 : GenOutcome) (c : Comp) :
    (handleGenerateNote cl gen c).1 = c ∧
    (clickGenerateNote gen c).1 = c ∧
    generateRequests
        (handleGenerateNote (handleGenerateNote c.st gen c).1.st gen2
          (handleGenerateNote c.st gen c).1).2
      = generateRequests (handleGenerateNote c.st gen c).2 ∧
    generateRequests (clickGenerateNote gen2 (clickGenerateNote gen c).1).2
      = generateRequests (clickGenerateNote gen c).2 ∧
    generateRequests (handleGenerateNote c.st gen c).2
      = (if c.st.jobId.truthy then [(c.st.jobId, c.st.specialty)] else []) := by
  have hreq : ∀ (g : GenOutcome) (x : Comp), generateRequests (handleGenerateNote x.st g x).2
      = (if x.st.jobId.truthy then [(x.st.jobId, x.st.specialty)] else []) := by
    intro g x
    unfold handleGenerateNote
    cases hj : x.st.jobId.truthy
    · simp [generateRequests]
    · cases g <;> simp [generateRequests]
  have hclick : ∀ (g : GenOutcome) (x : Comp), (clickGenerateNote g x).1 = x := by
    intro g x
    unfold clickGenerateNote
    split_ifs
    · rfl
    · exact handleGenerateNote_fst _ _ _
  have hcreq : ∀ (g : GenOutcome) (x : Comp), generateRequests (clickGenerateNote g x).2
      = (if x.st.transcriptionStatus ≠ .completed then []
         else if x.st.jobId.truthy then [(x.st.jobId, x.st.specialty)] else []) := by
    intro g x
    unfold clickGenerateNote
    split_ifs with h1 h2
    · rfl
    · rw [hreq, if_pos h2]
    · rw [hreq, if_neg h2]
  refine ⟨handleGenerateNote_fst cl gen c, hclick gen c, ?_, ?_, hreq gen c⟩
  · rw [handleGenerateNote_fst, hreq, hreq]
  · rw [hclick, hcreq, hcreq]


theorem checkTranscriptionStatus_keeps (jId : JsVal) (q : QueryOutcome) (c : Comp) :
    (checkTranscriptionStatus jId q c).1.st.jobId = c.st.jobId ∧
    (checkTranscriptionStatus jId q c).1.st.specialty = c.st.specialty ∧
    (checkTranscriptionStatus jId q c).1.st.uploadingFile = c.st.uploadingFile := by
  cases q with
  | thrown => simp [checkTranscriptionStatus]
  | response status transcript =>
    simp only [checkTranscriptionStatus]
    split_ifs <;> simp

/-- C24, counterexample: job "J0" was created and completed; a second
successful start replaces `jobId` by "J1". -/
theorem jobId_overwritten_by_next_job :
    exEarlierJob.st.jobId = .str "J0" ∧
    (clickStart (.granted [.live]) (.ok (.str "J1")) exEarlierJob).1.st.jobId = .str "J1" ∧
    (step (.upload (some (exAudio 1024)) (.ok (.str "J2"))) exEarlierJob).1.st.jobId
      = .str "J2" := by
  decide

/-- C24, amended: `jobId` is written only by a successful job creation, which
replaces it by the id of the new job; every other step (a denied or failed
start, a rejected or failed upload, `checkTranscriptionStatus`, `stopRecording`,
`pauseRecording`, `handleGenerateNote`, a fragment, time, a change of the
specialty) leaves it unchanged. -/
theorem jobId_written_by_creation_only (a : Action) (v : String) (c : Comp) :
    (step a c).1.st.jobId = (createdJob a).getD c.st.jobId ∧
    (selectSpecialty v c).st.jobId = c.st.jobId := by
  refine ⟨?_, ?_⟩
  · cases a with
    | start mic post =>
      cases mic <;> cases post <;> simp [step, act_fst, startRecording, createdJob]
    | pause => simp [step, act_fst, createdJob, (pauseRecording_keeps c.st c).2.2.1]
    | stop q =>
      simp only [step, act_fst, commit_st, createdJob, Option.getD_none]
      unfold stopRecording
      split
      · rfl
      · split_ifs
        · exact (checkTranscriptionStatus_keeps _ q _).1
        · rfl
        · rfl
    | upload file up =>
      simp only [step, act_fst, commit_st]
      cases file with
      | none => simp [handleFileUpload, createdJob]
      | some f =>
        cases up with
        | failed =>
          simp only [handleFileUpload, createdJob, Option.getD_none]
          split_ifs <;> rfl
        | ok j =>
          simp only [handleFileUpload, createdJob]
          split_ifs <;> rfl
    | check jId q =>
      simp only [step, act_fst, commit_st, createdJob, Option.getD_none]
      exact (checkTranscriptionStatus_keeps jId q c).1
    | generate gen => simp [step, act_fst, createdJob, handleGenerateNote_fst]
    | data chunk => rfl
    | wait d => rfl
  · unfold selectSpecialty
    split_ifs
    · rfl
    · simp [setSpecialty]


theorem step_specialty (a : Action) (c : Comp) :
    (step a c).1.st.specialty = c.st.specialty := by
  cases a with
  | start mic post =>
    cases mic <;> cases post <;> simp [step, act_fst, startRecording]
  | pause =>
    simp only [step, act_fst, commit_st]
    unfold pauseRecording
    split
    · rfl
    · split_ifs <;> rfl
  | stop q =>
    simp only [step, act_fst, commit_st]
    unfold stopRecording
    split
    · rfl
    · split_ifs
      · exact (checkTranscriptionStatus_keeps _ q _).2.1
      · rfl
      · rfl
  | upload file up =>
    simp only [step, act_fst, commit_st]
    unfold handleFileUpload
    split
    · rfl
    · split_ifs
      · rfl
      · rfl
      · split <;> rfl
  | check jId q =>
    simp only [step, act_fst, commit_st]
    exact (checkTranscriptionStatus_keeps jId q c).2.1
  | generate gen => simp [step, act_fst, handleGenerateNote_fst]
  | data chunk => rfl
  | wait d => rfl


/-- The state cells after `checkTranscriptionStatus`, by the class of the outcome. -/
theorem checkTranscriptionStatus_st (jId : JsVal) (q : QueryOutcome) (c : Comp) :
    (checkTranscriptionStatus jId q c).1 =
      { c with st :=
        match q with
        | .response status transcript =>
          if status = .str "completed" then
            { c.st with transcriptionStatus := .completed, transcriptionText := transcript }
          else if status = .str "failed" then { c.st with transcriptionStatus := .error }
          else c.st
        | .thrown => { c.st with transcriptionStatus := .error } } := by
  cases q with
  | thrown => rfl
  | response status transcript =>
    simp only [checkTranscriptionStatus]
    split_ifs <;> rfl

/-- C26, counterexample: from the processing job "J1", a `completed` response
followed by a thrown query ends in status error, and the same two outcomes in
the other order end in status completed. -/
theorem check_order_matters :
    exProcessing.st.transcriptionStatus = .processing ∧
    (checkTranscriptionStatus (.str "J1") .thrown
      (checkTranscriptionStatus (.str "J1") (.response (.str "completed") (.str "chest pain"))
        exProcessing).1).1.st.transcriptionStatus = .error ∧
    (checkTranscriptionStatus (.str "J1") (.response (.str "completed") (.str "chest pain"))
      (checkTranscriptionStatus (.str "J1") .thrown
        exProcessing).1).1.st.transcriptionStatus = .completed := by
  decide

/-- C29: `checkTranscriptionStatus` does not correlate the response with the
current job.  The component after the call does not depend on the id that was
queried; in particular a `completed` response sets the status to completed and
overwrites the text whatever id was queried and whatever `jobId` is. -/
theorem checkTranscriptionStatus_ignores_id (j j2 : JsVal) (r : QueryOutcome) (t : JsVal)
    (c : Comp) :
    (checkTranscriptionStatus j r c).1 = (checkTranscriptionStatus j2 r c).1 ∧
    (checkTranscriptionStatus j (.response (.str "completed") t) c).1.st.transcriptionStatus
      = .completed ∧
    (checkTranscriptionStatus j (.response (.str "completed") t) c).1.st.transcriptionText = t ∧
    (step (.check j r) c).1 = (step (.check j2 r) c).1 := by
  have h : (checkTranscriptionStatus j r c).1 = (checkTranscriptionStatus j2 r c).1 := by
    rw [checkTranscriptionStatus_st, checkTranscriptionStatus_st]
  refine ⟨h, rfl, rfl, ?_⟩
  simp only [step, act_fst, h]

/-- C30: `ProtectedRoute` gates on the presence of the token only.  It renders
its children exactly when `localStorage` has an entry `token`, whatever its
value, the empty string included; otherwise it renders the redirect to
`/login`. -/
theorem protectedRoute_gate {α : Type} (storage : Storage) (children : α) (value : String) :
    (ProtectedRoute storage children = .children children ↔ getItem storage "token" ≠ none) ∧
    ProtectedRoute storage children
      = (if getItem storage "token" = none then .navigate "/login" true
         else .children children) ∧
    ProtectedRoute (("token", value) :: storage) children = .children children ∧
    ProtectedRoute (("token", "") :: storage) children = .children children := by
  have h2 : ProtectedRoute storage children
      = (if getItem storage "token" = none then .navigate "/login" true
         else .children children) := by
    unfold ProtectedRoute
    cases getItem storage "token" <;> simp
  refine ⟨?_, h2, ?_, ?_⟩
  · rw [h2]
    cases getItem storage "token" <;> simp
  · simp [ProtectedRoute, getItem, List.lookup]
  · simp [ProtectedRoute, getItem, List.lookup]


/-! ## Lemmas on decimal numerals -/

theorem toDigitsCore_acc (fuel n : Nat) (ds : List Char) :
    Nat.toDigitsCore 10 fuel n ds = Nat.toDigitsCore 10 fuel n [] ++ ds := by
  induction fuel generalizing n ds with
  | zero => rfl
  | succ f ih =>
    simp only [Nat.toDigitsCore]
    split_ifs
    · rfl
    · rw [ih (n / 10) (Nat.digitChar (n % 10) :: ds), ih (n / 10) [Nat.digitChar (n % 10)]]
      simp

theorem toDigitsCore_fuel (n : Nat) :
    ∀ f g : Nat, n < f → n < g →
      Nat.toDigitsCore 10 f n [] = Nat.toDigitsCore 10 g n [] := by
  induction n using Nat.strong_induction_on with
  | _ n ih =>
    intro f g hf hg
    obtain ⟨a, rfl⟩ : ∃ a, f = a + 1 := ⟨f - 1, by omega⟩
    obtain ⟨b, rfl⟩ : ∃ b, g = b + 1 := ⟨g - 1, by omega⟩
    simp only [Nat.toDigitsCore]
    split_ifs with h0
    · rfl
    · rw [toDigitsCore_acc a, toDigitsCore_acc b,
        ih (n / 10) (by omega) a b (by omega) (by omega)]

theorem toDigits_small (n : Nat) (h : n < 10) : Nat.toDigits 10 n = [Nat.digitChar n] := by
  have h0 : n / 10 = 0 := by omega
  have h1 : n % 10 = n := by omega
  simp [Nat.toDigits, Nat.toDigitsCore, h0, h1]

theorem toDigits_step (n : Nat) (h : 10 ≤ n) :
    Nat.toDigits 10 n = Nat.toDigits 10 (n / 10) ++ [Nat.digitChar (n % 10)] := by
  have h0 : ¬ n / 10 = 0 := by omega
  have hl : Nat.toDigitsCore 10 (n + 1) n []
      = Nat.toDigitsCore 10 n (n / 10) [Nat.digitChar (n % 10)] := by
    simp only [Nat.toDigitsCore, h0, if_false]
  unfold Nat.toDigits
  rw [hl, toDigitsCore_acc, toDigitsCore_fuel (n / 10) n (n / 10 + 1) (by omega) (by omega)]

theorem digitChar_toNat (d : Nat) (h : d < 10) : (Nat.digitChar d).toNat - 48 = d := by
  interval_cases d <;> rfl

theorem digitChar_ne_colon (d : Nat) (h : d < 10) : (Nat.digitChar d != ':') = true := by
  interval_cases d <;> rfl

theorem readDecimal_snoc (l : List Char) (ch : Char) :
    readDecimal (l ++ [ch]) = 10 * readDecimal l + (ch.toNat - 48) := by
  simp [readDecimal, List.foldl_append]

theorem readDecimal_toDigits (n : Nat) : readDecimal (Nat.toDigits 10 n) = n := by
  induction n using Nat.strong_induction_on with
  | _ n ih =>
    by_cases h : n < 10
    · rw [toDigits_small n h]
      simp [readDecimal, digitChar_toNat n h]
    · rw [toDigits_step n (by omega), readDecimal_snoc, ih (n / 10) (by omega),
        digitChar_toNat (n % 10) (by omega)]
      omega

theorem readDecimal_zeros (k : Nat) (l : List Char) :
    readDecimal (List.replicate k '0' ++ l) = readDecimal l := by
  induction k with
  | zero => rfl
  | succ k ih =>
    have : readDecimal ('0' :: (List.replicate k '0' ++ l))
        = readDecimal (List.replicate k '0' ++ l) := by
      simp [readDecimal]
    rw [List.replicate_succ, List.cons_append, this, ih]

theorem toDigits_no_colon (n : Nat) : ∀ ch ∈ Nat.toDigits 10 n, (ch != ':') = true := by
  induction n using Nat.strong_induction_on with
  | _ n ih =>
    intro ch hch
    by_cases h : n < 10
    · rw [toDigits_small n h, List.mem_singleton] at hch
      rw [hch]
      exact digitChar_ne_colon n h
    · rw [toDigits_step n (by omega), List.mem_append, List.mem_singleton] at hch
      rcases hch with hch | hch
      · exact ih (n / 10) (by omega) ch hch
      · rw [hch]
        exact digitChar_ne_colon (n % 10) (by omega)

theorem toDigits_length_pos (n : Nat) : 1 ≤ (Nat.toDigits 10 n).length := by
  by_cases h : n < 10
  · rw [toDigits_small n h]; simp
  · rw [toDigits_step n (by omega)]; simp

theorem toDigits_length_le_two (n : Nat) : (Nat.toDigits 10 n).length ≤ 2 ↔ n < 100 := by
  by_cases h : n < 10
  · rw [toDigits_small n h]
    simp
    omega
  · rw [toDigits_step n (by omega)]
    by_cases h2 : n < 100
    · rw [toDigits_small (n / 10) (by omega)]
      simp [h2]
    · have h3 : 10 ≤ n / 10 := by omega
      have := toDigits_length_pos (n / 10 / 10)
      rw [toDigits_step (n / 10) h3]
      simp only [List.length_append, List.length_singleton]
      omega

theorem padStart_zero_data (s : String) :
    (padStart s 2 "0").data = List.replicate (2 - s.data.length) '0' ++ s.data := by
  have h : ("0" : String).data = ['0'] := rfl
  show ((List.replicate (2 - s.data.length) ("0" : String).data).flatten.take
      (2 - s.data.length)) ++ s.data = _
  rw [h, List.flatten_replicate_singleton, List.take_replicate, Nat.min_self]

theorem clockText_data (n : Nat) :
    (clockText n).data
      = (List.replicate (2 - (Nat.toDigits 10 (n / 60)).length) '0' ++ Nat.toDigits 10 (n / 60))
        ++ ':' :: (List.replicate (2 - (Nat.toDigits 10 (n % 60)).length) '0'
          ++ Nat.toDigits 10 (n % 60)) := by
  have hc : (":" : String).data = [':'] := rfl
  have hn : ∀ k : Nat, (decimal k).data = Nat.toDigits 10 k := fun _ => rfl
  simp only [clockText, String.data_append, padStart_zero_data, hc, hn]
  simp

theorem zeros_no_colon (k : Nat) : ∀ ch ∈ List.replicate k '0', (ch != ':') = true := by
  intro ch hch
  rw [List.eq_of_mem_replicate hch]
  rfl

theorem readTime_clockText (n : Nat) : readTime (clockText n) = n := by
  have hA : ∀ ch ∈ List.replicate (2 - (Nat.toDigits 10 (n / 60)).length) '0'
      ++ Nat.toDigits 10 (n / 60), (ch != ':') = true := by
    intro ch hch
    rcases List.mem_append.1 hch with h | h
    · exact zeros_no_colon _ ch h
    · exact toDigits_no_colon _ ch h
  simp only [readTime, clockText_data]
  rw [List.takeWhile_append_of_pos hA, List.dropWhile_append_of_pos hA]
  simp only [List.takeWhile_cons, List.dropWhile_cons, bne_self_eq_false, Bool.false_eq_true,
    if_false, List.append_nil, List.drop_succ_cons, List.drop_zero]
  rw [readDecimal_zeros, readDecimal_zeros, readDecimal_toDigits, readDecimal_toDigits]
  omega

theorem stripFactor_le (b fuel x : Nat) : stripFactor b fuel x ≤ x := by
  induction fuel generalizing x with
  | zero => exact Nat.le_refl x
  | succ f ih =>
    simp only [stripFactor]
    split_ifs
    · exact Nat.le_trans (ih (x / b)) (Nat.div_le_self x b)
    · exact Nat.le_refl x

theorem maxSafeInteger_eq : maxSafeInteger = 9007199254740991 := by
  decide

theorem isNumber_safe (n : Nat) (h : n ≤ maxSafeInteger) : isNumber n = true := by
  have h1 := stripFactor_le 2 971 n
  rw [maxSafeInteger_eq] at h
  have h2 : stripFactor 2 971 n < 2 ^ 53 := by
    have : (2 : Nat) ^ 53 = 9007199254740992 := by norm_num
    omega
  exact decide_eq_true h2

theorem formatTime_safe (n : Nat) (h : n ≤ maxSafeInteger) :
    formatTime n = some (clockText n) := by
  have hq : n / 60 ≤ maxSafeInteger := Nat.le_trans (Nat.div_le_self n 60) h
  have hr : n % 60 ≤ maxSafeInteger := by
    rw [maxSafeInteger_eq]
    omega
  simp [formatTime, isNumber_safe n h, floorDiv60, numberToString, h, hq, hr, clockText]


/-! ## Lemmas on calls in flight -/

/-- The handler `startRecording` run to its end is the composition of its
parts, as far as the outcomes let it run. -/
theorem startRecording_phases (cl : State) (stream : List TrackState) (job_id : JsVal)
    (post : PostOutcome) (c : Comp) :
    (startRecording cl .denied post c).1 = startRecordingBegin c ∧
    (startRecording cl (.granted stream) .failed c).1
      = startRecordingGranted stream (startRecordingBegin c) ∧
    (startRecording cl (.granted stream) (.ok job_id) c).1
      = startRecordingJobStarted job_id (startRecordingGranted stream (startRecordingBegin c)) :=
  ⟨rfl, rfl, rfl⟩

/-- The handler `stopRecording` with its answer applied at once is
`stopRecordingBegin` followed by the answer of the query it started. -/
theorem stopRecording_phases (cl : State) (q : QueryOutcome) (c : Comp) :
    (stopRecording cl q c).1 =
      match (stopRecordingBegin cl c).2 with
      | [] => (stopRecordingBegin cl c).1
      | jId :: _ => (checkTranscriptionStatus jId q (stopRecordingBegin cl c).1).1 := by
  unfold stopRecording stopRecordingBegin
  split
  · rfl
  · split_ifs <;> rfl

theorem play_foldl (moves : List Move) (p : Page) (es : List Event) :
    moves.foldl (fun x m => ((move m x.1).1, x.2 ++ (move m x.1).2)) (p, es)
      = ((play moves p).1, es ++ (play moves p).2) := by
  induction moves generalizing p es with
  | nil => simp [play]
  | cons m rest ih =>
    simp only [play, List.foldl_cons, List.nil_append]
    rw [ih (move m p).1 (es ++ (move m p).2), ih (move m p).1 (move m p).2]
    simp [List.append_assoc]

theorem play_cons (m : Move) (moves : List Move) (p : Page) :
    play (m :: moves) p
      = ((play moves (move m p).1).1, (move m p).2 ++ (play moves (move m p).1).2) := by
  show (moves.foldl _ ((move m p).1, [] ++ (move m p).2)) = _
  rw [List.nil_append, play_foldl]

theorem play_snoc (moves : List Move) (m : Move) (p : Page) :
    play (moves ++ [m]) p
      = ((move m (play moves p).1).1, (play moves p).2 ++ (move m (play moves p).1).2) := by
  simp [play, List.foldl_append]

/-- What a move does to the status and the text. -/
theorem move_status_text (m : Move) (p : Page) :
    ((move m p).1.comp.st.transcriptionStatus = p.comp.st.transcriptionStatus ∧
      (move m p).1.comp.st.transcriptionText = p.comp.st.transcriptionText) ∨
    ((move m p).1.comp.st.transcriptionStatus = .idle ∧
      (move m p).1.comp.st.transcriptionText = .str "") ∨
    ((move m p).1.comp.st.transcriptionStatus = .processing ∧
      (move m p).1.comp.st.transcriptionText = p.comp.st.transcriptionText) ∨
    ((move m p).1.comp.st.transcriptionStatus = .error ∧
      (move m p).1.comp.st.transcriptionText = p.comp.st.transcriptionText) ∨
    ((move m p).1.comp.st.transcriptionStatus = .completed ∧
      ∃ i, m = .resolve i (.query (.response (.str "completed")
        (move m p).1.comp.st.transcriptionText))) := by
  cases m with
  | clickStart =>
    simp only [move]
    split_ifs
    · exact Or.inl ⟨rfl, rfl⟩
    · exact Or.inr (Or.inl ⟨by simp [startRecordingBegin], by simp [startRecordingBegin]⟩)
  | clickPause =>
    simp only [move]
    split_ifs
    · exact Or.inl ⟨rfl, rfl⟩
    · refine Or.inl ⟨?_, ?_⟩
      · simp [(pauseRecording_keeps p.comp.st p.comp).2.2.2.1]
      · simp [(pauseRecording_keeps p.comp.st p.comp).2.2.2.2.1]
  | clickStop =>
    simp only [move]
    split_ifs
    · exact Or.inl ⟨rfl, rfl⟩
    · refine Or.inl ?_
      simp only [commit_st]
      unfold stopRecordingBegin
      split
      · exact ⟨rfl, rfl⟩
      · split_ifs <;> exact ⟨rfl, rfl⟩
  | pickFile file =>
    simp only [move]
    split_ifs
    · exact Or.inl ⟨rfl, rfl⟩
    · cases file with
      | none => exact Or.inl ⟨rfl, rfl⟩
      | some f =>
        simp only
        split_ifs
        · exact Or.inl ⟨rfl, rfl⟩
        · exact Or.inl ⟨rfl, rfl⟩
        · exact Or.inl ⟨by simp, by simp⟩
  | clickGenerate =>
    simp only [move]
    split_ifs <;> exact Or.inl ⟨rfl, rfl⟩
  | select value =>
    refine Or.inl ?_
    simp only [move, selectSpecialty]
    split_ifs
    · exact ⟨rfl, rfl⟩
    · simp [setSpecialty]
  | pollTick =>
    refine Or.inl ?_
    simp only [move]
    split
    · exact ⟨rfl, rfl⟩
    · split <;> exact ⟨rfl, rfl⟩
  | resolve i a =>
    simp only [move]
    split
    · exact Or.inl ⟨rfl, rfl⟩
    · next pd _ =>
      split
      · exact Or.inl ⟨rfl, rfl⟩
      · next r hr =>
        simp only [commit_st]
        cases pd with
        | mic cl =>
          cases a with
          | mic o =>
            cases o with
            | granted stream =>
              simp only [resume, Option.some.injEq] at hr
              subst hr
              exact Or.inl ⟨rfl, rfl⟩
            | denied =>
              simp only [resume, Option.some.injEq] at hr
              subst hr
              exact Or.inl ⟨rfl, rfl⟩
          | post o => simp [resume] at hr
          | query o => simp [resume] at hr
          | gen o => simp [resume] at hr
        | startJob cl =>
          cases a with
          | post o =>
            cases o with
            | ok j =>
              simp only [resume, Option.some.injEq] at hr
              subst hr
              exact Or.inr (Or.inr (Or.inl ⟨rfl, rfl⟩))
            | failed =>
              simp only [resume, Option.some.injEq] at hr
              subst hr
              exact Or.inl ⟨rfl, rfl⟩
          | mic o => simp [resume] at hr
          | query o => simp [resume] at hr
          | gen o => simp [resume] at hr
        | upload cl f =>
          cases a with
          | post o =>
            cases o with
            | ok j =>
              simp only [resume, Option.some.injEq] at hr
              subst hr
              exact Or.inr (Or.inr (Or.inl ⟨rfl, rfl⟩))
            | failed =>
              simp only [resume, Option.some.injEq] at hr
              subst hr
              exact Or.inl ⟨rfl, rfl⟩
          | mic o => simp [resume] at hr
          | query o => simp [resume] at hr
          | gen o => simp [resume] at hr
        | status jId =>
          cases a with
          | query q =>
            simp only [resume, Option.some.injEq] at hr
            subst hr
            cases q with
            | thrown => exact Or.inr (Or.inr (Or.inr (Or.inl ⟨rfl, rfl⟩)))
            | response status transcript =>
              simp only [checkTranscriptionStatus]
              split_ifs with h1 h2
              · subst h1
                exact Or.inr (Or.inr (Or.inr (Or.inr ⟨rfl, i, rfl⟩)))
              · exact Or.inr (Or.inr (Or.inr (Or.inl ⟨rfl, rfl⟩)))
              · exact Or.inl ⟨rfl, rfl⟩
          | mic o => simp [resume] at hr
          | post o => simp [resume] at hr
          | gen o => simp [resume] at hr
        | note cl =>
          cases a with
          | gen o =>
            cases o with
            | ok n =>
              simp only [resume, Option.some.injEq] at hr
              subst hr
              exact Or.inl ⟨rfl, rfl⟩
            | failed =>
              simp only [resume, Option.some.injEq] at hr
              subst hr
              exact Or.inl ⟨rfl, rfl⟩
          | mic o => simp [resume] at hr
          | post o => simp [resume] at hr
          | query o => simp [resume] at hr
  | data chunk => exact Or.inl ⟨rfl, rfl⟩
  | wait d => exact Or.inl ⟨rfl, rfl⟩


theorem play_idle_text (moves : List Move) :
    (play moves Page.mount).1.comp.st.transcriptionStatus = .idle →
      (play moves Page.mount).1.comp.st.transcriptionText = .str "" := by
  induction moves using List.reverseRecOn with
  | nil => intro _; rfl
  | append_singleton ms m ih =>
    rw [play_snoc]
    intro h
    rcases move_status_text m (play ms Page.mount).1 with h1 | h1 | h1 | h1 | h1
    · rw [h1.2]
      exact ih (h1.1 ▸ h)
    · exact h1.2
    · rw [h1.1] at h; exact absurd h (by decide)
    · rw [h1.1] at h; exact absurd h (by decide)
    · rw [h1.1] at h; exact absurd h (by decide)

theorem play_text_source (moves : List Move) :
    (play moves Page.mount).1.comp.st.transcriptionText = .str "" ∨
    ∃ i, Move.resolve i (.query (.response (.str "completed")
      (play moves Page.mount).1.comp.st.transcriptionText)) ∈ moves := by
  induction moves using List.reverseRecOn with
  | nil => exact Or.inl rfl
  | append_singleton ms m ih =>
    rw [play_snoc]
    have keep : (move m (play ms Page.mount).1).1.comp.st.transcriptionText
        = (play ms Page.mount).1.comp.st.transcriptionText →
        ((move m (play ms Page.mount).1).1.comp.st.transcriptionText = .str "" ∨
          ∃ i, Move.resolve i (.query (.response (.str "completed")
            (move m (play ms Page.mount).1).1.comp.st.transcriptionText)) ∈ ms ++ [m]) := by
      intro heq
      rw [heq]
      rcases ih with h | ⟨i, hi⟩
      · exact Or.inl h
      · exact Or.inr ⟨i, List.mem_append_left _ hi⟩
    rcases move_status_text m (play ms Page.mount).1 with h1 | h1 | h1 | h1 | h1
    · exact keep h1.2
    · exact Or.inl h1.2
    · exact keep h1.2
    · exact keep h1.2
    · obtain ⟨i, hi⟩ := h1.2
      exact Or.inr ⟨i, List.mem_append_right _ (by rw [← hi]; exact List.mem_singleton_self _)⟩

/-- The moves of a recording whose job "J1" completes while it records. -/
theorem play_completed_while_recording :
    (play [.clickStart, .resolve 0 (.mic (.granted [.live])),
        .resolve 0 (.post (.ok (.str "J1"))), .pollTick,
        .resolve 0 (.query (.response (.str "completed") (.str "chest pain")))]
      Page.mount).1.comp.st
      = { State.initial with
          isRecording := true, jobId := .str "J1", transcriptionStatus := .completed,
          transcriptionText := .str "chest pain" } := by
  decide

/-- C20, counterexample: job "J1" completes while recording and the final
check started by Stop throws: the status is error and the transcript is still
present; a `completed` response with an empty transcript leaves the status
completed with no text; and when Start is pressed again before the final check
of Stop is answered, the answer and the new job give the status processing
with the transcript of the earlier job. -/
theorem transcript_presence_fails :
    (play [.clickStart, .resolve 0 (.mic (.granted [.live])),
        .resolve 0 (.post (.ok (.str "J1"))), .pollTick,
        .resolve 0 (.query (.response (.str "completed") (.str "chest pain"))),
        .clickStop, .resolve 0 (.query .thrown)] Page.mount).1.comp.st.transcriptionStatus
      = .error ∧
    (play [.clickStart, .resolve 0 (.mic (.granted [.live])),
        .resolve 0 (.post (.ok (.str "J1"))), .pollTick,
        .resolve 0 (.query (.response (.str "completed") (.str "chest pain"))),
        .clickStop, .resolve 0 (.query .thrown)] Page.mount).1.comp.st.transcriptionText
      = .str "chest pain" ∧
    (play [.clickStart, .resolve 0 (.mic (.granted [.live])),
        .resolve 0 (.post (.ok (.str "J1"))), .pollTick,
        .resolve 0 (.query (.response (.str "completed") (.str "")))]
      Page.mount).1.comp.st.transcriptionStatus = .completed ∧
    (play [.clickStart, .resolve 0 (.mic (.granted [.live])),
        .resolve 0 (.post (.ok (.str "J1"))), .pollTick,
        .resolve 0 (.query (.response (.str "completed") (.str "")))]
      Page.mount).1.comp.st.transcriptionText.truthy = false ∧
    (play [.clickStart, .resolve 0 (.mic (.granted [.live])),
        .resolve 0 (.post (.ok (.str "J1"))), .pollTick,
        .resolve 0 (.query (.response (.str "completed") (.str "chest pain"))),
        .clickStop, .clickStart,
        .resolve 0 (.query (.response (.str "completed") (.str "chest pain"))),
        .resolve 0 (.mic (.granted [.live])), .resolve 0 (.post (.ok (.str "J2")))]
      Page.mount).1.comp.st.transcriptionStatus = .processing ∧
    (play [.clickStart, .resolve 0 (.mic (.granted [.live])),
        .resolve 0 (.post (.ok (.str "J1"))), .pollTick,
        .resolve 0 (.query (.response (.str "completed") (.str "chest pain"))),
        .clickStop, .clickStart,
        .resolve 0 (.query (.response (.str "completed") (.str "chest pain"))),
        .resolve 0 (.mic (.granted [.live])), .resolve 0 (.post (.ok (.str "J2")))]
      Page.mount).1.comp.st.transcriptionText = .str "chest pain" := by
  decide

/-- C20, amended: in every state reached from the mounted page by the
buttons, the file input, the select, the poll timer, fragments, time and the
answers of suspended calls in any order, a status of idle implies that the
text is the empty string, and a text other than the empty string is the
transcript delivered by a `completed` response of the run.  A `completed`
response sets the status to completed and the text to its transcript,
whatever that is. -/
theorem transcript_presence (moves : List Move) :
    ((play moves Page.mount).1.comp.st.transcriptionStatus = .idle →
      (play moves Page.mount).1.comp.st.transcriptionText = .str "") ∧
    ((play moves Page.mount).1.comp.st.transcriptionText = .str "" ∨
      ∃ i, Move.resolve i (.query (.response (.str "completed")
        (play moves Page.mount).1.comp.st.transcriptionText)) ∈ moves) ∧
    (∀ (jId t : JsVal) (p : Page) (i : Nat), p.pending.get? i = some (.status jId) →
      (move (.resolve i (.query (.response (.str "completed") t))) p).1.comp.st.transcriptionStatus
        = .completed ∧
      (move (.resolve i (.query (.response (.str "completed") t))) p).1.comp.st.transcriptionText
        = t) := by
  refine ⟨play_idle_text moves, play_text_source moves, ?_⟩
  intro jId t p i hi
  simp only [move]
  rw [hi]
  simp [resume, checkTranscriptionStatus]

/-- Witness of C20, amended, at a second start pressed after job "J1" completed. -/
theorem transcript_presence_witness :
    (play [.clickStart, .resolve 0 (.mic (.granted [.live])),
        .resolve 0 (.post (.ok (.str "J1"))), .pollTick,
        .resolve 0 (.query (.response (.str "completed") (.str "chest pain"))),
        .clickStop, .resolve 0 (.query (.response (.str "completed") (.str "chest pain"))),
        .clickStart] Page.mount).1.comp.st.transcriptionStatus = .idle ∧
    (play [.clickStart, .resolve 0 (.mic (.granted [.live])),
        .resolve 0 (.post (.ok (.str "J1"))), .pollTick,
        .resolve 0 (.query (.response (.str "completed") (.str "chest pain"))),
        .clickStop, .resolve 0 (.query (.response (.str "completed") (.str "chest pain"))),
        .clickStart] Page.mount).1.comp.st.transcriptionText = .str "" :=
  ⟨by decide,
    (transcript_presence [.clickStart, .resolve 0 (.mic (.granted [.live])),
        .resolve 0 (.post (.ok (.str "J1"))), .pollTick,
        .resolve 0 (.query (.response (.str "completed") (.str "chest pain"))),
        .clickStop, .resolve 0 (.query (.response (.str "completed") (.str "chest pain"))),
        .clickStart]).1 (by decide)⟩


theorem pauseRecording_specialty (cl : State) (c : Comp) :
    (pauseRecording cl c).st.specialty = c.st.specialty := by
  unfold pauseRecording
  split
  · rfl
  · split_ifs <;> rfl

theorem stopRecordingBegin_specialty (cl : State) (c : Comp) :
    (stopRecordingBegin cl c).1.st.specialty = c.st.specialty := by
  unfold stopRecordingBegin
  split
  · rfl
  · split_ifs <;> rfl

theorem resume_specialty (pd : Pending) (a : Answer) (c : Comp)
    (r : Comp × List Pending × List Event) (h : resume pd a c = some r) :
    r.1.st.specialty = c.st.specialty ∧
    (∀ x ∈ r.2.1, ∀ cl, x.closure = some cl → pd.closure = some cl) ∧
    (∀ e ∈ r.2.2, ∀ sp, e.specialty = some sp → ∃ cl, pd.closure = some cl ∧ cl.specialty = sp) := by
  cases pd with
  | mic cl =>
    cases a with
    | mic o =>
      cases o with
      | granted stream =>
        simp only [resume, Option.some.injEq] at h
        subst h
        simp [startRecordingGranted, Pending.closure, Event.specialty]
      | denied =>
        simp only [resume, Option.some.injEq] at h
        subst h
        simp [Event.specialty]
    | post o => simp [resume] at h
    | query o => simp [resume] at h
    | gen o => simp [resume] at h
  | startJob cl =>
    cases a with
    | post o =>
      cases o with
      | ok j =>
        simp only [resume, Option.some.injEq] at h
        subst h
        simp [startRecordingJobStarted]
      | failed =>
        simp only [resume, Option.some.injEq] at h
        subst h
        simp [Event.specialty]
    | mic o => simp [resume] at h
    | query o => simp [resume] at h
    | gen o => simp [resume] at h
  | upload cl f =>
    cases a with
    | post o =>
      cases o with
      | ok j =>
        simp only [resume, Option.some.injEq] at h
        subst h
        simp [Event.specialty]
      | failed =>
        simp only [resume, Option.some.injEq] at h
        subst h
        simp [Event.specialty]
    | mic o => simp [resume] at h
    | query o => simp [resume] at h
    | gen o => simp [resume] at h
  | status jId =>
    cases a with
    | query q =>
      simp only [resume, Option.some.injEq] at h
      subst h
      refine ⟨(checkTranscriptionStatus_keeps jId q c).2.1, by simp, ?_⟩
      cases q with
      | thrown => simp [checkTranscriptionStatus]
      | response status transcript =>
        simp only [checkTranscriptionStatus]
        split_ifs <;> simp [Event.specialty]
    | mic o => simp [resume] at h
    | post o => simp [resume] at h
    | gen o => simp [resume] at h
  | note cl =>
    cases a with
    | gen o =>
      cases o with
      | ok n =>
        simp only [resume, Option.some.injEq] at h
        subst h
        simp [Event.specialty]
      | failed =>
        simp only [resume, Option.some.injEq] at h
        subst h
        simp [Event.specialty]
    | mic o => simp [resume] at h
    | post o => simp [resume] at h
    | query o => simp [resume] at h

theorem aligned_append {s : String} {p : Page} (h : Aligned s p) (c : Comp)
    (hc : c.st.specialty = s) (extra : List Pending)
    (he : ∀ pd ∈ extra, ∀ cl, pd.closure = some cl → cl.specialty = s) :
    Aligned s { comp := c, pending := p.pending ++ extra } := by
  refine ⟨hc, ?_⟩
  intro pd hpd cl hcl
  rcases List.mem_append.1 hpd with h1 | h1
  · exact h.2 pd h1 cl hcl
  · exact he pd h1 cl hcl

theorem aligned_move {s : String} {p : Page} (h : Aligned s p) (m : Move)
    (hm : m.isSelect = false) :
    Aligned s (move m p).1 ∧
    ∀ e ∈ (move m p).2, ∀ sp, e.specialty = some sp → sp = s := by
  cases m with
  | select value => simp [Move.isSelect] at hm
  | clickStart =>
    simp only [move]
    split_ifs
    · exact ⟨h, by simp⟩
    · refine ⟨aligned_append h _ (by simpa [startRecordingBegin] using h.1) _ ?_, ?_⟩
      · intro pd hpd cl hcl
        rw [List.mem_singleton] at hpd
        subst hpd
        simp only [Pending.closure, Option.some.injEq] at hcl
        rw [← hcl]; exact h.1
      · simp [Event.specialty]
  | clickPause =>
    simp only [move]
    split_ifs
    · exact ⟨h, by simp⟩
    · exact ⟨⟨by simpa [pauseRecording_specialty] using h.1, h.2⟩, by simp⟩
  | clickStop =>
    simp only [move]
    split_ifs
    · exact ⟨h, by simp⟩
    · refine ⟨aligned_append h _ (by simpa [stopRecordingBegin_specialty] using h.1) _ ?_, ?_⟩
      · intro pd hpd cl hcl
        rcases List.mem_map.1 hpd with ⟨j, _, rfl⟩
        simp [Pending.closure] at hcl
      · intro e he sp hsp
        rcases List.mem_map.1 he with ⟨j, _, rfl⟩
        simp [Event.specialty] at hsp
  | pickFile file =>
    simp only [move]
    split_ifs
    · exact ⟨h, by simp⟩
    · cases file with
      | none => exact ⟨h, by simp⟩
      | some f =>
        simp only
        split_ifs
        · exact ⟨h, by simp [Event.specialty]⟩
        · exact ⟨h, by simp [Event.specialty]⟩
        · refine ⟨aligned_append h _ (by simpa using h.1) _ ?_, ?_⟩
          · intro pd hpd cl hcl
            rw [List.mem_singleton] at hpd
            subst hpd
            simp only [Pending.closure, Option.some.injEq] at hcl
            rw [← hcl]; exact h.1
          · intro e he sp hsp
            rw [List.mem_singleton] at he
            subst he
            simp only [Event.specialty, Option.some.injEq] at hsp
            rw [← hsp]; exact h.1
  | clickGenerate =>
    simp only [move]
    split_ifs
    · exact ⟨h, by simp⟩
    · exact ⟨h, by simp [Event.specialty]⟩
    · refine ⟨aligned_append h _ h.1 _ ?_, ?_⟩
      · intro pd hpd cl hcl
        rw [List.mem_singleton] at hpd
        subst hpd
        simp only [Pending.closure, Option.some.injEq] at hcl
        rw [← hcl]; exact h.1
      · intro e he sp hsp
        rw [List.mem_singleton] at he
        subst he
        simp only [Event.specialty, Option.some.injEq] at hsp
        rw [← hsp]; exact h.1
  | pollTick =>
    simp only [move]
    split
    · exact ⟨h, by simp⟩
    · split
      · refine ⟨aligned_append h _ h.1 _ ?_, by simp [Event.specialty]⟩
        intro pd hpd cl hcl
        rw [List.mem_singleton] at hpd
        subst hpd
        simp [Pending.closure] at hcl
      · exact ⟨h, by simp⟩
  | resolve i a =>
    simp only [move]
    split
    · exact ⟨h, by simp⟩
    · next pd hpd =>
      split
      · exact ⟨h, by simp⟩
      · next r hr =>
        have hres := resume_specialty pd a p.comp r hr
        have hmem : pd ∈ p.pending := List.get?_mem hpd
        refine ⟨⟨by simpa [hres.1] using h.1, ?_⟩, ?_⟩
        · intro x hx cl hcl
          rcases List.mem_append.1 hx with h1 | h1
          · exact h.2 x (List.mem_of_mem_eraseIdx h1) cl hcl
          · exact h.2 pd hmem cl (hres.2.1 x h1 cl hcl)
        · intro e he sp hsp
          obtain ⟨cl, hcl, hsp2⟩ := hres.2.2 e he sp hsp
          rw [← hsp2]
          exact h.2 pd hmem cl hcl
  | data chunk => exact ⟨⟨h.1, h.2⟩, by simp [move]⟩
  | wait d => exact ⟨⟨h.1, h.2⟩, by simp [move]⟩

theorem aligned_play {s : String} (moves : List Move) {p : Page} (h : Aligned s p)
    (hm : ∀ m ∈ moves, m.isSelect = false) :
    Aligned s (play moves p).1 ∧
    ∀ e ∈ (play moves p).2, ∀ sp, e.specialty = some sp → sp = s := by
  induction moves generalizing p with
  | nil => exact ⟨h, by simp [play]⟩
  | cons m rest ih =>
    rw [play_cons]
    have h1 := aligned_move h m (hm m (List.mem_cons_self _ _))
    have h2 := ih h1.1 (fun x hx => hm x (List.mem_cons_of_mem _ hx))
    refine ⟨h2.1, ?_⟩
    intro e he sp hsp
    rcases List.mem_append.1 he with h3 | h3
    · exact h1.2 e h3 sp hsp
    · exact h2.2 e h3 sp hsp

theorem aligned_mount : Aligned "PRIMARY_CARE" Page.mount :=
  ⟨rfl, by intro pd hpd; exact absurd hpd (List.not_mem_nil _)⟩


/-! ## The claims, fourth part -/

/-- C5: note generation requires a completed job.  The button that calls
`handleGenerateNote` is the only caller and is disabled unless the status is
completed, so in every state whose status is not completed (idle, processing
or error) invoking it sends no generate-note request, performs no
navigation, suspends no call and leaves the status and everything else
unchanged.  Without a truthy `jobId` the handler itself sends no request and
changes nothing. -/
theorem clickGenerateNote_requires_completed (gen : GenOutcome) (c : Comp) (p : Page)
    (h : c.st.transcriptionStatus ≠ .completed)
    (hp : p.comp.st.transcriptionStatus ≠ .completed) :
    clickGenerateNote gen c = (c, []) ∧
    sendsGenerate (clickGenerateNote gen c).2 = false ∧
    (clickGenerateNote gen c).1.st.transcriptionStatus = c.st.transcriptionStatus ∧
    move .clickGenerate p = (p, []) ∧
    ∀ cl : State, cl.jobId.truthy = false →
      sendsGenerate (handleGenerateNote cl gen c).2 = false ∧
      (handleGenerateNote cl gen c).1 = c := by
  have h1 : clickGenerateNote gen c = (c, []) := by simp [clickGenerateNote, h]
  refine ⟨h1, by rw [h1]; rfl, by rw [h1], by simp [move, hp], ?_⟩
  intro cl hj
  simp [handleGenerateNote, hj, sendsGenerate]

/-- Witness of C5, at the job "J1" that is still processing, for the
specialty `CARDIOLOGY`. -/
theorem clickGenerateNote_requires_completed_witness :
    exProcessing.st.transcriptionStatus ≠ .completed ∧
    exProcessing.st.jobId = .str "J1" ∧
    exProcessing.st.specialty = "CARDIOLOGY" ∧
    clickGenerateNote (.ok (.str "N1")) exProcessing = (exProcessing, []) ∧
    move .clickGenerate { comp := exProcessing, pending := [] }
      = ({ comp := exProcessing, pending := [] }, []) :=
  ⟨by decide, by decide, by decide,
    (clickGenerateNote_requires_completed (.ok (.str "N1")) exProcessing
      { comp := exProcessing, pending := [] } (by decide) (by decide)).1,
    (clickGenerateNote_requires_completed (.ok (.str "N1")) exProcessing
      { comp := exProcessing, pending := [] } (by decide) (by decide)).2.2.2.1⟩

/-- C25, counterexample: Start is clicked with the specialty `PRIMARY_CARE`;
while the microphone request is pending the select is enabled and is changed
to `CARDIOLOGY`; the start-job request then carries `PRIMARY_CARE`, and after
the job "J1" has completed the generate-note request for it carries
`CARDIOLOGY`.  Likewise a change of the select after the job has completed. -/
theorem specialty_changed_after_creation :
    creationSpecialties
      (play [.clickStart, .select "CARDIOLOGY", .resolve 0 (.mic (.granted [.live])),
        .resolve 0 (.post (.ok (.str "J1"))), .pollTick,
        .resolve 0 (.query (.response (.str "completed") (.str "chest pain"))),
        .clickStop, .resolve 0 (.query (.response (.str "completed") (.str "chest pain"))),
        .clickGenerate] Page.mount).2 = ["PRIMARY_CARE"] ∧
    generateRequests
      (play [.clickStart, .select "CARDIOLOGY", .resolve 0 (.mic (.granted [.live])),
        .resolve 0 (.post (.ok (.str "J1"))), .pollTick,
        .resolve 0 (.query (.response (.str "completed") (.str "chest pain"))),
        .clickStop, .resolve 0 (.query (.response (.str "completed") (.str "chest pain"))),
        .clickGenerate] Page.mount).2 = [(.str "J1", "CARDIOLOGY")] ∧
    creationSpecialties
      (play [.clickStart, .resolve 0 (.mic (.granted [.live])),
        .resolve 0 (.post (.ok (.str "J1"))), .pollTick,
        .resolve 0 (.query (.response (.str "completed") (.str "chest pain"))),
        .clickStop, .resolve 0 (.query (.response (.str "completed") (.str "chest pain"))),
        .select "NEUROLOGY", .clickGenerate] Page.mount).2 = ["PRIMARY_CARE"] ∧
    generateRequests
      (play [.clickStart, .resolve 0 (.mic (.granted [.live])),
        .resolve 0 (.post (.ok (.str "J1"))), .pollTick,
        .resolve 0 (.query (.response (.str "completed") (.str "chest pain"))),
        .clickStop, .resolve 0 (.query (.response (.str "completed") (.str "chest pain"))),
        .select "NEUROLOGY", .clickGenerate] Page.mount).2 = [(.str "J1", "NEUROLOGY")] := by
  decide

/-- C25, amended: the specialty cell is written by the select only, and the
select is disabled while recording, while the status is processing and while
a file is uploading; otherwise, in particular while the microphone request of
a start is pending and after the job has completed or failed, it sets the
cell.  A start-job, upload or generate-note request carries the specialty of
the render in which its button was clicked.  Hence, from a page in which the
cell and every suspended call hold the specialty `s` (the mounted page, or a
page with nothing suspended right after the select chose `s`), in every run
without a change of the select every start-job, upload and generate-note
request carries `s` and the cell stays `s`. -/
theorem specialty_follows_select (s v : String) (p : Page) (moves : List Move)
    (ha : Aligned s p) (hm : ∀ m ∈ moves, m.isSelect = false) :
    (∀ e ∈ (play moves p).2, ∀ sp, e.specialty = some sp → sp = s) ∧
    (play moves p).1.comp.st.specialty = s ∧
    (∀ q : Page,
      q.comp.st.isRecording = true ∨ q.comp.st.transcriptionStatus = .processing ∨
        q.comp.st.uploadingFile = true →
      move (.select v) q = (q, [])) ∧
    (∀ q : Page,
      q.comp.st.isRecording = false → q.comp.st.transcriptionStatus ≠ .processing →
        q.comp.st.uploadingFile = false →
      (move (.select v) q).1.comp.st = { q.comp.st with specialty := v } ∧
      (move (.select v) q).1.pending = q.pending ∧
      (q.pending = [] → Aligned v (move (.select v) q).1)) ∧
    Aligned "PRIMARY_CARE" Page.mount := by
  have hplay := aligned_play moves ha hm
  refine ⟨hplay.2, hplay.1.1, ?_, ?_, aligned_mount⟩
  · intro q hq
    have : selectSpecialty v q.comp = q.comp := by
      unfold selectSpecialty
      rcases hq with hq | hq | hq <;> simp [hq]
    simp [move, this]
  · intro q h1 h2 h3
    have hst : (selectSpecialty v q.comp).st = { q.comp.st with specialty := v } := by
      simp [selectSpecialty, h1, h2, h3, setSpecialty]
    refine ⟨by simp [move, hst], rfl, ?_⟩
    intro hnil
    refine ⟨by simp [move, hst], ?_⟩
    intro pd hpd
    simp only [move] at hpd
    rw [hnil] at hpd
    exact absurd hpd (List.not_mem_nil _)

/-- Witness of C25, amended, at a whole recording without a change of the
select, and at the select while recording and after the job has completed. -/
theorem specialty_follows_select_witness :
    (∀ e ∈ (play [.clickStart, .resolve 0 (.mic (.granted [.live])),
          .resolve 0 (.post (.ok (.str "J1"))), .pollTick,
          .resolve 0 (.query (.response (.str "completed") (.str "chest pain"))),
          .clickStop, .resolve 0 (.query (.response (.str "completed") (.str "chest pain"))),
          .clickGenerate] Page.mount).2,
      ∀ sp, e.specialty = some sp → sp = "PRIMARY_CARE") ∧
    generateRequests
      (play [.clickStart, .resolve 0 (.mic (.granted [.live])),
          .resolve 0 (.post (.ok (.str "J1"))), .pollTick,
          .resolve 0 (.query (.response (.str "completed") (.str "chest pain"))),
          .clickStop, .resolve 0 (.query (.response (.str "completed") (.str "chest pain"))),
          .clickGenerate] Page.mount).2 = [(.str "J1", "PRIMARY_CARE")] ∧
    move (.select "CARDIOLOGY") { comp := exRecording, pending := [] }
      = ({ comp := exRecording, pending := [] }, []) ∧
    (move (.select "NEUROLOGY") { comp := exCompleted, pending := [] }).1.comp.st
      = { exCompleted.st with specialty := "NEUROLOGY" } :=
  ⟨(specialty_follows_select "PRIMARY_CARE" "CARDIOLOGY" Page.mount
      [.clickStart, .resolve 0 (.mic (.granted [.live])),
        .resolve 0 (.post (.ok (.str "J1"))), .pollTick,
        .resolve 0 (.query (.response (.str "completed") (.str "chest pain"))),
        .clickStop, .resolve 0 (.query (.response (.str "completed") (.str "chest pain"))),
        .clickGenerate] aligned_mount (by decide)).1,
    by decide,
    (specialty_follows_select "PRIMARY_CARE" "CARDIOLOGY" Page.mount [] aligned_mount
      (by decide)).2.2.1 { comp := exRecording, pending := [] } (Or.inl (by decide)),
    ((specialty_follows_select "PRIMARY_CARE" "NEUROLOGY" Page.mount [] aligned_mount
      (by decide)).2.2.2.1 { comp := exCompleted, pending := [] }
      (by decide) (by decide) (by decide)).1⟩

/-- C26, amended: two status-query outcomes applied in either order give the
same state when one of them is a response whose status is neither `completed`
nor `failed`, when both are failures (a `failed` response or a thrown query),
or when they are equal.  In every case an outcome applied last that is a
`completed` response, a `failed` response or a thrown query alone decides the
final status; so a `completed` response and a failure end in error when the
failure is applied last and in completed when the response is applied last. -/
theorem check_order_converges (j j2 : JsVal) (r1 r2 : QueryOutcome) (t : JsVal) (c : Comp) :
    (r1.isNoop = true ∨ r2.isNoop = true ∨
        (r1.isFailure = true ∧ r2.isFailure = true) ∨ r1 = r2 →
      (checkTranscriptionStatus j2 r2 (checkTranscriptionStatus j r1 c).1).1
        = (checkTranscriptionStatus j r1 (checkTranscriptionStatus j2 r2 c).1).1) ∧
    (r2.isNoop = false →
      (checkTranscriptionStatus j2 r2 (checkTranscriptionStatus j r1 c).1).1.st.transcriptionStatus
        = (checkTranscriptionStatus j2 r2 c).1.st.transcriptionStatus) ∧
    (r2.isFailure = true →
      (checkTranscriptionStatus j2 r2
        (checkTranscriptionStatus j (.response (.str "completed") t) c).1).1.st.transcriptionStatus
        = .error ∧
      (checkTranscriptionStatus j (.response (.str "completed") t)
        (checkTranscriptionStatus j2 r2 c).1).1.st.transcriptionStatus = .completed) := by
  refine ⟨?_, ?_, ?_⟩
  · intro h
    simp only [checkTranscriptionStatus_st]
    rcases h with h | h | ⟨h1, h2⟩ | h
    · cases r1 with
      | thrown => simp [QueryOutcome.isNoop] at h
      | response s1 t1 =>
        simp only [QueryOutcome.isNoop, Bool.and_eq_true, bne_iff_ne, ne_eq] at h
        simp [h.1, h.2]
    · cases r2 with
      | thrown => simp [QueryOutcome.isNoop] at h
      | response s2 t2 =>
        simp only [QueryOutcome.isNoop, Bool.and_eq_true, bne_iff_ne, ne_eq] at h
        simp [h.1, h.2]
    · cases r1 with
      | thrown =>
        cases r2 with
        | thrown => rfl
        | response s2 t2 =>
          simp only [QueryOutcome.isFailure, beq_iff_eq] at h2
          simp [h2]
      | response s1 t1 =>
        simp only [QueryOutcome.isFailure, beq_iff_eq] at h1
        cases r2 with
        | thrown => simp [h1]
        | response s2 t2 =>
          simp only [QueryOutcome.isFailure, beq_iff_eq] at h2
          simp [h1, h2]
    · subst h
      rfl
  · intro hn
    simp only [checkTranscriptionStatus_st]
    cases r2 with
    | thrown => rfl
    | response s2 t2 =>
      simp only [QueryOutcome.isNoop, Bool.and_eq_false_iff, bne_eq_false_iff_eq] at hn
      rcases hn with hn | hn
      · simp [hn]
      · simp [hn]
  · intro hf
    simp only [checkTranscriptionStatus_st]
    cases r2 with
    | thrown => exact ⟨rfl, rfl⟩
    | response s2 t2 =>
      simp only [QueryOutcome.isFailure, beq_iff_eq] at hf
      simp [hf]

/-- Witness of C26, amended, at a `processing` answer crossing a `completed`
one, and at a thrown query crossing a `completed` answer. -/
theorem check_order_converges_witness :
    (checkTranscriptionStatus (.str "J1") (.response (.str "completed") (.str "chest pain"))
      (checkTranscriptionStatus (.str "J1") (.response (.str "processing") .undefined)
        exProcessing).1).1
      = (checkTranscriptionStatus (.str "J1") (.response (.str "processing") .undefined)
          (checkTranscriptionStatus (.str "J1")
            (.response (.str "completed") (.str "chest pain")) exProcessing).1).1 ∧
    (checkTranscriptionStatus (.str "J1") .thrown
      (checkTranscriptionStatus (.str "J1") (.response (.str "processing") .undefined)
        exProcessing).1).1.st.transcriptionStatus
      = (checkTranscriptionStatus (.str "J1") .thrown exProcessing).1.st.transcriptionStatus ∧
    (checkTranscriptionStatus (.str "J1") .thrown
      (checkTranscriptionStatus (.str "J1") (.response (.str "completed") (.str "chest pain"))
        exProcessing).1).1.st.transcriptionStatus = .error ∧
    (checkTranscriptionStatus (.str "J1") (.response (.str "completed") (.str "chest pain"))
      (checkTranscriptionStatus (.str "J1") .thrown
        exProcessing).1).1.st.transcriptionStatus = .completed :=
  ⟨(check_order_converges (.str "J1") (.str "J1") (.response (.str "processing") .undefined)
      (.response (.str "completed") (.str "chest pain")) .null exProcessing).1
      (Or.inl (by decide)),
    (check_order_converges (.str "J1") (.str "J1") (.response (.str "processing") .undefined)
      .thrown .null exProcessing).2.1 (by decide),
    ((check_order_converges (.str "J1") (.str "J1") .thrown .thrown (.str "chest pain")
      exProcessing).2.2 (by decide)).1,
    ((check_order_converges (.str "J1") (.str "J1") .thrown .thrown (.str "chest pain")
      exProcessing).2.2 (by decide)).2⟩

/-- The button that calls `startRecording` is rendered only while `isRecording`
is false: in a state with `isRecording = true` a click on it cannot happen,
and in the run of the component it does nothing. -/
theorem clickStart_while_recording (mic : MicOutcome) (post : PostOutcome) (c : Comp)
    (p : Page) (h : c.st.isRecording = true) (hp : p.comp.st.isRecording = true) :
    clickStart mic post c = (c, []) ∧ move .clickStart p = (p, []) := by
  simp [clickStart, move, h, hp]

/-- C27, the code at the failing input: Start is clicked twice before the
microphone request is answered, so two requests are pending.  When the first
is granted the component records on the first stream and holds its live track;
when the second is granted, while `isRecording` is true, the recorder is
replaced by one on the second stream and the first was never stopped; the
following Stop ends the tracks of the second stream only. -/
theorem double_start_overwrites_recorder :
    (play [.clickStart, .clickStart] Page.mount).2 = [.getUserMedia, .getUserMedia] ∧
    (play [.clickStart, .clickStart] Page.mount).1.pending
      = [.mic State.initial, .mic State.initial] ∧
    (play [.clickStart, .clickStart, .resolve 0 (.mic (.granted [.live]))]
      Page.mount).1.comp.st.isRecording = true ∧
    (play [.clickStart, .clickStart, .resolve 0 (.mic (.granted [.live]))]
      Page.mount).1.comp.mediaRecorderRef = some { state := .recording, stream := [.live] } ∧
    deviceHeld (play [.clickStart, .clickStart, .resolve 0 (.mic (.granted [.live]))]
      Page.mount).1.comp = true ∧
    (play [.clickStart, .clickStart, .resolve 0 (.mic (.granted [.live])),
        .resolve 0 (.mic (.granted [.live, .live]))]
      Page.mount).1.comp.mediaRecorderRef
      = some { state := .recording, stream := [.live, .live] } ∧
    (play [.clickStart, .clickStart, .resolve 0 (.mic (.granted [.live])),
        .resolve 0 (.mic (.granted [.live, .live])), .clickStop]
      Page.mount).1.comp.mediaRecorderRef
      = some { state := .inactive, stream := [.ended, .ended] } := by
  decide


/-- C28, counterexample: the Number `6e22` is formatted as `1e+21:00`: the
quotient `1e21` is printed in exponent notation, not as its decimal numeral,
and reading the fields back does not give the argument. -/
theorem formatTime_exponent_notation :
    isNumber (6 * 10 ^ 22) = true ∧
    formatTime (6 * 10 ^ 22) = some "1e+21:00" ∧
    clockText (6 * 10 ^ 22) = "1000000000000000000000:00" ∧
    formatTime (6 * 10 ^ 22) ≠ some (clockText (6 * 10 ^ 22)) ∧
    readTime "1e+21:00" ≠ 6 * 10 ^ 22 := by
  decide

/-- C28, amended: `formatTime` is a lossless MM:SS rendering of the natural
numbers up to `Number.MAX_SAFE_INTEGER`.  For such `n` its output is the
decimal numeral of the quotient by 60, padded on the left with `0` to at
least two characters, then a colon, then the remainder modulo 60 as exactly
two characters that read as a number below 60; reading the two fields back
gives `n`, so `formatTime` is injective on these numbers; and the output has
length 5 exactly when `n` is below 6000. -/
theorem formatTime_lossless (n : Nat) (h : n ≤ maxSafeInteger) :
    formatTime n
      = some (padStart (decimal (n / 60)) 2 "0" ++ ":" ++ padStart (decimal (n % 60)) 2 "0") ∧
    (∃ s, formatTime n = some s ∧
      s.data
        = (List.replicate (2 - (decimal (n / 60)).length) '0' ++ (decimal (n / 60)).data)
          ++ ':' :: (List.replicate (2 - (decimal (n % 60)).length) '0'
            ++ (decimal (n % 60)).data) ∧
      readTime s = n ∧
      (s.length = 5 ↔ n < 6000)) ∧
    (padStart (decimal (n / 60)) 2 "0").length = max 2 (decimal (n / 60)).length ∧
    readDecimal (padStart (decimal (n / 60)) 2 "0").data = n / 60 ∧
    (padStart (decimal (n % 60)) 2 "0").length = 2 ∧
    readDecimal (padStart (decimal (n % 60)) 2 "0").data = n % 60 ∧
    n % 60 < 60 ∧
    (∀ m : Nat, m ≤ maxSafeInteger → formatTime n = formatTime m → n = m) := by
  have hn : ∀ k : Nat, (decimal k).data = Nat.toDigits 10 k := fun _ => rfl
  have hl : ∀ k : Nat, (decimal k).length = (Nat.toDigits 10 k).length := fun _ => rfl
  have hpl : ∀ k : Nat, (padStart (decimal k) 2 "0").length
      = (2 - (Nat.toDigits 10 k).length) + (Nat.toDigits 10 k).length := by
    intro k
    show (padStart (decimal k) 2 "0").data.length = _
    rw [padStart_zero_data, hn]
    simp
  have hs2 : (Nat.toDigits 10 (n % 60)).length ≤ 2 :=
    (toDigits_length_le_two (n % 60)).2 (by omega)
  have hs1 := toDigits_length_pos (n % 60)
  have hm1 := toDigits_length_pos (n / 60)
  refine ⟨formatTime_safe n h, ⟨clockText n, formatTime_safe n h, ?_, readTime_clockText n, ?_⟩,
    ?_, ?_, ?_, ?_, Nat.mod_lt n (by decide), ?_⟩
  · rw [clockText_data]
    rfl
  · have hlen : (clockText n).length
        = (2 - (Nat.toDigits 10 (n / 60)).length) + (Nat.toDigits 10 (n / 60)).length + 1
          + ((2 - (Nat.toDigits 10 (n % 60)).length) + (Nat.toDigits 10 (n % 60)).length) := by
      show (clockText n).data.length = _
      rw [clockText_data]
      simp only [List.length_append, List.length_cons, List.length_replicate]
      omega
    have hiff := toDigits_length_le_two (n / 60)
    rw [hlen]
    constructor
    · intro h5
      have : (Nat.toDigits 10 (n / 60)).length ≤ 2 := by omega
      have := hiff.1 this
      omega
    · intro h5
      have := hiff.2 (by omega)
      omega
  · rw [hpl, hl]
    omega
  · rw [padStart_zero_data, hn, readDecimal_zeros, readDecimal_toDigits]
  · rw [hpl]
    omega
  · rw [padStart_zero_data, hn, readDecimal_zeros, readDecimal_toDigits]
  · intro m hm heq
    rw [formatTime_safe n h, formatTime_safe m hm] at heq
    have := congrArg readTime (Option.some.inj heq)
    rwa [readTime_clockText, readTime_clockText] at this

/-- Witness of C28, amended, at 125 seconds and at the largest safe integer. -/
theorem formatTime_lossless_witness :
    125 ≤ maxSafeInteger ∧
    formatTime 125 = some "02:05" ∧
    readDecimal (padStart (decimal (125 / 60)) 2 "0").data = 2 ∧
    readDecimal (padStart (decimal (125 % 60)) 2 "0").data = 5 ∧
    formatTime maxSafeInteger = some "150119987579016:31" :=
  ⟨by decide, (formatTime_lossless 125 (by decide)).1,
    (formatTime_lossless 125 (by decide)).2.2.2.1,
    (formatTime_lossless 125 (by decide)).2.2.2.2.2.1,
    (formatTime_lossless maxSafeInteger (Nat.le_refl _)).1⟩


end Scribely
